import Mathlib

/-! Transport core of the XR806 wireless driver (`xr806/txrx.c`) and the chip-enable
policy of `sunxi-rf/sunxi-wlan.c`

A shallow embedding of the frame codec, the sequence tracker, the transmit
priority rule and the flow controller of `txrx.c`, followed by theorems about
them.  Buffers are lists of bytes (naturals below 256), machine integers are
naturals or integers with explicit truncation, calls to collaborators outside
the file are recorded as a trace of events.  Debug output (`txrx_printk`,
`xradio_parse_frame`, the byte dump after a checksum failure) is left out except
for the two lines the properties speak about, and so is the locking
(`tx_mutex`), which orders calls but computes nothing.  The host is taken to be
little-endian, so that a header field read back by the sender is the value
stored.  The receiver comes twice: on a buffer that holds all its header
announces (`xradio_rx_process`) and with the bytes that follow the buffer in
memory (`xradio_rx_process_mem`).  Calls are run one after the other
(`xradio_ops_run`), and the test and the set of the data pause flag also as
separate steps of two threads (`threads_run`).
-/

namespace Xr806

/-! ## Byte buffers -/

/-- The `n` bytes of `buf` starting at `off`, as far as `buf` reaches: `buf` is all the
memory a caller gives it, and a read of C that goes on behind a buffer is taken from the
buffer followed by the bytes behind it. -/
def mem_read (buf : List Nat) (off n : Nat) : List Nat :=
  (buf.drop off).take n

/-- Overwrite `buf` from `off` on with `src`; the buffer keeps its length. -/
def mem_write (buf : List Nat) (off : Nat) (src : List Nat) : List Nat :=
  (buf.take off ++ src ++ buf.drop (off + src.length)).take buf.length

/-- C `memset(buf + off, val, n)`. -/
def memset (buf : List Nat) (off val n : Nat) : List Nat :=
  mem_write buf off (List.replicate n val)

/-- C `memcpy(buf + off, src, n)`. -/
def memcpy (buf : List Nat) (off : Nat) (src : List Nat) (n : Nat) : List Nat :=
  mem_write buf off (src.take n)

/-- Store of a `u16` in little-endian order (`xradio_k_cpu_to_le16` and the store). -/
def put_le16 (buf : List Nat) (off v : Nat) : List Nat :=
  mem_write buf off [v % 256, v / 256 % 256]

/-- Load of a little-endian `u16` (`le16_to_cpu` of a header field). -/
def get_le16 (buf : List Nat) (off : Nat) : Nat :=
  buf.getD off 0 + 256 * buf.getD (off + 1) 0

/-! ## Constants and collaborators declared outside `txrx.c` -/

/-- The macros, the checksum routine and the command handlers that `txrx.c` uses but
that are declared in headers outside the sources at hand; they are parameters. -/
structure xradio_consts where
  /-- Alignment quantum of frame buffers. -/
  SKB_DATA_ADDR_ALIGNMENT : Nat
  /-- Type tag of a command frame. -/
  XR_REQ_CMD : Nat
  /-- Type tag of a data frame. -/
  XR_REQ_DATA : Nat
  /-- Mask of the type tag inside `message`. -/
  TYPE_ID_MASK : Nat
  /-- Mask of the sequence number inside `message`. -/
  SEQ_NUM_MASK : Nat
  /-- Command sub-type: the device asks the host to stop sending. -/
  XR_WIFI_DEV_RX_PAUSE : Nat
  /-- Command sub-type: the device lets the host send again. -/
  XR_WIFI_DEV_RX_RESUME : Nat
  /-- Lower end of the sub-type range of the low-level handler. -/
  XR_WIFI_DEV_HAND_WAY_RES : Nat
  /-- Upper end of the sub-type range of the low-level handler. -/
  XR_WIFI_DEV_KERNEL_MAX : Nat
  /-- The checksum routine `xradio_crc_16(data, len)` applied to the bytes it reads. -/
  xradio_crc_16 : List Nat → Nat
  /-- The field `type` of `struct cmd_payload`, read from the payload bytes. -/
  cmd_type : List Nat → Nat
  /-- Return value of `xradio_low_cmd_push(data, len)`. -/
  low_cmd_push_ret : List Nat → Nat → Int
  /-- Return value of `xradio_up_cmd_push(data, len)`. -/
  up_cmd_push_ret : List Nat → Nat → Int

/-- Modelled from the spec: `sizeof(struct xradio_hdr)`; the header (declared in
`xradio.h`, not among the sources) is five little-endian `u16` fields
`cur_len, next_len, offset, message, checksum`. -/
def XRADIO_HDR_SIZE : Nat := 10

/-- Modelled from the spec: byte position of `cur_len` in `struct xradio_hdr`. -/
def HDR_CUR_LEN : Nat := 0

/-- Modelled from the spec: byte position of `next_len` in `struct xradio_hdr`. -/
def HDR_NEXT_LEN : Nat := 2

/-- Modelled from the spec: byte position of `offset` in `struct xradio_hdr`. -/
def HDR_OFFSET : Nat := 4

/-- Modelled from the spec: byte position of `message` in `struct xradio_hdr`. -/
def HDR_MESSAGE : Nat := 6

/-- Modelled from the spec: byte position of `checksum` in `struct xradio_hdr`. -/
def HDR_CHECKSUM : Nat := 8

/-- Linux `EPERM`. -/
def EPERM : Int := 1

/-- Linux `ENOMEM`. -/
def ENOMEM : Int := 12

/-! ## Socket buffers -/

/-- The part of `struct sk_buff` the transport looks at: the headroom bytes in front of
`data`, the `len` bytes at `data`, and the address of `data`. -/
structure sk_buff where
  head : List Nat
  data : List Nat
  addr : Nat
deriving DecidableEq, Repr

/-- Kernel `skb_headroom`. -/
def skb_headroom (skb : sk_buff) : Nat := skb.head.length

/-- Kernel `skb_push(skb, n)`, called with `n` at most the headroom. -/
def skb_push (skb : sk_buff) (n : Nat) : sk_buff :=
  { head := skb.head.take (skb.head.length - n)
    data := skb.head.drop (skb.head.length - n) ++ skb.data
    addr := skb.addr - n }

/-- Kernel `skb_pull(skb, n)`: nothing happens when `n` exceeds `skb->len`. -/
def skb_pull (skb : sk_buff) (n : Nat) : sk_buff :=
  if n > skb.data.length then skb
  else { head := skb.head ++ skb.data.take n, data := skb.data.drop n, addr := skb.addr + n }

/-- Kernel `skb_trim(skb, len)`: shortens only. -/
def skb_trim (skb : sk_buff) (len : Nat) : sk_buff :=
  if skb.data.length > len then { skb with data := skb.data.take len } else skb

/-- A buffer fresh from `xradio_alloc_skb` after `skb_put(skb, n)`: `n` bytes of whatever
the allocator left there, `prior i` being the byte at position `i`. -/
def skb_alloc_put (prior : Nat → Nat) (n : Nat) : sk_buff :=
  { head := [], data := (List.range n).map prior, addr := 0 }

/-! ## Frame construction -/

/-- The frame built by `xradio_tx_cmd_process` (lines 68-97) in a freshly allocated
buffer whose bytes are `prior`, for sequence number `seq_number` and the `len` bytes at
`buffer`. -/
def xradio_tx_cmd_frame (c : xradio_consts) (prior : Nat → Nat) (seq_number : Nat)
    (buffer : List Nat) (len : Nat) : sk_buff :=
  let pad_len := c.SKB_DATA_ADDR_ALIGNMENT -
    ((len + XRADIO_HDR_SIZE) % c.SKB_DATA_ADDR_ALIGNMENT)
  let total_len := XRADIO_HDR_SIZE + len + pad_len
  let skb := skb_alloc_put prior total_len
  let tx_buff := skb.data
  let tx_buff := memset tx_buff 0 0 XRADIO_HDR_SIZE
  let tx_buff := put_le16 tx_buff HDR_CUR_LEN (len % 65536)
  let tx_buff := put_le16 tx_buff HDR_NEXT_LEN 0
  let tx_buff := put_le16 tx_buff HDR_OFFSET ((XRADIO_HDR_SIZE + pad_len) % 65536)
  let tx_buff := put_le16 tx_buff HDR_MESSAGE ((seq_number <<< 8 ||| c.XR_REQ_CMD) % 65536)
  let tx_buff := memcpy tx_buff (get_le16 tx_buff HDR_OFFSET) buffer len
  let tx_buff := put_le16 tx_buff HDR_CHECKSUM
    (c.xradio_crc_16 (mem_read tx_buff (XRADIO_HDR_SIZE + pad_len) len) % 65536)
  { skb with data := tx_buff }

/-- Padding in front of the payload as `xradio_tx_net_process` computes it (lines
137-143), header included; `len` is the `u16` copy of `skb->len`. -/
def xradio_tx_net_pad_len (c : xradio_consts) (len : Nat) : Nat :=
  let pad_len := XRADIO_HDR_SIZE
  let total_len := len + pad_len
  pad_len + (c.SKB_DATA_ADDR_ALIGNMENT - (total_len % c.SKB_DATA_ADDR_ALIGNMENT))

/-- The header and pad `xradio_tx_net_process` writes (lines 174-186) at `hdr`, the
start of the frame buffer, once the payload is in place behind `pad_len` bytes. -/
def xradio_tx_net_fill (c : xradio_consts) (seq_number len pad_len : Nat) (hdr : List Nat) :
    List Nat :=
  let hdr := memset hdr 0 0 pad_len
  let hdr := put_le16 hdr HDR_CUR_LEN (len % 65536)
  let hdr := put_le16 hdr HDR_NEXT_LEN 0
  let hdr := put_le16 hdr HDR_OFFSET (pad_len % 65536)
  let hdr := put_le16 hdr HDR_MESSAGE ((seq_number <<< 8 ||| c.XR_REQ_DATA) % 65536)
  put_le16 hdr HDR_CHECKSUM (c.xradio_crc_16 (mem_read hdr pad_len len) % 65536)

/-- Kernel `IS_ALIGNED(x, a)`, that is `(x & (a - 1)) == 0`. -/
def IS_ALIGNED (x a : Nat) : Bool := x &&& (a - 1) == 0

/-- The test of lines 145-146: the packet has to be copied into a new buffer, because
its headroom is too small for header and pad or its data is not aligned. -/
def xradio_tx_net_copies (c : xradio_consts) (skb : sk_buff) : Bool :=
  skb_headroom skb < xradio_tx_net_pad_len c (skb.data.length % 65536) ||
    !IS_ALIGNED skb.addr c.SKB_DATA_ADDR_ALIGNMENT

/-- The frame built by `xradio_tx_net_process` (lines 137-186) from the packet `skb`.
`linearize_ok` tells whether `skb_linearize` succeeds and `alloc` is the result of
`xradio_alloc_skb` (the prior bytes of the new buffer, or nothing when allocation
fails); both matter only when the packet has to be copied.  The result is `none` on the
two failure returns. -/
def xradio_tx_net_frame (c : xradio_consts) (linearize_ok : Bool) (alloc : Option (Nat → Nat))
    (seq_number : Nat) (skb : sk_buff) : Option sk_buff :=
  let len := skb.data.length % 65536
  let pad_len := xradio_tx_net_pad_len c len
  if xradio_tx_net_copies c skb then
    if !linearize_ok then none
    else
      match alloc with
      | none => none
      | some prior =>
        let new_skb := skb_alloc_put prior (skb.data.length + pad_len)
        let new_skb := { new_skb with data := mem_write new_skb.data pad_len skb.data }
        some { new_skb with data := xradio_tx_net_fill c seq_number len pad_len new_skb.data }
  else
    let skb := skb_push skb pad_len
    some { skb with data := xradio_tx_net_fill c seq_number len pad_len skb.data }

/-! ## Session state, queues and the trace of outside calls -/

/-- Calls that leave `txrx.c`, in the order they are made. -/
inductive Event where
  /-- `xradio_net_tx_pause(priv)`. -/
  | net_tx_pause
  /-- `xradio_net_tx_resume(priv)`. -/
  | net_tx_resume
  /-- `xradio_net_data_input(priv, skb)` with the bytes of `skb`. -/
  | net_data_input (data : List Nat)
  /-- `xradio_low_cmd_push(data, len)` with the `len` bytes at `data`. -/
  | low_cmd_push (data : List Nat) (len : Nat)
  /-- `xradio_up_cmd_push(data, len)` with the `len` bytes at `data`. -/
  | up_cmd_push (data : List Nat) (len : Nat)
  /-- `xradio_free_skb(skb)`. -/
  | free_skb
  /-- `dev_kfree_skb(skb)` or `dev_kfree_skb_any(skb)` on a packet of the network layer. -/
  | kfree_skb
  /-- The error line "checksum failed" with the two checksums. -/
  | log_checksum_failed (checksum c_checksum : Nat)
  /-- The warning "Missing pkt" with the expected and the actual sequence number. -/
  | log_missing_pkt (expect : Int) (actual : Nat)
  /-- `xradio_k_sem_give(&priv->tx_cmd_sem)`. -/
  | sem_give
  /-- `xradio_k_sem_take(&priv->tx_cmd_sem)`: the caller sleeps until a give. -/
  | sem_take
  /-- `wake_up(&priv->txrx_wq)`. -/
  | wake_up
  /-- `xradio_hwio_read(rx_len)`. -/
  | hw_read (rx_len : Int)
  /-- `xradio_hwio_write(tx_skb)`. -/
  | hw_write (skb : sk_buff)
  /-- `xradio_hwio_deinit(priv)`. -/
  | hw_deinit
  /-- `xradio_hwio_init(priv)`. -/
  | hw_init
  /-- `msleep(ms)`. -/
  | msleep (ms : Nat)
deriving DecidableEq, Repr

/-- Modelled from the spec: `struct xradio_queue` of `queue.h` (not among the sources),
the Slotted Queue of section 4.2: a fixed capacity and the entries, oldest first, each a
sequence key with its buffer. -/
structure xradio_queue where
  capacity : Nat
  items : List (Nat × sk_buff)
deriving DecidableEq, Repr

/-- Modelled from the spec: the result `Full` of `xradio_queue_put`; `txrx.c` only
tests the result against zero. -/
def QUEUE_FULL : Int := -1

/-- Modelled from the spec: `xradio_queue_put` (section 4.2 `put`): appends and returns
Ok (0) if there is space, returns Full without touching the queue otherwise. -/
def xradio_queue_put (q : xradio_queue) (skb : sk_buff) (seq : Nat) : Int × xradio_queue :=
  if q.items.length < q.capacity then (0, { q with items := q.items ++ [(seq, skb)] })
  else (QUEUE_FULL, q)

/-- Modelled from the spec: `xradio_queue_get` (section 4.2 `get`): removes and returns
the oldest entry, or nothing if the queue is empty. -/
def xradio_queue_get (q : xradio_queue) : Option sk_buff × xradio_queue :=
  match q.items with
  | [] => (none, q)
  | (_, skb) :: rest => (some skb, { q with items := rest })

/-- Modelled from the spec: `xradio_queue_remove` (section 4.2 `remove`): deletes the
entry with the given key and tells whether there was one. -/
def xradio_queue_remove (q : xradio_queue) (seq : Nat) : Bool × xradio_queue :=
  match q.items.findIdx? (fun e => e.1 == seq) with
  | none => (false, q)
  | some i => (true, { q with items := q.items.eraseIdx i })

/-- Modelled from the spec: `xradio_queue_get_queue_num` (section 4.2 `occupancy`). -/
def xradio_queue_get_queue_num (q : xradio_queue) : Nat := q.items.length

/-- The fields of `struct xradio_priv` used by `txrx.c`, with the static variables of
its functions (`seq_number` of the two senders, `dev_seq` of the receiver). -/
structure xradio_priv where
  txrx_enable : Bool
  th_tx : Int
  tx_data_pause : Int
  tx_cmd_pause : Int
  rx_pause_state : Int
  tx_queue_cmd : xradio_queue
  tx_queue_data : xradio_queue
  cmd_seq_number : Nat
  net_seq_number : Nat
  dev_seq : Int
deriving DecidableEq, Repr

/-- What a call leaves behind: its return value, the state and the outside calls made. -/
structure Out where
  ret : Int
  st : xradio_priv
  ev : List Event
deriving DecidableEq, Repr

/-- The state `xradio_register_trans` sets up (lines 466-485) when the worker thread is
created, around empty queues of the given capacities, with the peer pause state clear
and the static variables at their initial values. -/
def xradio_register_trans (cap_cmd cap_data : Nat) : xradio_priv :=
  { txrx_enable := true
    th_tx := 0
    tx_data_pause := 0
    tx_cmd_pause := 0
    rx_pause_state := 0
    tx_queue_cmd := { capacity := cap_cmd, items := [] }
    tx_queue_data := { capacity := cap_data, items := [] }
    cmd_seq_number := 0
    net_seq_number := 0
    dev_seq := -1 }

/-! ## Senders -/

/-- `xradio_wake_up_tx_work`. -/
def xradio_wake_up_tx_work (priv : xradio_priv) : xradio_priv × List Event :=
  ({ priv with th_tx := priv.th_tx + 1 }, [Event.wake_up])

/-- `xradio_tx_cmd_process`; `alloc` is the result of `xradio_alloc_skb` (the prior
bytes of the buffer, or nothing when allocation fails).  The wait on the semaphore is
the event `sem_take`; what follows it runs once the semaphore has been given. -/
def xradio_tx_cmd_process (c : xradio_consts) (alloc : Option (Nat → Nat))
    (priv : xradio_priv) (buffer : List Nat) (len : Nat) : Out :=
  if !priv.txrx_enable then { ret := -EPERM, st := priv, ev := [] }
  else
    match alloc with
    | none => { ret := -ENOMEM, st := priv, ev := [] }
    | some prior =>
      let seq_number := priv.cmd_seq_number
      let skb := xradio_tx_cmd_frame c prior seq_number buffer len
      let (ret, q) := xradio_queue_put priv.tx_queue_cmd skb seq_number
      let priv := { priv with tx_queue_cmd := q }
      let (priv, ev1) :=
        if ret ≠ 0 then ({ priv with tx_cmd_pause := 1 }, [Event.sem_take])
        else (priv, [])
      let priv := { priv with cmd_seq_number := (seq_number + 1) % 256 }
      let (priv, ev2) := xradio_wake_up_tx_work priv
      { ret := ret, st := priv, ev := ev1 ++ ev2 }

/-- `xradio_tx_net_process`; `linearize_ok` and `alloc` are the results of
`skb_linearize` and `xradio_alloc_skb`. -/
def xradio_tx_net_process (c : xradio_consts) (linearize_ok : Bool)
    (alloc : Option (Nat → Nat)) (priv : xradio_priv) (skb : sk_buff) : Out :=
  if !priv.txrx_enable then { ret := -1, st := priv, ev := [] }
  else
    let seq_number := priv.net_seq_number
    let ev0 := if xradio_tx_net_copies c skb then [Event.kfree_skb] else []
    match xradio_tx_net_frame c linearize_ok alloc seq_number skb with
    | none => { ret := -1, st := priv, ev := ev0 }
    | some skb =>
      let (ret, q) := xradio_queue_put priv.tx_queue_data skb seq_number
      let priv := { priv with tx_queue_data := q }
      let (priv, ev1) :=
        if (ret ≠ 0) ∧ (priv.tx_data_pause = (0 : Int)) then
          ({ priv with tx_data_pause := 1 }, [Event.net_tx_pause])
        else (priv, [])
      let priv := { priv with net_seq_number := (seq_number + 1) % 256 }
      let (priv, ev2) := xradio_wake_up_tx_work priv
      { ret := ret, st := priv, ev := ev0 ++ ev1 ++ ev2 }

/-! ## Receiver -/

/-- The type tag of a frame, `le16_to_cpu(hdr->message) & TYPE_ID_MASK` stored in a `u8`
(lines 297 and 343). -/
def hdr_type_id (c : xradio_consts) (hdr : List Nat) : Nat :=
  (get_le16 hdr HDR_MESSAGE &&& c.TYPE_ID_MASK) % 256

/-- The sequence number of a frame, `(le16_to_cpu(hdr->message) & SEQ_NUM_MASK) >> 8`
stored in a `u8` (lines 299 and 341). -/
def hdr_seq (c : xradio_consts) (hdr : List Nat) : Nat :=
  ((get_le16 hdr HDR_MESSAGE &&& c.SEQ_NUM_MASK) >>> 8) % 256

/-- The comparison of line 286 comes out equal: the checksum field is the checksum
recomputed over `cur_len` bytes at `offset`. -/
def rx_checksum_ok (c : xradio_consts) (hdr : List Nat) : Prop :=
  get_le16 hdr HDR_CHECKSUM =
    c.xradio_crc_16 (mem_read hdr (get_le16 hdr HDR_OFFSET) (get_le16 hdr HDR_CUR_LEN)) % 65536

instance (c : xradio_consts) (hdr : List Nat) : Decidable (rx_checksum_ok c hdr) := by
  unfold rx_checksum_ok
  infer_instance


/-- `xradio_rx_net_process`. -/
def xradio_rx_net_process (priv : xradio_priv) (skb : sk_buff) (len : Nat) (_seq : Nat) : Out :=
  let skb := skb_trim skb len
  { ret := 0, st := priv, ev := [Event.net_data_input skb.data] }

/-- `xradio_rx_cmd_process`. -/
def xradio_rx_cmd_process (c : xradio_consts) (priv : xradio_priv) (skb : sk_buff)
    (len : Nat) (_seq : Nat) : Out :=
  let type := c.cmd_type skb.data
  if type = c.XR_WIFI_DEV_RX_PAUSE then
    let priv := { priv with rx_pause_state := 1 }
    if priv.tx_data_pause = 0 then
      { ret := 0, st := { priv with tx_data_pause := 1 },
        ev := [Event.net_tx_pause, Event.free_skb] }
    else { ret := 0, st := priv, ev := [Event.free_skb] }
  else if type = c.XR_WIFI_DEV_RX_RESUME then
    let priv := { priv with rx_pause_state := 0 }
    if priv.tx_data_pause ≠ 0 then
      { ret := 0, st := { priv with tx_data_pause := 0 },
        ev := [Event.net_tx_resume, Event.free_skb] }
    else { ret := 0, st := priv, ev := [Event.free_skb] }
  else if type ≥ c.XR_WIFI_DEV_HAND_WAY_RES ∧ type ≤ c.XR_WIFI_DEV_KERNEL_MAX then
    { ret := c.low_cmd_push_ret (mem_read skb.data 0 len) len, st := priv,
      ev := [Event.low_cmd_push (mem_read skb.data 0 len) len, Event.free_skb] }
  else
    { ret := c.up_cmd_push_ret (mem_read skb.data 0 len) len, st := priv,
      ev := [Event.up_cmd_push (mem_read skb.data 0 len) len, Event.free_skb] }

/-- The static `dev_seq` of `xradio_rx_process` after a frame with sequence number `seq`
(lines 301-312), with the warning logged on the way, if any. -/
def rx_track_seq (dev_seq : Int) (seq : Nat) : Int × List Event :=
  let dev_seq := if dev_seq = -1 then (seq : Int) else dev_seq
  let (dev_seq, ev) :=
    if dev_seq ≠ (seq : Int) then ((seq : Int), [Event.log_missing_pkt dev_seq seq])
    else (dev_seq, [])
  let dev_seq := dev_seq + 1
  let dev_seq := if dev_seq > 255 then 0 else dev_seq
  (dev_seq, ev)

/-- The dispatch by type tag at the end of `xradio_rx_process` (lines 317-326, with
`DATA_TEST` off). -/
def rx_dispatch (c : xradio_consts) (priv : xradio_priv) (skb : sk_buff) (cur_len seq : Nat)
    (type_id : Nat) : Out :=
  if type_id = c.XR_REQ_CMD then xradio_rx_cmd_process c priv skb cur_len seq
  else xradio_rx_net_process priv skb cur_len seq

/-- `xradio_rx_process` on a buffer that holds its header and the payload the header
announces (10 bytes at least, `offset + cur_len` within the buffer), where every read of
lines 276-284 stays inside `skb.data`.  For a buffer that is shorter than what its header
announces the code reads the memory behind it; that is `xradio_rx_process_mem`. -/
def xradio_rx_process (c : xradio_consts) (priv : xradio_priv) (skb : sk_buff) : Out :=
  let hdr := skb.data
  let cur_len := get_le16 hdr HDR_CUR_LEN
  let next_len := get_le16 hdr HDR_NEXT_LEN
  let offset := get_le16 hdr HDR_OFFSET
  let checksum := get_le16 hdr HDR_CHECKSUM
  let c_checksum := c.xradio_crc_16 (mem_read hdr offset cur_len) % 65536
  if checksum ≠ c_checksum then
    { ret := -1, st := priv, ev := [Event.log_checksum_failed checksum c_checksum, Event.free_skb] }
  else
    let type_id := hdr_type_id c hdr
    let seq := hdr_seq c hdr
    let (dev_seq, ev0) := rx_track_seq priv.dev_seq seq
    let priv := { priv with dev_seq := dev_seq }
    let skb := skb_pull skb offset
    let o := rx_dispatch c priv skb cur_len seq type_id
    { ret := next_len, st := o.st, ev := ev0 ++ o.ev }

/-- The dispatch by type tag at the end of `xradio_rx_process` (lines 317-326) when the
bytes `behind` follow the buffer in memory.  `xradio_rx_cmd_process` reads only through
the pointer `skb->data` (the field `cmd->type`, and the `len` bytes its handlers are
given) and never looks at `skb->len`, so it runs on the bytes in memory from `skb->data`
on; `xradio_rx_net_process` hands on the buffer itself. -/
def rx_dispatch_mem (c : xradio_consts) (behind : List Nat) (priv : xradio_priv)
    (skb : sk_buff) (cur_len seq : Nat) (type_id : Nat) : Out :=
  if type_id = c.XR_REQ_CMD then
    xradio_rx_cmd_process c priv { skb with data := skb.data ++ behind } cur_len seq
  else xradio_rx_net_process priv skb cur_len seq

/-- `xradio_rx_process` with the memory behind the buffer.  Lines 276-284 read the
header fields at `skb->data` and checksum `cur_len` bytes at `skb->data + offset` without
a test against `skb->len`, so with a short buffer or a corrupted length they read the
bytes that follow the buffer in memory; `behind` is those bytes, and the memory from
`skb->data` on is `skb.data ++ behind`.  `skb_pull` works on the buffer as the kernel
does.  With nothing behind the buffer this is `xradio_rx_process`. -/
def xradio_rx_process_mem (c : xradio_consts) (behind : List Nat) (priv : xradio_priv)
    (skb : sk_buff) : Out :=
  let hdr := skb.data ++ behind
  let cur_len := get_le16 hdr HDR_CUR_LEN
  let next_len := get_le16 hdr HDR_NEXT_LEN
  let offset := get_le16 hdr HDR_OFFSET
  let checksum := get_le16 hdr HDR_CHECKSUM
  let c_checksum := c.xradio_crc_16 (mem_read hdr offset cur_len) % 65536
  if checksum ≠ c_checksum then
    { ret := -1, st := priv, ev := [Event.log_checksum_failed checksum c_checksum, Event.free_skb] }
  else
    let type_id := hdr_type_id c hdr
    let seq := hdr_seq c hdr
    let (dev_seq, ev0) := rx_track_seq priv.dev_seq seq
    let priv := { priv with dev_seq := dev_seq }
    let skb := skb_pull skb offset
    let o := rx_dispatch_mem c behind priv skb cur_len seq type_id
    { ret := next_len, st := o.st, ev := ev0 ++ o.ev }

/-- The receive side over a series of buffers: `xradio_rx_process` on each in turn, as
the worker calls it, with what each call leaves behind. -/
def xradio_rx_run (c : xradio_consts) (priv : xradio_priv) : List sk_buff → List Out
  | [] => []
  | skb :: rest =>
    let o := xradio_rx_process c priv skb
    o :: xradio_rx_run c o.st rest

/-- The state after `xradio_rx_run`. -/
def xradio_rx_run_state (c : xradio_consts) (priv : xradio_priv) : List sk_buff → xradio_priv
  | [] => priv
  | skb :: rest => xradio_rx_run_state c (xradio_rx_process c priv skb).st rest

/-- Number of "Missing pkt" warnings in a trace. -/
def loss_count (ev : List Event) : Nat :=
  ev.countP (fun e => match e with
    | Event.log_missing_pkt _ _ => true
    | _ => false)

/-- The sequence numbers `a, a + 1, ...` (`n` of them), wrapping from 255 to 0. -/
def consecutive_seqs (a n : Nat) : List Nat :=
  (List.range n).map (fun i => (a + i) % 256)

/-! ## Transmit side of the worker -/

/-- `xradio_free_tx_buff`. -/
def xradio_free_tx_buff (c : xradio_consts) (priv : xradio_priv) (skb : sk_buff) : xradio_priv :=
  let hdr := skb.data
  let seq := hdr_seq c hdr
  let type_id := hdr_type_id c hdr
  if type_id ≠ 0 then
    { priv with tx_queue_cmd := (xradio_queue_remove priv.tx_queue_cmd seq).2 }
  else
    { priv with tx_queue_data := (xradio_queue_remove priv.tx_queue_data seq).2 }

/-- `xradio_get_tx_buff`. -/
def xradio_get_tx_buff (priv : xradio_priv) : Option sk_buff × xradio_priv :=
  match xradio_queue_get priv.tx_queue_cmd with
  | (some skb, q) => (some skb, { priv with tx_queue_cmd := q })
  | (none, q) =>
    let priv := { priv with tx_queue_cmd := q }
    match xradio_queue_get priv.tx_queue_data with
    | (some skb, q) => (some skb, { priv with tx_queue_data := q })
    | (none, q) => (none, { priv with tx_queue_data := q })

/-- `xradio_check_tx_resume`; the divisions are those of C on integers. -/
def xradio_check_tx_resume (priv : xradio_priv) : xradio_priv × List Event :=
  let (priv, ev1) :=
    if priv.tx_data_pause ≠ 0 ∧
        xradio_queue_get_queue_num priv.tx_queue_data < priv.tx_queue_data.capacity * 1 / 5 then
      ({ priv with tx_data_pause := 0 }, [Event.net_tx_resume])
    else (priv, [])
  let (priv, ev2) :=
    if priv.tx_cmd_pause ≠ 0 ∧
        xradio_queue_get_queue_num priv.tx_queue_cmd < priv.tx_queue_cmd.capacity * 4 / 5 then
      ({ priv with tx_cmd_pause := 0 }, [Event.sem_give])
    else (priv, [])
  (priv, ev1 ++ ev2)

/-- The transmit part of one round of `xradio_txrx_thread` (lines 427-445): `tx` is the
value of `th_tx` read when the worker woke up and `tx_status` is what
`xradio_hwio_write` returns if it is called. -/
def xradio_txrx_thread_tx (c : xradio_consts) (tx : Int) (tx_status : Int)
    (priv : xradio_priv) : xradio_priv × List Event :=
  if tx ≠ 0 ∧ priv.rx_pause_state = 0 then
    match xradio_get_tx_buff priv with
    | (some tx_skb, priv) =>
      if tx_status = 0 then
        let priv := xradio_free_tx_buff c priv tx_skb
        let priv := if priv.th_tx > 0 then { priv with th_tx := priv.th_tx - 1 } else priv
        let (priv, ev) := xradio_check_tx_resume priv
        (priv, Event.hw_write tx_skb :: ev)
      else
        (priv, [Event.hw_write tx_skb, Event.hw_deinit, Event.msleep 2000, Event.hw_init])
    | (none, priv) => (priv, [Event.msleep 5])
  else (priv, [])

/-- One round of the loop of `xradio_txrx_thread` after the wait returned (lines
417-445).  `rx` and `term` are the values the wait condition read, `read` is what
`xradio_hwio_read` returns if called, `tx_status` what `xradio_hwio_write` returns if
called, `rx_len` the loop variable.  The result is the state, the new `rx_len`, the
outside calls and whether the loop was left. -/
def xradio_txrx_thread_round (c : xradio_consts) (rx : Int) (term : Bool)
    (read : Option sk_buff) (tx_status : Int) (priv : xradio_priv) (rx_len : Int) :
    xradio_priv × Int × List Event × Bool :=
  let tx := priv.th_tx
  if term then (priv, rx_len, [], true)
  else
    let (priv, rx_len, ev1) :=
      if rx ≠ 0 ∨ rx_len ≠ 0 then
        match read with
        | some rx_skb =>
          let o := xradio_rx_process c priv rx_skb
          (o.st, o.ret, Event.hw_read rx_len :: o.ev)
        | none => (priv, rx_len, [Event.hw_read rx_len])
      else (priv, rx_len, [])
    let (priv, ev2) := xradio_txrx_thread_tx c tx tx_status priv
    (priv, rx_len, ev1 ++ ev2, false)

/-- Sample constants for evaluation: quantum 4, tags 1 (command) and 0 (data), byte-wide
fields in `message`, and a byte sum standing for the checksum routine. -/
def sample_consts : xradio_consts :=
  { SKB_DATA_ADDR_ALIGNMENT := 4
    XR_REQ_CMD := 1
    XR_REQ_DATA := 0
    TYPE_ID_MASK := 0xFF
    SEQ_NUM_MASK := 0xFF00
    XR_WIFI_DEV_RX_PAUSE := 100
    XR_WIFI_DEV_RX_RESUME := 101
    XR_WIFI_DEV_HAND_WAY_RES := 10
    XR_WIFI_DEV_KERNEL_MAX := 20
    xradio_crc_16 := fun bs => bs.foldl (fun acc b => (acc * 31 + b + 1) % 65536) 7
    cmd_type := fun bs => get_le16 bs 0
    low_cmd_push_ret := fun _ _ => 0
    up_cmd_push_ret := fun _ _ => 0 }

/-- The claim on the payload offset in the words of the spec: `off` is the smallest
value that is at least the header size `hdr` and makes `off + len` a multiple of the
alignment quantum `quantum`. -/
def least_offset_from_header (quantum hdr len off : Nat) : Prop :=
  hdr ≤ off ∧ (off + len) % quantum = 0 ∧
    ∀ v, hdr ≤ v → (v + len) % quantum = 0 → off ≤ v

/-- What the code computes instead: `off` is the smallest value strictly above the
header size `hdr` that makes `off + len` a multiple of `quantum`. -/
def least_offset_above_header (quantum hdr len off : Nat) : Prop :=
  hdr < off ∧ (off + len) % quantum = 0 ∧
    ∀ v, hdr < v → (v + len) % quantum = 0 → off ≤ v

/-- Modelled from the spec: the wire layout of section 6, five little-endian `u16`
fields, then the pad bytes up to `offset`, then the payload. -/
def wire_frame (cur_len next_len offset message checksum : Nat) (pad payload : List Nat) :
    List Nat :=
  [cur_len % 256, cur_len / 256 % 256, next_len % 256, next_len / 256 % 256,
   offset % 256, offset / 256 % 256, message % 256, message / 256 % 256,
   checksum % 256, checksum / 256 % 256] ++ (pad ++ payload)

/-- A two-byte packet without headroom, so that the data path has to copy it. -/
def sample_packet : sk_buff := { head := [], data := [1, 2], addr := 0 }

/-- The frame the data path builds from `sample_packet` with sequence number 0. -/
def sample_net_frame : sk_buff :=
  { head := [], data := [2, 0, 0, 0, 14, 0, 0, 0, 136, 26, 0, 0, 0, 0, 1, 2], addr := 0 }

/-- The sample frame with its second payload byte changed from 2 to 3. -/
def sample_bad_frame : sk_buff :=
  { head := [], data := [2, 0, 0, 0, 14, 0, 0, 0, 136, 26, 0, 0, 0, 0, 1, 3], addr := 0 }

/-- A data frame without payload that carries sequence number `seq` (quantum 4, so the
pad is two bytes); its checksum field is that of the empty payload under
`sample_consts`. -/
def sample_seq_frame (seq : Nat) : sk_buff :=
  { head := [], data := [0, 0, 0, 0, 12, 0, 0, seq, 7, 0, 0, 0], addr := 0 }

/-- A command frame, for the sample queues (three-byte payload, sequence number 0). -/
def sample_cmd_frame : sk_buff :=
  xradio_tx_cmd_frame sample_consts (fun _ => 0) 0 [1, 2, 3] 3

/-- A state with one command frame and one data frame queued, one wake pending. -/
def sample_both_queued : xradio_priv :=
  { xradio_register_trans 10 10 with
    th_tx := 2
    tx_queue_cmd := { capacity := 10, items := [(0, sample_cmd_frame)] }
    tx_queue_data := { capacity := 10, items := [(0, sample_net_frame)] } }

/-- A state with both classes paused, `n_cmd` command entries and `n_data` data entries
queued, in queues of the given capacities. -/
def sample_paused (cap_cmd cap_data n_cmd n_data : Nat) : xradio_priv :=
  { xradio_register_trans cap_cmd cap_data with
    tx_data_pause := 1
    tx_cmd_pause := 1
    tx_queue_cmd := { capacity := cap_cmd, items := List.replicate n_cmd (0, sample_cmd_frame) }
    tx_queue_data :=
      { capacity := cap_data, items := List.replicate n_data (0, sample_net_frame) } }

/-- An enabled state whose data queue is full (capacity 1, one entry) and whose data
class is not paused. -/
def sample_data_full : xradio_priv :=
  { xradio_register_trans 10 1 with
    th_tx := 1
    net_seq_number := 0
    tx_queue_data := { capacity := 1, items := [(255, sample_net_frame)] } }

/-- An enabled state whose command queue is full (capacity 1, one entry) and whose
command class is not paused. -/
def sample_cmd_full : xradio_priv :=
  { xradio_register_trans 1 10 with
    th_tx := 1
    cmd_seq_number := 1
    tx_queue_cmd := { capacity := 1, items := [(0, sample_cmd_frame)] } }

/-- The receive part of one round of `xradio_txrx_thread` (lines 421-425): the state, the
new `rx_len` and the outside calls. -/
def xradio_txrx_thread_rx (c : xradio_consts) (rx : Int) (read : Option sk_buff)
    (priv : xradio_priv) (rx_len : Int) : xradio_priv × Int × List Event :=
  if rx ≠ 0 ∨ rx_len ≠ 0 then
    match read with
    | some rx_skb =>
      let o := xradio_rx_process c priv rx_skb
      (o.st, o.ret, Event.hw_read rx_len :: o.ev)
    | none => (priv, rx_len, [Event.hw_read rx_len])
  else (priv, rx_len, [])

/-- A command frame whose two-byte payload is the sub-type 100, the pause request of
`sample_consts` (sequence number 0, quantum 4). -/
def sample_pause_frame : sk_buff :=
  xradio_tx_cmd_frame sample_consts (fun _ => 0) 0 [100, 0] 2

/-! ## Chip enable (`sunxi-rf/sunxi-wlan.c`) -/

/-- The fields of `struct sunxi_wlan_platdata` (declared in `sunxi-rfkill.h`, not among
the sources) that `sunxi_wl_chipen_set` reads through `wlan_data`. -/
structure sunxi_wlan_platdata where
  gpio_chip_en : Int
  gpio_chip_en_invert : Int
deriving DecidableEq, Repr

/-- Kernel `gpio_is_valid(number)`: `number >= 0 && number < ARCH_NR_GPIOS`. -/
def gpio_is_valid (ARCH_NR_GPIOS : Int) (number : Int) : Bool :=
  decide (0 ≤ number) && decide (number < ARCH_NR_GPIOS)

/-- `sunxi_wl_chipen_set(dev, on_off)`.  `power_state` is the static `int` of the
function as its 32-bit pattern, so that `~(0x1)` is `0xFFFFFFFE` and `~(1<<1)` is
`0xFFFFFFFD`; the result is the new `power_state` and the calls of `gpio_set_value`
made, each with the GPIO number and the value written. -/
def sunxi_wl_chipen_set (ARCH_NR_GPIOS : Int) (wlan_data : sunxi_wlan_platdata)
    (power_state : Nat) (dev on_off : Int) : Nat × List (Int × Nat) :=
  let power_state :=
    if dev = 0 then
      (power_state &&& 0xFFFFFFFE) ||| (if on_off > 0 then 1 else 0)
    else if dev = 1 then
      (power_state &&& 0xFFFFFFFD) ||| ((if on_off > 0 then 1 else 0) <<< 1)
    else power_state
  if gpio_is_valid ARCH_NR_GPIOS wlan_data.gpio_chip_en then
    if wlan_data.gpio_chip_en_invert = 0 then
      (power_state, [(wlan_data.gpio_chip_en, if power_state ≠ 0 then 1 else 0)])
    else
      (power_state, [(wlan_data.gpio_chip_en, if power_state = 0 then 1 else 0)])
  else (power_state, [])

/-- The static `power_state` after a series of calls `(dev, on_off)` of
`sunxi_wl_chipen_set`, oldest first. -/
def sunxi_wl_chipen_run (ARCH_NR_GPIOS : Int) (wlan_data : sunxi_wlan_platdata)
    (power_state : Nat) : List (Int × Int) → Nat
  | [] => power_state
  | (dev, on_off) :: rest =>
    sunxi_wl_chipen_run ARCH_NR_GPIOS wlan_data
      (sunxi_wl_chipen_set ARCH_NR_GPIOS wlan_data power_state dev on_off).1 rest

/-- Whether the most recent `on_off` requested for device `dev` in a series of calls is
above 0; `dflt` if the series holds no call for `dev`. -/
def last_on (dev : Int) (dflt : Bool) (calls : List (Int × Int)) : Bool :=
  calls.foldl (fun acc x => if x.1 = dev then decide (x.2 > 0) else acc) dflt

/-- The value of `power_state` that stands for wifi on or off (bit 0) and bt on or off
(bit 1). -/
def chipen_state (wifi bt : Bool) : Nat :=
  (if bt then 2 else 0) + (if wifi then 1 else 0)

/-- A board with the chip-enable line on GPIO 5, not inverted. -/
def sample_wlan_data : sunxi_wlan_platdata := { gpio_chip_en := 5, gpio_chip_en_invert := 0 }

/-! ## Interleavings of the calls that touch the data pause flag -/

/-- One call into the transport: a network send, a command send, an inbound buffer
through `xradio_rx_process`, a command payload through `xradio_rx_cmd_process`, or the
resume check of the worker. -/
inductive xradio_op where
  /-- `xradio_tx_net_process(priv, skb)` with the results of `skb_linearize` and
  `xradio_alloc_skb`. -/
  | tx_net (linearize_ok : Bool) (alloc : Option (Nat → Nat)) (skb : sk_buff)
  /-- `xradio_tx_cmd_process(priv, buffer, len)` with the result of `xradio_alloc_skb`. -/
  | tx_cmd (alloc : Option (Nat → Nat)) (buffer : List Nat) (len : Nat)
  /-- `xradio_rx_process(priv, skb)`. -/
  | rx (skb : sk_buff)
  /-- `xradio_rx_cmd_process(priv, skb, len, seq)`. -/
  | rx_cmd (skb : sk_buff) (len seq : Nat)
  /-- `xradio_check_tx_resume(priv)`. -/
  | check_resume

/-- The state and the outside calls of one call. -/
def xradio_op_step (c : xradio_consts) (priv : xradio_priv) : xradio_op → xradio_priv × List Event
  | xradio_op.tx_net linearize_ok alloc skb =>
    ((xradio_tx_net_process c linearize_ok alloc priv skb).st,
      (xradio_tx_net_process c linearize_ok alloc priv skb).ev)
  | xradio_op.tx_cmd alloc buffer len =>
    ((xradio_tx_cmd_process c alloc priv buffer len).st,
      (xradio_tx_cmd_process c alloc priv buffer len).ev)
  | xradio_op.rx skb => ((xradio_rx_process c priv skb).st, (xradio_rx_process c priv skb).ev)
  | xradio_op.rx_cmd skb len seq =>
    ((xradio_rx_cmd_process c priv skb len seq).st, (xradio_rx_cmd_process c priv skb len seq).ev)
  | xradio_op.check_resume => xradio_check_tx_resume priv

/-- A series of calls with the trace of all of them, each call run to its end before the
next starts.  The calls of the sender thread and of the worker thread cut into their
steps are in `threads_run`. -/
def xradio_ops_run (c : xradio_consts) (priv : xradio_priv) : List xradio_op → xradio_priv × List Event
  | [] => (priv, [])
  | op :: rest =>
    ((xradio_ops_run c (xradio_op_step c priv op).1 rest).1,
      (xradio_op_step c priv op).2 ++ (xradio_ops_run c (xradio_op_step c priv op).1 rest).2)

/-- The calls of the network pause and resume callbacks in a trace, in order. -/
def callbacks (ev : List Event) : List Event :=
  ev.filter (fun e => match e with
    | Event.net_tx_pause => true
    | Event.net_tx_resume => true
    | _ => false)

/-- The trace pause, resume, pause, ... of length `n` when `f` is even; with `f` odd it
starts with resume. -/
def alternating_from (f n : Nat) : List Event :=
  (List.range n).map (fun i => if (f + i) % 2 = 0 then Event.net_tx_pause else Event.net_tx_resume)

/-- What one call may do to the data pause flag `f`: nothing, with no callback; or set
it from 0 to 1 with one pause callback; or clear it with one resume callback. -/
def callback_step (f post : Int) (cbs : List Event) : Prop :=
  (post = f ∧ cbs = []) ∨ (f = 0 ∧ post = 1 ∧ cbs = [Event.net_tx_pause]) ∨
    (f ≠ 0 ∧ post = 0 ∧ cbs = [Event.net_tx_resume])

/-- A command frame whose two-byte payload is the sub-type 101, the resume request of
`sample_consts` (sequence number 1, quantum 4). -/
def sample_resume_frame : sk_buff :=
  xradio_tx_cmd_frame sample_consts (fun _ => 0) 1 [101, 0] 2

/-- Two network sends into a full data queue, then the peer's resume request, then the
resume check. -/
def sample_ops : List xradio_op :=
  [xradio_op.tx_net true (some (fun _ => 0)) sample_packet,
   xradio_op.tx_net true (some (fun _ => 0)) sample_packet,
   xradio_op.rx sample_resume_frame,
   xradio_op.check_resume]

/-! ## The transmit side with the entry left queued until removed by key -/

/-- `xradio_get_tx_buff` (lines 351-366) over a given `xradio_queue_get`. -/
def xradio_get_tx_buff_of (queue_get : xradio_queue → Option sk_buff × xradio_queue)
    (priv : xradio_priv) : Option sk_buff × xradio_priv :=
  match queue_get priv.tx_queue_cmd with
  | (some skb, q) => (some skb, { priv with tx_queue_cmd := q })
  | (none, q) =>
    let priv := { priv with tx_queue_cmd := q }
    match queue_get priv.tx_queue_data with
    | (some skb, q) => (some skb, { priv with tx_queue_data := q })
    | (none, q) => (none, { priv with tx_queue_data := q })

/-- The transmit part of one round of `xradio_txrx_thread` (lines 427-445) over a given
`xradio_queue_get`; `tx` and `tx_status` are as in `xradio_txrx_thread_tx`. -/
def xradio_txrx_thread_tx_of (queue_get : xradio_queue → Option sk_buff × xradio_queue)
    (c : xradio_consts) (tx : Int) (tx_status : Int) (priv : xradio_priv) :
    xradio_priv × List Event :=
  if tx ≠ 0 ∧ priv.rx_pause_state = 0 then
    match xradio_get_tx_buff_of queue_get priv with
    | (some tx_skb, priv) =>
      if tx_status = 0 then
        let priv := xradio_free_tx_buff c priv tx_skb
        let priv := if priv.th_tx > 0 then { priv with th_tx := priv.th_tx - 1 } else priv
        let (priv, ev) := xradio_check_tx_resume priv
        (priv, Event.hw_write tx_skb :: ev)
      else
        (priv, [Event.hw_write tx_skb, Event.hw_deinit, Event.msleep 2000, Event.hw_init])
    | (none, priv) => (priv, [Event.msleep 5])
  else (priv, [])

/-! ## The test and the set of the data pause flag as separate steps

`xradio_tx_net_process` runs on the thread of the sender, `xradio_rx_cmd_process` and
`xradio_check_tx_resume` on the worker thread.  Each of them reads `tx_data_pause` with
`xradio_k_atomic_read`, then calls the callback and writes the flag with
`xradio_k_atomic_set`; no lock is held over the three, so the other thread can run
between any two of them. -/

/-- One step of the code that tests and sets `tx_data_pause`. -/
inductive flag_step where
  /-- The test `!xradio_k_atomic_read(&priv->tx_data_pause)` (lines 193, 235): the body is
  entered if the flag reads 0 and skipped otherwise. -/
  | enter_if_clear
  /-- The test `xradio_k_atomic_read(&priv->tx_data_pause)` (lines 243, 371): the body is
  entered if the flag reads non-zero and skipped otherwise. -/
  | enter_if_set
  /-- `xradio_k_atomic_set(&priv->tx_data_pause, v)`. -/
  | flag_set (v : Int)
  /-- `xradio_net_tx_pause(priv)`. -/
  | call_pause
  /-- `xradio_net_tx_resume(priv)`. -/
  | call_resume
deriving DecidableEq, Repr

/-- Lines 193-195 of `xradio_tx_net_process`, reached with a non-zero result of the queue
put: test, pause callback, set to 1. -/
def tx_net_pause_steps : List flag_step :=
  [flag_step.enter_if_clear, flag_step.call_pause, flag_step.flag_set 1]

/-- Lines 235-237 of `xradio_rx_cmd_process`, reached with a pause request of the peer:
test, pause callback, set to 1. -/
def rx_cmd_pause_steps : List flag_step :=
  [flag_step.enter_if_clear, flag_step.call_pause, flag_step.flag_set 1]

/-- Lines 243-245 of `xradio_rx_cmd_process`, reached with a resume request of the peer:
test, set to 0, resume callback. -/
def rx_cmd_resume_steps : List flag_step :=
  [flag_step.enter_if_set, flag_step.flag_set 0, flag_step.call_resume]

/-- Lines 371-381 of `xradio_check_tx_resume`, with the data queue below its threshold:
test, set to 0, resume callback. -/
def check_resume_steps : List flag_step :=
  [flag_step.enter_if_set, flag_step.flag_set 0, flag_step.call_resume]

/-- The next step of a thread: the flag after it, the steps the thread still has to run
and the callback it called. -/
def flag_step_run (flag : Int) : List flag_step → Int × List flag_step × List Event
  | [] => (flag, [], [])
  | flag_step.enter_if_clear :: rest => if flag = 0 then (flag, rest, []) else (flag, [], [])
  | flag_step.enter_if_set :: rest => if flag ≠ 0 then (flag, rest, []) else (flag, [], [])
  | flag_step.flag_set v :: rest => (v, rest, [])
  | flag_step.call_pause :: rest => (flag, rest, [Event.net_tx_pause])
  | flag_step.call_resume :: rest => (flag, rest, [Event.net_tx_resume])

/-- The sender thread and the worker thread running their steps in the order of
`schedule` (`true`: the sender takes its next step, `false`: the worker does): the flag
at the end and the callbacks called, in order. -/
def threads_run (flag : Int) (sender worker : List flag_step) : List Bool → Int × List Event
  | [] => (flag, [])
  | true :: schedule =>
    ((threads_run (flag_step_run flag sender).1 (flag_step_run flag sender).2.1 worker
        schedule).1,
      (flag_step_run flag sender).2.2 ++
        (threads_run (flag_step_run flag sender).1 (flag_step_run flag sender).2.1 worker
          schedule).2)
  | false :: schedule =>
    ((threads_run (flag_step_run flag worker).1 sender (flag_step_run flag worker).2.1
        schedule).1,
      (flag_step_run flag worker).2.2 ++
        (threads_run (flag_step_run flag worker).1 sender (flag_step_run flag worker).2.1
          schedule).2)

/-! ## Lemmas on byte buffers -/

theorem mem_write_append_left (h t src : List Nat) (off : Nat)
    (hle : off + src.length ≤ h.length) :
    mem_write (h ++ t) off src = mem_write h off src ++ t := by
  unfold mem_write
  have h1 : (h ++ t).take off = h.take off :=
    List.take_append_of_le_length (by omega)
  have h2 : (h ++ t).drop (off + src.length) = h.drop (off + src.length) ++ t :=
    List.drop_append_of_le_length hle
  rw [h1, h2]
  have h3 : (h.take off ++ src ++ h.drop (off + src.length)).length = h.length := by
    simp only [List.length_append, List.length_take, List.length_drop]
    omega
  rw [List.take_of_length_le (Nat.le_of_eq h3), ← List.append_assoc]
  apply List.take_of_length_le
  rw [List.length_append, h3, List.length_append]

theorem mem_write_append_right (h t src : List Nat) (hlen : src.length = t.length) :
    mem_write (h ++ t) h.length src = h ++ src := by
  unfold mem_write
  rw [List.take_left, List.drop_of_length_le, List.append_nil, List.take_of_length_le]
  · simp [hlen]
  · simp [hlen]

theorem mem_write_at_start (h t src : List Nat) (hlen : src.length = h.length) :
    mem_write (h ++ t) 0 src = src ++ t := by
  have := mem_write_append_right [] h src hlen
  rw [mem_write_append_left h t src 0 (by omega)]
  simpa using this

theorem mem_read_append_right (h t : List Nat) : mem_read (h ++ t) h.length t.length = t := by
  unfold mem_read
  rw [List.drop_left, List.take_length]

theorem get_le16_append_left (h t : List Nat) (off : Nat) (hle : off + 2 ≤ h.length) :
    get_le16 (h ++ t) off = get_le16 h off := by
  unfold get_le16
  rw [List.getD_append _ _ _ _ (by omega), List.getD_append _ _ _ _ (by omega)]

theorem le16_roundtrip (v : Nat) (hv : v < 65536) : v % 256 + 256 * (v / 256 % 256) = v := by
  omega

theorem range_split3 (prior : Nat → Nat) (a b d : Nat) :
    (List.range (a + d + b)).map prior =
      (List.range a).map prior ++ ((List.range' a b).map prior ++ (List.range' (a + b) d).map prior) := by
  have e : a + d + b = d + b + a := by omega
  have h1 : List.range' 0 a ++ List.range' a (d + b) = List.range' 0 (d + b + a) := by
    simpa using List.range'_append_1 0 a (d + b)
  have h2 : List.range' a b ++ List.range' (a + b) d = List.range' a (d + b) :=
    List.range'_append_1 a b d
  rw [e, List.range_eq_range', List.range_eq_range', ← h1, ← h2, List.map_append,
    List.map_append]

theorem put_le16_hdr0 (b0 b1 b2 b3 b4 b5 b6 b7 b8 b9 v : Nat) (r : List Nat) :
    put_le16 ([b0, b1, b2, b3, b4, b5, b6, b7, b8, b9] ++ r) HDR_CUR_LEN v =
      [v % 256, v / 256 % 256, b2, b3, b4, b5, b6, b7, b8, b9] ++ r := by
  unfold put_le16
  rw [mem_write_append_left _ _ _ _ (by simp [HDR_CUR_LEN])]
  rfl

theorem put_le16_hdr2 (b0 b1 b2 b3 b4 b5 b6 b7 b8 b9 v : Nat) (r : List Nat) :
    put_le16 ([b0, b1, b2, b3, b4, b5, b6, b7, b8, b9] ++ r) HDR_NEXT_LEN v =
      [b0, b1, v % 256, v / 256 % 256, b4, b5, b6, b7, b8, b9] ++ r := by
  unfold put_le16
  rw [mem_write_append_left _ _ _ _ (by simp [HDR_NEXT_LEN])]
  rfl

theorem put_le16_hdr4 (b0 b1 b2 b3 b4 b5 b6 b7 b8 b9 v : Nat) (r : List Nat) :
    put_le16 ([b0, b1, b2, b3, b4, b5, b6, b7, b8, b9] ++ r) HDR_OFFSET v =
      [b0, b1, b2, b3, v % 256, v / 256 % 256, b6, b7, b8, b9] ++ r := by
  unfold put_le16
  rw [mem_write_append_left _ _ _ _ (by simp [HDR_OFFSET])]
  rfl

theorem put_le16_hdr6 (b0 b1 b2 b3 b4 b5 b6 b7 b8 b9 v : Nat) (r : List Nat) :
    put_le16 ([b0, b1, b2, b3, b4, b5, b6, b7, b8, b9] ++ r) HDR_MESSAGE v =
      [b0, b1, b2, b3, b4, b5, v % 256, v / 256 % 256, b8, b9] ++ r := by
  unfold put_le16
  rw [mem_write_append_left _ _ _ _ (by simp [HDR_MESSAGE])]
  rfl

theorem put_le16_hdr8 (b0 b1 b2 b3 b4 b5 b6 b7 b8 b9 v : Nat) (r : List Nat) :
    put_le16 ([b0, b1, b2, b3, b4, b5, b6, b7, b8, b9] ++ r) HDR_CHECKSUM v =
      [b0, b1, b2, b3, b4, b5, b6, b7, v % 256, v / 256 % 256] ++ r := by
  unfold put_le16
  rw [mem_write_append_left _ _ _ _ (by simp [HDR_CHECKSUM])]
  rfl

/-- Reading the five header fields back from a frame in wire layout. -/
theorem get_le16_wire_frame (l n o m k : Nat) (pad payload : List Nat)
    (hl : l < 65536) (hn : n < 65536) (ho : o < 65536) (hm : m < 65536) (hk : k < 65536) :
    get_le16 (wire_frame l n o m k pad payload) HDR_CUR_LEN = l ∧
    get_le16 (wire_frame l n o m k pad payload) HDR_NEXT_LEN = n ∧
    get_le16 (wire_frame l n o m k pad payload) HDR_OFFSET = o ∧
    get_le16 (wire_frame l n o m k pad payload) HDR_MESSAGE = m ∧
    get_le16 (wire_frame l n o m k pad payload) HDR_CHECKSUM = k := by
  unfold wire_frame
  refine ⟨?_, ?_, ?_, ?_, ?_⟩
  · rw [get_le16_append_left _ _ _ (by simp [HDR_CUR_LEN])]
    exact le16_roundtrip l hl
  · rw [get_le16_append_left _ _ _ (by simp [HDR_NEXT_LEN])]
    exact le16_roundtrip n hn
  · rw [get_le16_append_left _ _ _ (by simp [HDR_OFFSET])]
    exact le16_roundtrip o ho
  · rw [get_le16_append_left _ _ _ (by simp [HDR_MESSAGE])]
    exact le16_roundtrip m hm
  · rw [get_le16_append_left _ _ _ (by simp [HDR_CHECKSUM])]
    exact le16_roundtrip k hk

theorem replicate_hdr_zero : List.replicate XRADIO_HDR_SIZE 0 = [0, 0, 0, 0, 0, 0, 0, 0, 0, 0] := rfl

/-- The bytes of the frame the command path builds, in wire layout; the pad bytes are
those the allocator left in the buffer. -/
theorem xradio_tx_cmd_frame_data (c : xradio_consts) (prior : Nat → Nat) (seq : Nat)
    (P : List Nat) (hfit : XRADIO_HDR_SIZE + c.SKB_DATA_ADDR_ALIGNMENT ≤ 65535) :
    (xradio_tx_cmd_frame c prior seq P P.length).data =
      wire_frame (P.length % 65536) 0
        ((XRADIO_HDR_SIZE + (c.SKB_DATA_ADDR_ALIGNMENT -
          (P.length + XRADIO_HDR_SIZE) % c.SKB_DATA_ADDR_ALIGNMENT)) % 65536)
        ((seq <<< 8 ||| c.XR_REQ_CMD) % 65536) (c.xradio_crc_16 P % 65536)
        ((List.range' XRADIO_HDR_SIZE (c.SKB_DATA_ADDR_ALIGNMENT -
          (P.length + XRADIO_HDR_SIZE) % c.SKB_DATA_ADDR_ALIGNMENT)).map prior) P := by
  unfold xradio_tx_cmd_frame skb_alloc_put
  simp only []
  generalize hpad : c.SKB_DATA_ADDR_ALIGNMENT -
    (P.length + XRADIO_HDR_SIZE) % c.SKB_DATA_ADDR_ALIGNMENT = pad
  have hpadle : XRADIO_HDR_SIZE + pad < 65536 := by omega
  rw [range_split3 prior XRADIO_HDR_SIZE pad P.length]
  generalize hG : (List.range' XRADIO_HDR_SIZE pad).map prior = G
  generalize hT : (List.range' (XRADIO_HDR_SIZE + pad) P.length).map prior = T
  have hGl : G.length = pad := by rw [← hG]; simp
  have hTl : T.length = P.length := by rw [← hT]; simp
  unfold memset
  rw [mem_write_at_start _ _ _ (by simp), replicate_hdr_zero, put_le16_hdr0,
    put_le16_hdr2, put_le16_hdr4, put_le16_hdr6]
  have hoff : ∀ r b0 b1 b2 b3 b6 b7 b8 b9 : Nat, ∀ t : List Nat,
      get_le16 ([b0, b1, b2, b3, ((XRADIO_HDR_SIZE + pad) % 65536) % 256,
        ((XRADIO_HDR_SIZE + pad) % 65536) / 256 % 256, b6, b7, b8, b9] ++ t) HDR_OFFSET
        = XRADIO_HDR_SIZE + pad + 0 * r := by
    intro r b0 b1 b2 b3 b6 b7 b8 b9 t
    rw [get_le16_append_left _ _ _ (by simp [HDR_OFFSET])]
    simp only [get_le16, HDR_OFFSET, List.getD_cons_succ, List.getD_cons_zero]
    omega
  rw [hoff 0]
  unfold memcpy
  rw [List.take_length]
  have hw : ∀ H : List Nat, H.length = XRADIO_HDR_SIZE →
      mem_write (H ++ (G ++ T)) (XRADIO_HDR_SIZE + pad + 0 * 0) P = H ++ (G ++ P) := by
    intro H hH
    have := mem_write_append_right (H ++ G) T P hTl.symm
    rw [List.length_append, hH, hGl] at this
    simpa [List.append_assoc] using this
  rw [hw _ (by simp [XRADIO_HDR_SIZE])]
  have hr : ∀ H : List Nat, H.length = XRADIO_HDR_SIZE →
      mem_read (H ++ (G ++ P)) (XRADIO_HDR_SIZE + pad) P.length = P := by
    intro H hH
    have := mem_read_append_right (H ++ G) P
    rw [List.length_append, hH, hGl] at this
    simpa [List.append_assoc] using this
  rw [hr _ (by simp [XRADIO_HDR_SIZE]), put_le16_hdr8]
  rfl

theorem range_split2 (prior : Nat → Nat) (a d : Nat) :
    (List.range (d + a)).map prior =
      (List.range a).map prior ++ (List.range' a d).map prior := by
  have h1 : List.range' 0 a ++ List.range' a d = List.range' 0 (d + a) := by
    simpa using List.range'_append_1 0 a d
  rw [List.range_eq_range', List.range_eq_range', ← h1, List.map_append]

/-- The header fill of the data path on a buffer that holds the payload `P` behind
`XRADIO_HDR_SIZE + k` bytes: the result is in wire layout with a zero pad. -/
theorem xradio_tx_net_fill_data (c : xradio_consts) (seq k : Nat) (X P : List Nat)
    (hX : X.length = XRADIO_HDR_SIZE + k) :
    xradio_tx_net_fill c seq P.length (XRADIO_HDR_SIZE + k) (X ++ P) =
      wire_frame (P.length % 65536) 0 ((XRADIO_HDR_SIZE + k) % 65536)
        ((seq <<< 8 ||| c.XR_REQ_DATA) % 65536) (c.xradio_crc_16 P % 65536)
        (List.replicate k 0) P := by
  unfold xradio_tx_net_fill memset
  simp only []
  rw [mem_write_at_start _ _ _ (by simp [hX]), List.replicate_add, replicate_hdr_zero,
    List.append_assoc, put_le16_hdr0, put_le16_hdr2, put_le16_hdr4, put_le16_hdr6]
  have hr : ∀ H : List Nat, H.length = XRADIO_HDR_SIZE →
      mem_read (H ++ (List.replicate k 0 ++ P)) (XRADIO_HDR_SIZE + k) P.length = P := by
    intro H hH
    have := mem_read_append_right (H ++ List.replicate k 0) P
    rw [List.length_append, hH, List.length_replicate] at this
    simpa [List.append_assoc] using this
  rw [hr _ (by simp [XRADIO_HDR_SIZE]), put_le16_hdr8]
  rfl

/-- The bytes of the frame the data path builds, in wire layout with a zero pad, on
both the copying and the in-place branch. -/
theorem xradio_tx_net_frame_data (c : xradio_consts) (linearize_ok : Bool)
    (alloc : Option (Nat → Nat)) (seq : Nat) (skb out : sk_buff)
    (hlen : skb.data.length < 65536)
    (h : xradio_tx_net_frame c linearize_ok alloc seq skb = some out) :
    out.data =
      wire_frame (skb.data.length % 65536) 0
        ((XRADIO_HDR_SIZE + (c.SKB_DATA_ADDR_ALIGNMENT -
          (skb.data.length + XRADIO_HDR_SIZE) % c.SKB_DATA_ADDR_ALIGNMENT)) % 65536)
        ((seq <<< 8 ||| c.XR_REQ_DATA) % 65536) (c.xradio_crc_16 skb.data % 65536)
        (List.replicate (c.SKB_DATA_ADDR_ALIGNMENT -
          (skb.data.length + XRADIO_HDR_SIZE) % c.SKB_DATA_ADDR_ALIGNMENT) 0) skb.data := by
  unfold xradio_tx_net_frame xradio_tx_net_pad_len at h
  simp only [Nat.mod_eq_of_lt hlen] at h
  generalize hk : c.SKB_DATA_ADDR_ALIGNMENT -
    (skb.data.length + XRADIO_HDR_SIZE) % c.SKB_DATA_ADDR_ALIGNMENT = k at h ⊢
  split at h
  · split at h
    · exact absurd h (by simp)
    · split at h
      · exact absurd h (by simp)
      · rename_i prior
        simp only [Option.some.injEq] at h
        rw [← h]
        simp only [skb_alloc_put]
        rw [range_split2 prior (XRADIO_HDR_SIZE + k) skb.data.length]
        have hw := mem_write_append_right ((List.range (XRADIO_HDR_SIZE + k)).map prior)
          ((List.range' (XRADIO_HDR_SIZE + k) skb.data.length).map prior) skb.data (by simp)
        simp only [List.length_map, List.length_range] at hw
        rw [hw, xradio_tx_net_fill_data c seq k _ skb.data (by simp)]
  · rename_i hcond
    simp only [Option.some.injEq] at h
    rw [← h]
    simp only [skb_push]
    have hhead : ¬ skb.head.length < XRADIO_HDR_SIZE + k := by
      intro hlt
      apply hcond
      unfold xradio_tx_net_copies xradio_tx_net_pad_len skb_headroom
      simp only [Nat.mod_eq_of_lt hlen, hk, Bool.or_eq_true, decide_eq_true_eq]
      exact Or.inl hlt
    rw [xradio_tx_net_fill_data c seq k _ skb.data (by rw [List.length_drop]; omega)]

/-! ## The payload offset -/

theorem pad_len_props (A n : Nat) (hA : 0 < A) :
    0 < A - n % A ∧ A - n % A ≤ A ∧ (n + (A - n % A)) % A = 0 ∧
      ∀ j, 0 < j → (n + j) % A = 0 → A - n % A ≤ j := by
  have hr : n % A < A := Nat.mod_lt n hA
  have hn : A * (n / A) + n % A = n := Nat.div_add_mod n A
  refine ⟨by omega, by omega, ?_, ?_⟩
  · have e : n + (A - n % A) = A * (n / A + 1) := by
      rw [Nat.mul_add, Nat.mul_one]
      omega
    rw [e]
    exact Nat.mul_mod_right A _
  · intro j hj hmod
    have hd : A ∣ n + j := Nat.dvd_of_mod_eq_zero hmod
    have e : n + j = A * (n / A) + (n % A + j) := by omega
    rw [e] at hd
    have hd2 : A ∣ n % A + j := (Nat.dvd_add_right (Nat.dvd_mul_right A (n / A))).mp hd
    have := Nat.le_of_dvd (by omega) hd2
    omega

theorem least_offset_above_header_of_pad (A len : Nat) (hA : 0 < A) :
    least_offset_above_header A XRADIO_HDR_SIZE len
      (XRADIO_HDR_SIZE + (A - (len + XRADIO_HDR_SIZE) % A)) := by
  obtain ⟨h1, _, h3, h4⟩ := pad_len_props A (len + XRADIO_HDR_SIZE) hA
  refine ⟨by omega, ?_, ?_⟩
  · have e : XRADIO_HDR_SIZE + (A - (len + XRADIO_HDR_SIZE) % A) + len =
        len + XRADIO_HDR_SIZE + (A - (len + XRADIO_HDR_SIZE) % A) := by omega
    rw [e]
    exact h3
  · intro v hv hmod
    have e : v + len = len + XRADIO_HDR_SIZE + (v - XRADIO_HDR_SIZE) := by omega
    rw [e] at hmod
    have := h4 (v - XRADIO_HDR_SIZE) (by omega) hmod
    omega

theorem wire_frame_length (l n o m k : Nat) (pad payload : List Nat) :
    (wire_frame l n o m k pad payload).length = XRADIO_HDR_SIZE + pad.length + payload.length := by
  simp [wire_frame, XRADIO_HDR_SIZE]
  omega

/-- The offset field of a command frame, read back from its bytes. -/
theorem xradio_tx_cmd_frame_offset (c : xradio_consts) (prior : Nat → Nat) (seq : Nat)
    (P : List Nat) (hfit : XRADIO_HDR_SIZE + c.SKB_DATA_ADDR_ALIGNMENT ≤ 65535) :
    get_le16 (xradio_tx_cmd_frame c prior seq P P.length).data HDR_OFFSET =
      XRADIO_HDR_SIZE + (c.SKB_DATA_ADDR_ALIGNMENT -
        (P.length + XRADIO_HDR_SIZE) % c.SKB_DATA_ADDR_ALIGNMENT) := by
  rw [xradio_tx_cmd_frame_data c prior seq P hfit]
  rw [(get_le16_wire_frame _ _ _ _ _ _ _ (Nat.mod_lt _ (by decide)) (by decide)
    (Nat.mod_lt _ (by decide)) (Nat.mod_lt _ (by decide)) (Nat.mod_lt _ (by decide))).2.2.1]
  apply Nat.mod_eq_of_lt
  omega

/-- The offset field of a data frame, read back from its bytes. -/
theorem xradio_tx_net_frame_offset (c : xradio_consts) (linearize_ok : Bool)
    (alloc : Option (Nat → Nat)) (seq : Nat) (skb out : sk_buff)
    (hfit : XRADIO_HDR_SIZE + c.SKB_DATA_ADDR_ALIGNMENT ≤ 65535)
    (hlen : skb.data.length < 65536)
    (h : xradio_tx_net_frame c linearize_ok alloc seq skb = some out) :
    get_le16 out.data HDR_OFFSET =
      XRADIO_HDR_SIZE + (c.SKB_DATA_ADDR_ALIGNMENT -
        (skb.data.length + XRADIO_HDR_SIZE) % c.SKB_DATA_ADDR_ALIGNMENT) := by
  rw [xradio_tx_net_frame_data c linearize_ok alloc seq skb out hlen h]
  rw [(get_le16_wire_frame _ _ _ _ _ _ _ (Nat.mod_lt _ (by decide)) (by decide)
    (Nat.mod_lt _ (by decide)) (Nat.mod_lt _ (by decide)) (Nat.mod_lt _ (by decide))).2.2.1]
  apply Nat.mod_eq_of_lt
  omega

/-- C2 as stated fails: with quantum 4 and a payload of 2 bytes, header size plus
length is already a multiple of the quantum, yet both encoder paths write offset 14,
not the header size 10, so the offset written is not the least value from the header
size on that aligns the frame. -/
theorem tx_offset_not_least_from_header :
    (XRADIO_HDR_SIZE + 2) % sample_consts.SKB_DATA_ADDR_ALIGNMENT = 0 ∧
    get_le16 (xradio_tx_cmd_frame sample_consts (fun _ => 0) 0 [1, 2] 2).data HDR_OFFSET = 14 ∧
    ¬ least_offset_from_header sample_consts.SKB_DATA_ADDR_ALIGNMENT XRADIO_HDR_SIZE 2
      (get_le16 (xradio_tx_cmd_frame sample_consts (fun _ => 0) 0 [1, 2] 2).data HDR_OFFSET) ∧
    xradio_tx_net_frame sample_consts true (some (fun _ => 0)) 0 sample_packet =
      some sample_net_frame ∧
    get_le16 sample_net_frame.data HDR_OFFSET = 14 ∧
    ¬ least_offset_from_header sample_consts.SKB_DATA_ADDR_ALIGNMENT XRADIO_HDR_SIZE
      sample_packet.data.length (get_le16 sample_net_frame.data HDR_OFFSET) := by
  have h1 : get_le16 (xradio_tx_cmd_frame sample_consts (fun _ => 0) 0 [1, 2] 2).data
      HDR_OFFSET = 14 := by decide
  have h2 : get_le16 sample_net_frame.data HDR_OFFSET = 14 := by decide
  refine ⟨by decide, h1, ?_, by decide, h2, ?_⟩
  · intro h
    have h3 := h.2.2 10 (by decide) (by decide)
    rw [h1] at h3
    omega
  · intro h
    have h3 := h.2.2 10 (by decide) (by decide)
    rw [h2] at h3
    omega

/-- C2, amended: on both encoder paths the offset written into the header is the
smallest value strictly above the header size such that offset + len is a multiple of
the alignment quantum; when header size + len is already a multiple of the quantum the
offset is the header size plus one whole quantum. -/
theorem tx_offset_least_above_header (c : xradio_consts) (prior : Nat → Nat)
    (linearize_ok : Bool) (alloc : Option (Nat → Nat)) (seq : Nat) (P : List Nat)
    (skb out : sk_buff)
    (hA : 0 < c.SKB_DATA_ADDR_ALIGNMENT)
    (hfit : XRADIO_HDR_SIZE + c.SKB_DATA_ADDR_ALIGNMENT ≤ 65535)
    (hlen : skb.data.length < 65536)
    (h : xradio_tx_net_frame c linearize_ok alloc seq skb = some out) :
    (least_offset_above_header c.SKB_DATA_ADDR_ALIGNMENT XRADIO_HDR_SIZE P.length
        (get_le16 (xradio_tx_cmd_frame c prior seq P P.length).data HDR_OFFSET) ∧
      ((XRADIO_HDR_SIZE + P.length) % c.SKB_DATA_ADDR_ALIGNMENT = 0 →
        get_le16 (xradio_tx_cmd_frame c prior seq P P.length).data HDR_OFFSET =
          XRADIO_HDR_SIZE + c.SKB_DATA_ADDR_ALIGNMENT)) ∧
    (least_offset_above_header c.SKB_DATA_ADDR_ALIGNMENT XRADIO_HDR_SIZE skb.data.length
        (get_le16 out.data HDR_OFFSET) ∧
      ((XRADIO_HDR_SIZE + skb.data.length) % c.SKB_DATA_ADDR_ALIGNMENT = 0 →
        get_le16 out.data HDR_OFFSET = XRADIO_HDR_SIZE + c.SKB_DATA_ADDR_ALIGNMENT)) := by
  rw [xradio_tx_cmd_frame_offset c prior seq P hfit,
    xradio_tx_net_frame_offset c linearize_ok alloc seq skb out hfit hlen h]
  refine ⟨⟨least_offset_above_header_of_pad _ _ hA, ?_⟩,
    ⟨least_offset_above_header_of_pad _ _ hA, ?_⟩⟩
  · intro h0
    rw [Nat.add_comm P.length, h0]
    rfl
  · intro h0
    rw [Nat.add_comm skb.data.length, h0]
    rfl

/-- Witness of `tx_offset_least_above_header`: quantum 4 and two-byte payloads on both
paths. -/
theorem tx_offset_least_above_header_witness :
    (least_offset_above_header sample_consts.SKB_DATA_ADDR_ALIGNMENT XRADIO_HDR_SIZE
        [1, 2].length
        (get_le16 (xradio_tx_cmd_frame sample_consts (fun _ => 0) 0 [1, 2]
          [1, 2].length).data HDR_OFFSET) ∧
      ((XRADIO_HDR_SIZE + [1, 2].length) % sample_consts.SKB_DATA_ADDR_ALIGNMENT = 0 →
        get_le16 (xradio_tx_cmd_frame sample_consts (fun _ => 0) 0 [1, 2]
          [1, 2].length).data HDR_OFFSET =
          XRADIO_HDR_SIZE + sample_consts.SKB_DATA_ADDR_ALIGNMENT)) ∧
    (least_offset_above_header sample_consts.SKB_DATA_ADDR_ALIGNMENT XRADIO_HDR_SIZE
        sample_packet.data.length (get_le16 sample_net_frame.data HDR_OFFSET) ∧
      ((XRADIO_HDR_SIZE + sample_packet.data.length) %
          sample_consts.SKB_DATA_ADDR_ALIGNMENT = 0 →
        get_le16 sample_net_frame.data HDR_OFFSET =
          XRADIO_HDR_SIZE + sample_consts.SKB_DATA_ADDR_ALIGNMENT)) :=
  tx_offset_least_above_header sample_consts (fun _ => 0) true (some (fun _ => 0)) 0 [1, 2]
    sample_packet sample_net_frame (by decide) (by decide) (by decide) (by decide)

/-! ## Frame length and alignment -/

/-- C3: for every payload of at most 65535 bytes, the frame built by either encoder
path has total length offset + len, a multiple of the alignment quantum, with
header size < offset <= header size + quantum, and the offset read back from the `u16`
field is the untruncated value header size + pad the code computed. -/
theorem tx_frame_length_aligned (c : xradio_consts) (prior : Nat → Nat)
    (linearize_ok : Bool) (alloc : Option (Nat → Nat)) (seq : Nat) (P : List Nat)
    (skb out : sk_buff)
    (hA : 0 < c.SKB_DATA_ADDR_ALIGNMENT)
    (hfit : XRADIO_HDR_SIZE + c.SKB_DATA_ADDR_ALIGNMENT ≤ 65535)
    (hlen : skb.data.length ≤ 65535)
    (h : xradio_tx_net_frame c linearize_ok alloc seq skb = some out) :
    ((xradio_tx_cmd_frame c prior seq P P.length).data.length =
        get_le16 (xradio_tx_cmd_frame c prior seq P P.length).data HDR_OFFSET + P.length ∧
      (xradio_tx_cmd_frame c prior seq P P.length).data.length %
        c.SKB_DATA_ADDR_ALIGNMENT = 0 ∧
      XRADIO_HDR_SIZE < get_le16 (xradio_tx_cmd_frame c prior seq P P.length).data HDR_OFFSET ∧
      get_le16 (xradio_tx_cmd_frame c prior seq P P.length).data HDR_OFFSET ≤
        XRADIO_HDR_SIZE + c.SKB_DATA_ADDR_ALIGNMENT ∧
      get_le16 (xradio_tx_cmd_frame c prior seq P P.length).data HDR_OFFSET =
        XRADIO_HDR_SIZE + (c.SKB_DATA_ADDR_ALIGNMENT -
          (P.length + XRADIO_HDR_SIZE) % c.SKB_DATA_ADDR_ALIGNMENT) ∧
      get_le16 (xradio_tx_cmd_frame c prior seq P P.length).data HDR_OFFSET < 65536) ∧
    (out.data.length = get_le16 out.data HDR_OFFSET + skb.data.length ∧
      out.data.length % c.SKB_DATA_ADDR_ALIGNMENT = 0 ∧
      XRADIO_HDR_SIZE < get_le16 out.data HDR_OFFSET ∧
      get_le16 out.data HDR_OFFSET ≤ XRADIO_HDR_SIZE + c.SKB_DATA_ADDR_ALIGNMENT ∧
      get_le16 out.data HDR_OFFSET =
        XRADIO_HDR_SIZE + (c.SKB_DATA_ADDR_ALIGNMENT -
          (skb.data.length + XRADIO_HDR_SIZE) % c.SKB_DATA_ADDR_ALIGNMENT) ∧
      get_le16 out.data HDR_OFFSET < 65536) := by
  have hl : skb.data.length < 65536 := by omega
  rw [xradio_tx_cmd_frame_offset c prior seq P hfit,
    xradio_tx_net_frame_offset c linearize_ok alloc seq skb out hfit hl h,
    xradio_tx_cmd_frame_data c prior seq P hfit,
    xradio_tx_net_frame_data c linearize_ok alloc seq skb out hl h,
    wire_frame_length, wire_frame_length]
  simp only [List.length_map, List.length_range', List.length_replicate]
  obtain ⟨a1, a2, a3, _⟩ := pad_len_props c.SKB_DATA_ADDR_ALIGNMENT (P.length + XRADIO_HDR_SIZE) hA
  obtain ⟨b1, b2, b3, _⟩ :=
    pad_len_props c.SKB_DATA_ADDR_ALIGNMENT (skb.data.length + XRADIO_HDR_SIZE) hA
  refine ⟨⟨trivial, ?_, by omega, by omega, trivial, by omega⟩,
    ⟨trivial, ?_, by omega, by omega, trivial, by omega⟩⟩
  · have e : XRADIO_HDR_SIZE + (c.SKB_DATA_ADDR_ALIGNMENT -
        (P.length + XRADIO_HDR_SIZE) % c.SKB_DATA_ADDR_ALIGNMENT) + P.length =
        P.length + XRADIO_HDR_SIZE + (c.SKB_DATA_ADDR_ALIGNMENT -
        (P.length + XRADIO_HDR_SIZE) % c.SKB_DATA_ADDR_ALIGNMENT) := by omega
    rw [e]
    exact a3
  · have e : XRADIO_HDR_SIZE + (c.SKB_DATA_ADDR_ALIGNMENT -
        (skb.data.length + XRADIO_HDR_SIZE) % c.SKB_DATA_ADDR_ALIGNMENT) + skb.data.length =
        skb.data.length + XRADIO_HDR_SIZE + (c.SKB_DATA_ADDR_ALIGNMENT -
        (skb.data.length + XRADIO_HDR_SIZE) % c.SKB_DATA_ADDR_ALIGNMENT) := by omega
    rw [e]
    exact b3

/-- Witness of `tx_frame_length_aligned`: quantum 4, a three-byte command payload and the
two-byte sample packet. -/
theorem tx_frame_length_aligned_witness :
    (xradio_tx_cmd_frame sample_consts (fun _ => 170) 0 [1, 2, 3] 3).data.length = 16 ∧
    get_le16 (xradio_tx_cmd_frame sample_consts (fun _ => 170) 0 [1, 2, 3] 3).data
      HDR_OFFSET = 13 ∧
    sample_net_frame.data.length % sample_consts.SKB_DATA_ADDR_ALIGNMENT = 0 ∧
    get_le16 sample_net_frame.data HDR_OFFSET = 14 := by
  have h := tx_frame_length_aligned sample_consts (fun _ => 170) true (some (fun _ => 0)) 0
    [1, 2, 3] sample_packet sample_net_frame (by decide) (by decide) (by decide) (by decide)
  exact ⟨by decide, h.1.2.2.2.2.1, h.2.2.1, h.2.2.2.2.2.1⟩

/-! ## Decoding -/

theorem message_decode (s t : Nat) (hs : s < 256) (ht : t < 256) :
    (((s <<< 8 ||| t) % 65536) &&& 0xFF) % 256 = t ∧
    ((((s <<< 8 ||| t) % 65536) &&& 0xFF00) >>> 8) % 256 = s := by
  have e : s <<< 8 ||| t = 2 ^ 8 * s + t := by
    rw [Nat.shiftLeft_eq, Nat.mul_comm, Nat.mul_add_lt_is_or (by simpa using ht)]
  have hm : (s <<< 8 ||| t) % 65536 = 256 * s + t := by
    rw [e]
    omega
  rw [hm]
  have h1 : (256 * s + t) &&& 0xFF = (256 * s + t) % 2 ^ 8 :=
    Nat.and_pow_two_sub_one_eq_mod _ 8
  have h2 : ((256 * s + t) &&& 0xFF00) >>> 8 = ((256 * s + t) >>> 8) &&& 0xFF := by
    apply Nat.eq_of_testBit_eq
    intro i
    have e2 : (0xFF00 : Nat) = 0xFF <<< 8 := by decide
    rw [Nat.testBit_shiftRight, Nat.testBit_and, Nat.testBit_and, Nat.testBit_shiftRight, e2,
      Nat.testBit_shiftLeft]
    simp
  have h3 : ((256 * s + t) >>> 8) &&& 0xFF = ((256 * s + t) >>> 8) % 2 ^ 8 :=
    Nat.and_pow_two_sub_one_eq_mod _ 8
  rw [h1, h2, h3, Nat.shiftRight_eq_div_pow]
  constructor <;> omega

theorem mem_read_wire_frame (l n o m k : Nat) (pad payload : List Nat) :
    mem_read (wire_frame l n o m k pad payload) (XRADIO_HDR_SIZE + pad.length) payload.length
      = payload := by
  unfold wire_frame
  rw [← List.append_assoc]
  have := mem_read_append_right
    ([l % 256, l / 256 % 256, n % 256, n / 256 % 256, o % 256, o / 256 % 256, m % 256,
      m / 256 % 256, k % 256, k / 256 % 256] ++ pad) payload
  rw [List.length_append] at this
  exact this

theorem skb_pull_wire_frame (skb : sk_buff) (l n o m k : Nat) (pad payload : List Nat)
    (h : skb.data = wire_frame l n o m k pad payload) :
    (skb_pull skb (XRADIO_HDR_SIZE + pad.length)).data = payload := by
  unfold skb_pull
  rw [h, wire_frame_length]
  have hn : ¬ (XRADIO_HDR_SIZE + pad.length > XRADIO_HDR_SIZE + pad.length + payload.length) := by
    omega
  rw [if_neg hn]
  show List.drop _ (wire_frame l n o m k pad payload) = payload
  unfold wire_frame
  rw [← List.append_assoc]
  exact List.drop_left' (by rw [List.length_append]; rfl)

/-- The receiver on a buffer in wire layout whose checksum field is the checksum of the
payload: the frame passes the comparison and goes to the handler of its type. -/
theorem xradio_rx_process_wire (c : xradio_consts) (priv : xradio_priv) (skb : sk_buff)
    (n m : Nat) (pad P : List Nat)
    (hdata : skb.data = wire_frame P.length n (XRADIO_HDR_SIZE + pad.length) m
      (c.xradio_crc_16 P % 65536) pad P)
    (hl : P.length < 65536) (hn : n < 65536) (ho : XRADIO_HDR_SIZE + pad.length < 65536)
    (hm : m < 65536) :
    rx_checksum_ok c skb.data ∧
    get_le16 skb.data HDR_CUR_LEN = P.length ∧
    get_le16 skb.data HDR_OFFSET = XRADIO_HDR_SIZE + pad.length ∧
    get_le16 skb.data HDR_MESSAGE = m ∧
    xradio_rx_process c priv skb =
      { ret := n
        st := (rx_dispatch c
            { priv with dev_seq := (rx_track_seq priv.dev_seq (hdr_seq c skb.data)).1 }
            (skb_pull skb (XRADIO_HDR_SIZE + pad.length)) P.length (hdr_seq c skb.data)
            (hdr_type_id c skb.data)).st
        ev := (rx_track_seq priv.dev_seq (hdr_seq c skb.data)).2 ++
          (rx_dispatch c
            { priv with dev_seq := (rx_track_seq priv.dev_seq (hdr_seq c skb.data)).1 }
            (skb_pull skb (XRADIO_HDR_SIZE + pad.length)) P.length (hdr_seq c skb.data)
            (hdr_type_id c skb.data)).ev } := by
  obtain ⟨g1, g2, g3, g4, g5⟩ := get_le16_wire_frame P.length n (XRADIO_HDR_SIZE + pad.length) m
    (c.xradio_crc_16 P % 65536) pad P hl hn ho hm (Nat.mod_lt _ (by decide))
  rw [← hdata] at g1 g2 g3 g4 g5
  have hrd : mem_read skb.data (XRADIO_HDR_SIZE + pad.length) P.length = P := by
    rw [hdata]
    exact mem_read_wire_frame _ _ _ _ _ _ _
  refine ⟨?_, g1, g3, g4, ?_⟩
  · unfold rx_checksum_ok
    rw [g5, g3, g1, hrd]
  · unfold xradio_rx_process
    simp only [g1, g2, g3, g4, g5, hrd, ne_eq, not_true_eq_false, if_false]

/-! ## Round trip -/

/-- C1: for every payload `P` of at most 65535 bytes and every sequence byte `s`, the
frame built by the command path (and the frame built by the data path) passes the
checksum comparison of `xradio_rx_process`, decodes to sequence `s`, to the tag it was
built with and to length `|P|`, and the payload handed on (the `cur_len` bytes at
`offset`) is `P`: the command frame goes to `xradio_rx_cmd_process` with `P`, the data
frame reaches `xradio_net_data_input` with `P`.  The checksum routine is any fixed
function; the masks split `message` into two bytes and the two tags are distinct
bytes. -/
theorem frame_round_trip (c : xradio_consts) (priv : xradio_priv) (prior : Nat → Nat)
    (linearize_ok : Bool) (alloc : Option (Nat → Nat)) (s : Nat) (P hd : List Nat)
    (addr : Nat) (out : sk_buff)
    (hT : c.TYPE_ID_MASK = 0xFF) (hS : c.SEQ_NUM_MASK = 0xFF00)
    (hcmd : c.XR_REQ_CMD < 256) (hdat : c.XR_REQ_DATA < 256)
    (hne : c.XR_REQ_DATA ≠ c.XR_REQ_CMD)
    (hfit : XRADIO_HDR_SIZE + c.SKB_DATA_ADDR_ALIGNMENT ≤ 65535)
    (hs : s < 256) (hP : P.length ≤ 65535)
    (h : xradio_tx_net_frame c linearize_ok alloc s { head := hd, data := P, addr := addr }
      = some out) :
    (rx_checksum_ok c (xradio_tx_cmd_frame c prior s P P.length).data ∧
      hdr_seq c (xradio_tx_cmd_frame c prior s P P.length).data = s ∧
      hdr_type_id c (xradio_tx_cmd_frame c prior s P P.length).data = c.XR_REQ_CMD ∧
      get_le16 (xradio_tx_cmd_frame c prior s P P.length).data HDR_CUR_LEN = P.length ∧
      mem_read (xradio_tx_cmd_frame c prior s P P.length).data
        (get_le16 (xradio_tx_cmd_frame c prior s P P.length).data HDR_OFFSET)
        (get_le16 (xradio_tx_cmd_frame c prior s P P.length).data HDR_CUR_LEN) = P ∧
      (skb_pull (xradio_tx_cmd_frame c prior s P P.length)
        (get_le16 (xradio_tx_cmd_frame c prior s P P.length).data HDR_OFFSET)).data = P ∧
      xradio_rx_process c priv (xradio_tx_cmd_frame c prior s P P.length) =
        { ret := 0
          st := (xradio_rx_cmd_process c
            { priv with dev_seq := (rx_track_seq priv.dev_seq s).1 }
            (skb_pull (xradio_tx_cmd_frame c prior s P P.length)
              (get_le16 (xradio_tx_cmd_frame c prior s P P.length).data HDR_OFFSET))
            P.length s).st
          ev := (rx_track_seq priv.dev_seq s).2 ++ (xradio_rx_cmd_process c
            { priv with dev_seq := (rx_track_seq priv.dev_seq s).1 }
            (skb_pull (xradio_tx_cmd_frame c prior s P P.length)
              (get_le16 (xradio_tx_cmd_frame c prior s P P.length).data HDR_OFFSET))
            P.length s).ev }) ∧
    (rx_checksum_ok c out.data ∧
      hdr_seq c out.data = s ∧
      hdr_type_id c out.data = c.XR_REQ_DATA ∧
      get_le16 out.data HDR_CUR_LEN = P.length ∧
      mem_read out.data (get_le16 out.data HDR_OFFSET) (get_le16 out.data HDR_CUR_LEN) = P ∧
      xradio_rx_process c priv out =
        { ret := 0
          st := { priv with dev_seq := (rx_track_seq priv.dev_seq s).1 }
          ev := (rx_track_seq priv.dev_seq s).2 ++ [Event.net_data_input P] }) := by
  have hl : P.length < 65536 := by omega
  have hlm : P.length % 65536 = P.length := Nat.mod_eq_of_lt hl
  constructor
  · generalize hf : xradio_tx_cmd_frame c prior s P P.length = f
    have hdata := xradio_tx_cmd_frame_data c prior s P hfit
    rw [hf] at hdata
    generalize hpad : c.SKB_DATA_ADDR_ALIGNMENT -
      (P.length + XRADIO_HDR_SIZE) % c.SKB_DATA_ADDR_ALIGNMENT = k at hdata
    have hk : XRADIO_HDR_SIZE + k < 65536 := by omega
    have hpl : ((List.range' XRADIO_HDR_SIZE k).map prior).length = k := by simp
    rw [hlm, Nat.mod_eq_of_lt hk] at hdata
    nth_rewrite 1 [← hpl] at hdata
    obtain ⟨r1, r2, r3, r4, r5⟩ := xradio_rx_process_wire c priv f 0
      ((s <<< 8 ||| c.XR_REQ_CMD) % 65536) _ P hdata hl (by decide)
      (by rw [hpl]; exact hk) (Nat.mod_lt _ (by decide))
    rw [hpl] at r3 r5
    obtain ⟨d1, d2⟩ := message_decode s c.XR_REQ_CMD hs hcmd
    have hseq : hdr_seq c f.data = s := by
      unfold hdr_seq
      rw [r4, hS]
      exact d2
    have hty : hdr_type_id c f.data = c.XR_REQ_CMD := by
      unfold hdr_type_id
      rw [r4, hT]
      exact d1
    have hpull : (skb_pull f (XRADIO_HDR_SIZE + k)).data = P := by
      have := skb_pull_wire_frame f _ _ _ _ _ _ _ hdata
      rw [hpl] at this
      exact this
    have hrd : mem_read f.data (XRADIO_HDR_SIZE + k) P.length = P := by
      have := mem_read_wire_frame P.length 0 (XRADIO_HDR_SIZE +
        ((List.range' XRADIO_HDR_SIZE k).map prior).length)
        ((s <<< 8 ||| c.XR_REQ_CMD) % 65536) (c.xradio_crc_16 P % 65536)
        ((List.range' XRADIO_HDR_SIZE k).map prior) P
      rw [← hdata, hpl] at this
      exact this
    rw [hseq, hty] at r5
    rw [r3, r2]
    refine ⟨r1, hseq, hty, rfl, hrd, hpull, ?_⟩
    rw [r5]
    simp [rx_dispatch]
  · have hdata := xradio_tx_net_frame_data c linearize_ok alloc s _ out hl h
    simp only [] at hdata
    generalize hpad : c.SKB_DATA_ADDR_ALIGNMENT -
      (P.length + XRADIO_HDR_SIZE) % c.SKB_DATA_ADDR_ALIGNMENT = k at hdata
    have hk : XRADIO_HDR_SIZE + k < 65536 := by omega
    have hpl : (List.replicate k 0).length = k := by simp
    rw [hlm, Nat.mod_eq_of_lt hk] at hdata
    nth_rewrite 1 [← hpl] at hdata
    obtain ⟨r1, r2, r3, r4, r5⟩ := xradio_rx_process_wire c priv out 0
      ((s <<< 8 ||| c.XR_REQ_DATA) % 65536) _ P hdata hl (by decide)
      (by rw [hpl]; exact hk) (Nat.mod_lt _ (by decide))
    rw [hpl] at r3 r5
    obtain ⟨d1, d2⟩ := message_decode s c.XR_REQ_DATA hs hdat
    have hseq : hdr_seq c out.data = s := by
      unfold hdr_seq
      rw [r4, hS]
      exact d2
    have hty : hdr_type_id c out.data = c.XR_REQ_DATA := by
      unfold hdr_type_id
      rw [r4, hT]
      exact d1
    have hpull : (skb_pull out (XRADIO_HDR_SIZE + k)).data = P := by
      have := skb_pull_wire_frame out _ _ _ _ _ _ _ hdata
      rw [hpl] at this
      exact this
    have hrd : mem_read out.data (XRADIO_HDR_SIZE + k) P.length = P := by
      have := mem_read_wire_frame P.length 0 (XRADIO_HDR_SIZE + (List.replicate k 0).length)
        ((s <<< 8 ||| c.XR_REQ_DATA) % 65536) (c.xradio_crc_16 P % 65536)
        (List.replicate k 0) P
      rw [← hdata, hpl] at this
      exact this
    rw [hseq, hty] at r5
    rw [r3, r2]
    refine ⟨r1, hseq, hty, rfl, hrd, ?_⟩
    rw [r5]
    simp only [rx_dispatch, if_neg hne, xradio_rx_net_process, skb_trim, hpull, gt_iff_lt,
      lt_self_iff_false, if_false]
    simp

/-- Witness of `frame_round_trip`: the two-byte payload `[1, 2]` with sequence number 0
under the sample constants, through both paths. -/
theorem frame_round_trip_witness :
    hdr_seq sample_consts
      (xradio_tx_cmd_frame sample_consts (fun _ => 170) 0 [1, 2] [1, 2].length).data = 0 ∧
    hdr_type_id sample_consts
      (xradio_tx_cmd_frame sample_consts (fun _ => 170) 0 [1, 2] [1, 2].length).data =
        sample_consts.XR_REQ_CMD ∧
    rx_checksum_ok sample_consts sample_net_frame.data ∧
    mem_read sample_net_frame.data (get_le16 sample_net_frame.data HDR_OFFSET)
      (get_le16 sample_net_frame.data HDR_CUR_LEN) = [1, 2] ∧
    xradio_rx_process sample_consts (xradio_register_trans 10 10) sample_net_frame =
      { ret := 0
        st := { xradio_register_trans 10 10 with
          dev_seq := (rx_track_seq (xradio_register_trans 10 10).dev_seq 0).1 }
        ev := (rx_track_seq (xradio_register_trans 10 10).dev_seq 0).2 ++
          [Event.net_data_input [1, 2]] } := by
  have h := frame_round_trip sample_consts (xradio_register_trans 10 10) (fun _ => 170) true
    (some (fun _ => 0)) 0 [1, 2] [] 0 sample_net_frame rfl rfl (by decide) (by decide)
    (by decide) (by decide) (by decide) (by decide) (by decide)
  exact ⟨h.1.2.1, h.1.2.2.1, h.2.1, h.2.2.2.2.2.1, h.2.2.2.2.2.2⟩

/-! ## Wire layout on both paths -/

theorem mem_read_wire_frame_pad (l n o m k : Nat) (pad payload : List Nat) :
    mem_read (wire_frame l n o m k pad payload) XRADIO_HDR_SIZE pad.length = pad := by
  unfold wire_frame mem_read
  rw [List.drop_left' (by rfl), List.take_left]

/-- The parts of the wire layout that hold on both paths, and the pad of each: fields
`next_len` and `message`, the checksum over the payload at `offset`, a pad of zeros on
the data path, a pad of the buffer's prior bytes on the command path. -/
theorem tx_frame_layout (c : xradio_consts) (prior : Nat → Nat) (linearize_ok : Bool)
    (alloc : Option (Nat → Nat)) (seq : Nat) (P hd : List Nat) (addr : Nat) (out : sk_buff)
    (hfit : XRADIO_HDR_SIZE + c.SKB_DATA_ADDR_ALIGNMENT ≤ 65535) (hP : P.length ≤ 65535)
    (h : xradio_tx_net_frame c linearize_ok alloc seq { head := hd, data := P, addr := addr }
      = some out) :
    (get_le16 (xradio_tx_cmd_frame c prior seq P P.length).data HDR_NEXT_LEN = 0 ∧
      get_le16 (xradio_tx_cmd_frame c prior seq P P.length).data HDR_MESSAGE =
        (seq <<< 8 ||| c.XR_REQ_CMD) % 65536 ∧
      get_le16 (xradio_tx_cmd_frame c prior seq P P.length).data HDR_CHECKSUM =
        c.xradio_crc_16 P % 65536 ∧
      mem_read (xradio_tx_cmd_frame c prior seq P P.length).data XRADIO_HDR_SIZE
        (c.SKB_DATA_ADDR_ALIGNMENT - (P.length + XRADIO_HDR_SIZE) % c.SKB_DATA_ADDR_ALIGNMENT) =
        (List.range' XRADIO_HDR_SIZE (c.SKB_DATA_ADDR_ALIGNMENT -
          (P.length + XRADIO_HDR_SIZE) % c.SKB_DATA_ADDR_ALIGNMENT)).map prior) ∧
    (get_le16 out.data HDR_NEXT_LEN = 0 ∧
      get_le16 out.data HDR_MESSAGE = (seq <<< 8 ||| c.XR_REQ_DATA) % 65536 ∧
      get_le16 out.data HDR_CHECKSUM = c.xradio_crc_16 P % 65536 ∧
      mem_read out.data XRADIO_HDR_SIZE
        (c.SKB_DATA_ADDR_ALIGNMENT - (P.length + XRADIO_HDR_SIZE) % c.SKB_DATA_ADDR_ALIGNMENT) =
        List.replicate (c.SKB_DATA_ADDR_ALIGNMENT -
          (P.length + XRADIO_HDR_SIZE) % c.SKB_DATA_ADDR_ALIGNMENT) 0) := by
  have hl : P.length < 65536 := by omega
  have hd1 := xradio_tx_cmd_frame_data c prior seq P hfit
  have hd2 := xradio_tx_net_frame_data c linearize_ok alloc seq _ out hl h
  simp only [] at hd2
  rw [hd1, hd2]
  generalize c.SKB_DATA_ADDR_ALIGNMENT -
    (P.length + XRADIO_HDR_SIZE) % c.SKB_DATA_ADDR_ALIGNMENT = k
  obtain ⟨_, a2, _, a4, a5⟩ := get_le16_wire_frame (P.length % 65536) 0
    ((XRADIO_HDR_SIZE + k) % 65536) ((seq <<< 8 ||| c.XR_REQ_CMD) % 65536)
    (c.xradio_crc_16 P % 65536) ((List.range' XRADIO_HDR_SIZE k).map prior) P
    (Nat.mod_lt _ (by decide)) (by decide) (Nat.mod_lt _ (by decide))
    (Nat.mod_lt _ (by decide)) (Nat.mod_lt _ (by decide))
  obtain ⟨_, b2, _, b4, b5⟩ := get_le16_wire_frame (P.length % 65536) 0
    ((XRADIO_HDR_SIZE + k) % 65536) ((seq <<< 8 ||| c.XR_REQ_DATA) % 65536)
    (c.xradio_crc_16 P % 65536) (List.replicate k 0) P
    (Nat.mod_lt _ (by decide)) (by decide) (Nat.mod_lt _ (by decide))
    (Nat.mod_lt _ (by decide)) (Nat.mod_lt _ (by decide))
  refine ⟨⟨a2, a4, a5, ?_⟩, ⟨b2, b4, b5, ?_⟩⟩
  · have := mem_read_wire_frame_pad (P.length % 65536) 0 ((XRADIO_HDR_SIZE + k) % 65536)
      ((seq <<< 8 ||| c.XR_REQ_CMD) % 65536) (c.xradio_crc_16 P % 65536)
      ((List.range' XRADIO_HDR_SIZE k).map prior) P
    simpa using this
  · have := mem_read_wire_frame_pad (P.length % 65536) 0 ((XRADIO_HDR_SIZE + k) % 65536)
      ((seq <<< 8 ||| c.XR_REQ_DATA) % 65536) (c.xradio_crc_16 P % 65536)
      (List.replicate k 0) P
    simpa using this

/-! ## Wire layout -/

/-- C4 at a failing input: the command path with a three-byte payload in a buffer whose
prior bytes are all 0xAA.  The offset is 13, and the three bytes between the end of the
header and the offset are still 0xAA, not zero: only `sizeof(struct xradio_hdr)` bytes
are cleared.  The data path clears them for the same payload. -/
theorem tx_cmd_frame_pad_not_zeroed :
    (xradio_tx_cmd_frame sample_consts (fun _ => 0xAA) 0 [1, 2, 3] 3).data =
      [3, 0, 0, 0, 13, 0, 1, 0, 124, 54, 0xAA, 0xAA, 0xAA, 1, 2, 3] ∧
    get_le16 (xradio_tx_cmd_frame sample_consts (fun _ => 0xAA) 0 [1, 2, 3] 3).data
      HDR_OFFSET = 13 ∧
    mem_read (xradio_tx_cmd_frame sample_consts (fun _ => 0xAA) 0 [1, 2, 3] 3).data
      XRADIO_HDR_SIZE (13 - XRADIO_HDR_SIZE) = [0xAA, 0xAA, 0xAA] ∧
    (xradio_tx_net_frame sample_consts true (some (fun _ => 0xAA)) 0
      { head := [], data := [1, 2, 3], addr := 0 }).map
        (fun f => mem_read f.data XRADIO_HDR_SIZE (13 - XRADIO_HDR_SIZE)) = some [0, 0, 0] := by
  decide

/-! ## Checksum rejection -/

theorem xradio_rx_process_mismatch (c : xradio_consts) (priv : xradio_priv) (skb : sk_buff)
    (h : ¬ rx_checksum_ok c skb.data) :
    xradio_rx_process c priv skb =
      { ret := -1, st := priv
        ev := [Event.log_checksum_failed (get_le16 skb.data HDR_CHECKSUM)
          (c.xradio_crc_16 (mem_read skb.data (get_le16 skb.data HDR_OFFSET)
            (get_le16 skb.data HDR_CUR_LEN)) % 65536), Event.free_skb] } := by
  unfold rx_checksum_ok at h
  unfold xradio_rx_process
  simp only [ne_eq, h, not_false_eq_true, if_true]

theorem xradio_rx_process_match (c : xradio_consts) (priv : xradio_priv) (skb : sk_buff)
    (h : rx_checksum_ok c skb.data) :
    xradio_rx_process c priv skb =
      { ret := (get_le16 skb.data HDR_NEXT_LEN : Nat)
        st := (rx_dispatch c
          { priv with dev_seq := (rx_track_seq priv.dev_seq (hdr_seq c skb.data)).1 }
          (skb_pull skb (get_le16 skb.data HDR_OFFSET)) (get_le16 skb.data HDR_CUR_LEN)
          (hdr_seq c skb.data) (hdr_type_id c skb.data)).st
        ev := (rx_track_seq priv.dev_seq (hdr_seq c skb.data)).2 ++
          (rx_dispatch c
            { priv with dev_seq := (rx_track_seq priv.dev_seq (hdr_seq c skb.data)).1 }
            (skb_pull skb (get_le16 skb.data HDR_OFFSET)) (get_le16 skb.data HDR_CUR_LEN)
            (hdr_seq c skb.data) (hdr_type_id c skb.data)).ev } := by
  unfold rx_checksum_ok at h
  unfold xradio_rx_process
  simp only [ne_eq, h, not_true_eq_false, if_false]

/-- With nothing behind the buffer the receiver with memory is `xradio_rx_process`. -/
theorem xradio_rx_process_mem_nil (c : xradio_consts) (priv : xradio_priv) (skb : sk_buff) :
    xradio_rx_process_mem c [] priv skb = xradio_rx_process c priv skb := by
  unfold xradio_rx_process_mem xradio_rx_process rx_dispatch_mem rx_dispatch
  simp only [List.append_nil]

theorem hdr_seq_lt (c : xradio_consts) (hdr : List Nat) : hdr_seq c hdr < 256 :=
  Nat.mod_lt _ (by decide)

theorem rx_track_seq_fst (d : Int) (seq : Nat) (hs : seq < 256) :
    (rx_track_seq d seq).1 = (((seq + 1) % 256 : Nat) : Int) := by
  unfold rx_track_seq
  by_cases h1 : d = -1
  · by_cases h2 : (seq : Int) + 1 > 255
    · simp [h1, h2]; omega
    · simp [h1, h2]; omega
  · by_cases h3 : d = (seq : Int)
    · by_cases h2 : (seq : Int) + 1 > 255
      · simp [h1, h3, h2]; omega
      · simp [h1, h3, h2]; omega
    · by_cases h2 : (seq : Int) + 1 > 255
      · simp [h1, h3, h2]; omega
      · simp [h1, h3, h2]; omega

theorem rx_track_seq_loss (d : Int) (seq : Nat) :
    loss_count (rx_track_seq d seq).2 = if d = -1 ∨ d = (seq : Int) then 0 else 1 := by
  unfold rx_track_seq
  by_cases h1 : d = -1
  · simp [h1, loss_count]
  · by_cases h3 : d = (seq : Int)
    · simp [h1, h3, loss_count]
    · simp [h1, h3, loss_count]

theorem rx_dispatch_dev_seq (c : xradio_consts) (priv : xradio_priv) (skb : sk_buff)
    (l s t : Nat) : (rx_dispatch c priv skb l s t).st.dev_seq = priv.dev_seq := by
  unfold rx_dispatch xradio_rx_cmd_process xradio_rx_net_process
  simp only []
  split_ifs <;> rfl

theorem rx_dispatch_loss (c : xradio_consts) (priv : xradio_priv) (skb : sk_buff)
    (l s t : Nat) : loss_count (rx_dispatch c priv skb l s t).ev = 0 := by
  unfold rx_dispatch xradio_rx_cmd_process xradio_rx_net_process
  simp only []
  split_ifs <;> simp [loss_count]

theorem loss_count_append (a b : List Event) : loss_count (a ++ b) = loss_count a + loss_count b := by
  unfold loss_count
  exact List.countP_append _ _ _

/-- One checksum-valid frame through the receiver: the tracker afterwards, the return
value and the number of warnings. -/
theorem xradio_rx_process_track (c : xradio_consts) (priv : xradio_priv) (skb : sk_buff)
    (hok : rx_checksum_ok c skb.data) :
    (xradio_rx_process c priv skb).st.dev_seq = (((hdr_seq c skb.data + 1) % 256 : Nat) : Int) ∧
    (xradio_rx_process c priv skb).ret = (get_le16 skb.data HDR_NEXT_LEN : Nat) ∧
    loss_count (xradio_rx_process c priv skb).ev =
      if priv.dev_seq = -1 ∨ priv.dev_seq = (hdr_seq c skb.data : Int) then 0 else 1 := by
  rw [xradio_rx_process_match c priv skb hok]
  simp only [rx_dispatch_dev_seq, loss_count_append, rx_dispatch_loss, Nat.add_zero]
  exact ⟨rx_track_seq_fst _ _ (hdr_seq_lt c skb.data), trivial, rx_track_seq_loss _ _⟩

theorem xradio_rx_run_length (c : xradio_consts) (frames : List sk_buff) :
    ∀ priv, (xradio_rx_run c priv frames).length = frames.length := by
  induction frames with
  | nil => intro priv; rfl
  | cons f rest ih =>
    intro priv
    simp only [xradio_rx_run, List.length_cons, ih]

theorem xradio_rx_run_append (c : xradio_consts) (l1 l2 : List sk_buff) :
    ∀ priv, xradio_rx_run c priv (l1 ++ l2) =
      xradio_rx_run c priv l1 ++ xradio_rx_run c (xradio_rx_run_state c priv l1) l2 := by
  induction l1 with
  | nil => intro priv; rfl
  | cons f rest ih =>
    intro priv
    rw [List.cons_append]
    simp only [xradio_rx_run, xradio_rx_run_state]
    rw [ih]
    rfl

/-- Frame `i` of a series of checksum-valid frames, from any tracker state. -/
theorem xradio_rx_run_get (c : xradio_consts) (frames : List sk_buff) :
    ∀ priv, (∀ f ∈ frames, rx_checksum_ok c f.data) →
    ∀ i f o, frames[i]? = some f → (xradio_rx_run c priv frames)[i]? = some o →
      o.st.dev_seq = (((hdr_seq c f.data + 1) % 256 : Nat) : Int) ∧
      o.ret = ((get_le16 f.data HDR_NEXT_LEN : Nat) : Int) ∧
      (i = 0 → loss_count o.ev =
        if priv.dev_seq = -1 ∨ priv.dev_seq = (hdr_seq c f.data : Int) then 0 else 1) ∧
      (∀ g, 0 < i → frames[i - 1]? = some g →
        loss_count o.ev = if hdr_seq c f.data = (hdr_seq c g.data + 1) % 256 then 0 else 1) := by
  induction frames with
  | nil =>
    intro priv _ i f o hf
    simp at hf
  | cons f0 rest ih =>
    intro priv hvalid i f o hf ho
    have hok0 : rx_checksum_ok c f0.data := hvalid f0 (List.mem_cons_self _ _)
    have hrest : ∀ f ∈ rest, rx_checksum_ok c f.data :=
      fun f hm => hvalid f (List.mem_cons_of_mem _ hm)
    obtain ⟨t1, t2, t3⟩ := xradio_rx_process_track c priv f0 hok0
    cases i with
    | zero =>
      simp only [List.getElem?_cons_zero, Option.some.injEq] at hf
      simp only [xradio_rx_run, List.getElem?_cons_zero, Option.some.injEq] at ho
      subst hf
      subst ho
      refine ⟨t1, t2, fun _ => t3, ?_⟩
      intro g hpos
      omega
    | succ j =>
      simp only [List.getElem?_cons_succ] at hf
      simp only [xradio_rx_run, List.getElem?_cons_succ] at ho
      obtain ⟨r1, r2, r3, r4⟩ := ih (xradio_rx_process c priv f0).st hrest j f o hf ho
      refine ⟨r1, r2, fun h => by omega, ?_⟩
      intro g _ hg
      simp only [Nat.add_sub_cancel] at hg
      cases j with
      | zero =>
        simp only [List.getElem?_cons_zero, Option.some.injEq] at hg
        subst hg
        rw [r3 rfl, t1]
        have h1 := hdr_seq_lt c f.data
        by_cases he : hdr_seq c f.data = (hdr_seq c f0.data + 1) % 256
        · rw [if_pos he, if_pos]
          right
          rw [he]
        · rw [if_neg he, if_neg]
          intro hor
          rcases hor with h | h
          · omega
          · exact he (by omega)
      | succ k =>
        simp only [List.getElem?_cons_succ] at hg
        exact r4 g (by omega) (by simpa using hg)

theorem consecutive_seqs_succ (a n : Nat) :
    consecutive_seqs a (n + 1) = a % 256 :: consecutive_seqs (a + 1) n := by
  unfold consecutive_seqs
  rw [List.range_succ_eq_map, List.map_cons, List.map_map]
  simp only [Nat.add_zero, List.cons.injEq, true_and]
  apply List.map_congr_left
  intro i _
  simp only [Function.comp, Nat.succ_eq_add_one]
  congr 1
  omega

/-- A run of consecutive sequence numbers from a tracker that expects the first one (or
nothing yet) logs no warning. -/
theorem xradio_rx_run_consecutive (c : xradio_consts) (frames : List sk_buff) :
    ∀ priv a, (∀ f ∈ frames, rx_checksum_ok c f.data) →
      frames.map (fun f => hdr_seq c f.data) = consecutive_seqs a frames.length →
      (priv.dev_seq = -1 ∨ priv.dev_seq = ((a % 256 : Nat) : Int)) →
      ((xradio_rx_run c priv frames).map (fun o => loss_count o.ev)).sum = 0 ∧
      (frames ≠ [] → (xradio_rx_run_state c priv frames).dev_seq =
        (((a + frames.length) % 256 : Nat) : Int)) := by
  induction frames with
  | nil =>
    intro priv a _ _ _
    exact ⟨rfl, fun h => absurd rfl h⟩
  | cons f0 rest ih =>
    intro priv a hvalid hseqs hst
    have hok0 : rx_checksum_ok c f0.data := hvalid f0 (List.mem_cons_self _ _)
    have hrest : ∀ f ∈ rest, rx_checksum_ok c f.data :=
      fun f hm => hvalid f (List.mem_cons_of_mem _ hm)
    obtain ⟨t1, _, t3⟩ := xradio_rx_process_track c priv f0 hok0
    rw [List.map_cons, List.length_cons, consecutive_seqs_succ, List.cons.injEq] at hseqs
    obtain ⟨h0, hr⟩ := hseqs
    have hst1 : (xradio_rx_process c priv f0).st.dev_seq = (((a + 1) % 256 : Nat) : Int) := by
      rw [t1, h0]
      congr 1
      omega
    obtain ⟨i1, i2⟩ := ih (xradio_rx_process c priv f0).st (a + 1) hrest hr (Or.inr hst1)
    have hl0 : loss_count (xradio_rx_process c priv f0).ev = 0 := by
      rw [t3, h0, if_pos hst]
    constructor
    · simp only [xradio_rx_run, List.map_cons, List.sum_cons, hl0, i1]
    · intro _
      simp only [xradio_rx_run_state, List.length_cons]
      by_cases hre : rest = []
      · subst hre
        simp only [xradio_rx_run_state, List.length_nil]
        exact hst1
      · rw [i2 hre]
        congr 2
        omega

theorem xradio_rx_run_ret (c : xradio_consts) (frames : List sk_buff) :
    ∀ priv, (∀ f ∈ frames, rx_checksum_ok c f.data) →
      ∀ o ∈ xradio_rx_run c priv frames, o.ret ≠ -1 := by
  induction frames with
  | nil =>
    intro priv _ o ho
    simp [xradio_rx_run] at ho
  | cons f0 rest ih =>
    intro priv hvalid o ho
    have hok0 : rx_checksum_ok c f0.data := hvalid f0 (List.mem_cons_self _ _)
    have hrest : ∀ f ∈ rest, rx_checksum_ok c f.data :=
      fun f hm => hvalid f (List.mem_cons_of_mem _ hm)
    simp only [xradio_rx_run, List.mem_cons] at ho
    rcases ho with h | h
    · rw [h, (xradio_rx_process_track c priv f0 hok0).2.1]
      omega
    · exact ih _ hrest o h

/-- A run of consecutive sequence numbers that does not start where the tracker expects
it logs exactly one warning, at its first frame. -/
theorem xradio_rx_run_gap (c : xradio_consts) (frames : List sk_buff) (priv : xradio_priv)
    (b : Nat) (hvalid : ∀ f ∈ frames, rx_checksum_ok c f.data) (hne : frames ≠ [])
    (hseqs : frames.map (fun f => hdr_seq c f.data) = consecutive_seqs b frames.length)
    (h1 : priv.dev_seq ≠ -1) (h2 : priv.dev_seq ≠ ((b % 256 : Nat) : Int)) :
    ((xradio_rx_run c priv frames).map (fun o => loss_count o.ev)).sum = 1 := by
  cases frames with
  | nil => exact absurd rfl hne
  | cons f0 rest =>
    have hok0 : rx_checksum_ok c f0.data := hvalid f0 (List.mem_cons_self _ _)
    have hrest : ∀ f ∈ rest, rx_checksum_ok c f.data :=
      fun f hm => hvalid f (List.mem_cons_of_mem _ hm)
    obtain ⟨t1, _, t3⟩ := xradio_rx_process_track c priv f0 hok0
    rw [List.map_cons, List.length_cons, consecutive_seqs_succ, List.cons.injEq] at hseqs
    obtain ⟨h0, hr⟩ := hseqs
    have hst1 : (xradio_rx_process c priv f0).st.dev_seq = (((b + 1) % 256 : Nat) : Int) := by
      rw [t1, h0]
      congr 1
      omega
    have hl0 : loss_count (xradio_rx_process c priv f0).ev = 1 := by
      rw [t3, h0, if_neg]
      intro hor
      rcases hor with h | h
      · exact h1 h
      · exact h2 h
    have i1 := (xradio_rx_run_consecutive c rest (xradio_rx_process c priv f0).st (b + 1)
      hrest hr (Or.inr hst1)).1
    simp only [xradio_rx_run, List.map_cons, List.sum_cons, hl0, i1]

/-- C6: for every series of checksum-valid frames processed by `xradio_rx_process` from
the initial tracker state (`dev_seq = -1`), every frame yields an output and is not
dropped; the first frame logs no loss, frame `i >= 1` logs one loss exactly when its
sequence number is not the previous one plus 1 modulo 256 (none otherwise), and after
each frame the expected value is its sequence number plus 1 modulo 256.  In particular
a run of consecutive numbers followed by the run that starts one number later (one
number skipped, wrapping at 256) logs exactly one loss in all. -/
theorem rx_sequence_tracker (c : xradio_consts) (priv : xradio_priv) (frames : List sk_buff)
    (hinit : priv.dev_seq = -1) (hvalid : ∀ f ∈ frames, rx_checksum_ok c f.data) :
    (xradio_rx_run c priv frames).length = frames.length ∧
    (∀ o ∈ xradio_rx_run c priv frames, o.ret ≠ -1) ∧
    (∀ i f o, frames[i]? = some f → (xradio_rx_run c priv frames)[i]? = some o →
      o.st.dev_seq = (((hdr_seq c f.data + 1) % 256 : Nat) : Int) ∧
      (i = 0 → loss_count o.ev = 0) ∧
      (∀ g, 0 < i → frames[i - 1]? = some g →
        loss_count o.ev = if hdr_seq c f.data = (hdr_seq c g.data + 1) % 256 then 0 else 1)) ∧
    (∀ F1 F2 a, frames = F1 ++ F2 → F1 ≠ [] → F2 ≠ [] →
      F1.map (fun f => hdr_seq c f.data) = consecutive_seqs a F1.length →
      F2.map (fun f => hdr_seq c f.data) = consecutive_seqs (a + F1.length + 1) F2.length →
      ((xradio_rx_run c priv frames).map (fun o => loss_count o.ev)).sum = 1) := by
  refine ⟨xradio_rx_run_length c frames priv, xradio_rx_run_ret c frames priv hvalid, ?_, ?_⟩
  · intro i f o hf ho
    obtain ⟨r1, _, r3, r4⟩ := xradio_rx_run_get c frames priv hvalid i f o hf ho
    refine ⟨r1, ?_, r4⟩
    intro hi
    rw [r3 hi, if_pos (Or.inl hinit)]
  · intro F1 F2 a hsplit hF1 hF2 hs1 hs2
    subst hsplit
    have hv1 : ∀ f ∈ F1, rx_checksum_ok c f.data :=
      fun f hm => hvalid f (List.mem_append_left _ hm)
    have hv2 : ∀ f ∈ F2, rx_checksum_ok c f.data :=
      fun f hm => hvalid f (List.mem_append_right _ hm)
    obtain ⟨c1, c2⟩ := xradio_rx_run_consecutive c F1 priv a hv1 hs1 (Or.inl hinit)
    have hd := c2 hF1
    have g := xradio_rx_run_gap c F2 (xradio_rx_run_state c priv F1) (a + F1.length + 1) hv2
      hF2 hs2 (by rw [hd]; omega) (by rw [hd]; omega)
    rw [xradio_rx_run_append, List.map_append, List.sum_append, c1, g]

/-- Witness of `rx_sequence_tracker`: frames numbered 254, 255, 1, 2 (0 is skipped
after the wrap) from the state set up at registration. -/
theorem rx_sequence_tracker_witness :
    ((xradio_rx_run sample_consts (xradio_register_trans 10 10)
      [sample_seq_frame 254, sample_seq_frame 255, sample_seq_frame 1,
        sample_seq_frame 2]).map (fun o => loss_count o.ev)).sum = 1 ∧
    (xradio_rx_run sample_consts (xradio_register_trans 10 10)
      [sample_seq_frame 254, sample_seq_frame 255, sample_seq_frame 1,
        sample_seq_frame 2]).length = 4 := by
  have h := rx_sequence_tracker sample_consts (xradio_register_trans 10 10)
    [sample_seq_frame 254, sample_seq_frame 255, sample_seq_frame 1, sample_seq_frame 2]
    rfl (by decide)
  exact ⟨h.2.2.2 [sample_seq_frame 254, sample_seq_frame 255]
    [sample_seq_frame 1, sample_seq_frame 2] 254 rfl (by decide) (by decide) (by decide)
    (by decide), h.1⟩

/-! ## Transmit priority -/

theorem xradio_get_tx_buff_cmd (priv : xradio_priv) (k : Nat) (skb : sk_buff)
    (rest : List (Nat × sk_buff)) (h : priv.tx_queue_cmd.items = (k, skb) :: rest) :
    xradio_get_tx_buff priv =
      (some skb, { priv with tx_queue_cmd := { priv.tx_queue_cmd with items := rest } }) := by
  unfold xradio_get_tx_buff xradio_queue_get
  simp only [h]

theorem xradio_get_tx_buff_data (priv : xradio_priv) (k : Nat) (skb : sk_buff)
    (rest : List (Nat × sk_buff)) (hc : priv.tx_queue_cmd.items = [])
    (h : priv.tx_queue_data.items = (k, skb) :: rest) :
    xradio_get_tx_buff priv =
      (some skb, { priv with tx_queue_data := { priv.tx_queue_data with items := rest } }) := by
  unfold xradio_get_tx_buff xradio_queue_get
  simp only [hc, h]

theorem xradio_get_tx_buff_none (priv : xradio_priv) (hc : priv.tx_queue_cmd.items = [])
    (h : priv.tx_queue_data.items = []) :
    xradio_get_tx_buff priv = (none, priv) := by
  unfold xradio_get_tx_buff xradio_queue_get
  simp only [hc, h]

/-- C7: `xradio_get_tx_buff` returns the oldest entry of the command queue whenever that
queue is non-empty and then leaves the data queue untouched; it takes from the data
queue only when the command queue is empty; it returns nothing exactly when both are
empty.  Hence in a worker round that transmits while the command queue is non-empty,
the one buffer handed to `xradio_hwio_write` is the oldest command entry, a frame with
the command tag if the command queue holds frames with that tag. -/
theorem tx_command_priority (c : xradio_consts) (priv : xradio_priv) :
    (∀ k skb rest, priv.tx_queue_cmd.items = (k, skb) :: rest →
      (xradio_get_tx_buff priv).1 = some skb ∧
      (xradio_get_tx_buff priv).2.tx_queue_cmd.items = rest ∧
      (xradio_get_tx_buff priv).2.tx_queue_data = priv.tx_queue_data) ∧
    (∀ k skb rest, priv.tx_queue_cmd.items = [] →
      priv.tx_queue_data.items = (k, skb) :: rest →
      (xradio_get_tx_buff priv).1 = some skb ∧
      (xradio_get_tx_buff priv).2.tx_queue_data.items = rest ∧
      (xradio_get_tx_buff priv).2.tx_queue_cmd = priv.tx_queue_cmd) ∧
    ((xradio_get_tx_buff priv).2.tx_queue_data ≠ priv.tx_queue_data →
      priv.tx_queue_cmd.items = []) ∧
    ((xradio_get_tx_buff priv).1 = none ↔
      priv.tx_queue_cmd.items = [] ∧ priv.tx_queue_data.items = []) ∧
    (∀ tx tx_status k skb rest, tx ≠ 0 → priv.rx_pause_state = 0 →
      priv.tx_queue_cmd.items = (k, skb) :: rest →
      Event.hw_write skb ∈ (xradio_txrx_thread_tx c tx tx_status priv).2 ∧
      (∀ b, Event.hw_write b ∈ (xradio_txrx_thread_tx c tx tx_status priv).2 → b = skb) ∧
      ((∀ e ∈ priv.tx_queue_cmd.items, hdr_type_id c e.2.data = c.XR_REQ_CMD) →
        hdr_type_id c skb.data = c.XR_REQ_CMD)) := by
  refine ⟨?_, ?_, ?_, ?_, ?_⟩
  · intro k skb rest h
    rw [xradio_get_tx_buff_cmd priv k skb rest h]
    exact ⟨rfl, rfl, rfl⟩
  · intro k skb rest hc h
    rw [xradio_get_tx_buff_data priv k skb rest hc h]
    exact ⟨rfl, rfl, rfl⟩
  · intro hne
    cases hq : priv.tx_queue_cmd.items with
    | nil => rfl
    | cons e rest =>
      obtain ⟨k, skb⟩ := e
      rw [xradio_get_tx_buff_cmd priv k skb rest hq] at hne
      exact absurd rfl hne
  · constructor
    · intro hnone
      cases hq : priv.tx_queue_cmd.items with
      | nil =>
        cases hd : priv.tx_queue_data.items with
        | nil => exact ⟨rfl, rfl⟩
        | cons e rest =>
          obtain ⟨k, skb⟩ := e
          rw [xradio_get_tx_buff_data priv k skb rest hq hd] at hnone
          simp at hnone
      | cons e rest =>
        obtain ⟨k, skb⟩ := e
        rw [xradio_get_tx_buff_cmd priv k skb rest hq] at hnone
        simp at hnone
    · intro h
      rw [xradio_get_tx_buff_none priv h.1 h.2]
  · intro tx tx_status k skb rest htx hp h
    refine ⟨?_, ?_, fun hall => hall (k, skb) (by rw [h]; exact List.mem_cons_self _ _)⟩
    · unfold xradio_txrx_thread_tx
      rw [if_pos ⟨htx, hp⟩, xradio_get_tx_buff_cmd priv k skb rest h]
      simp only []
      split_ifs <;> simp
    · intro b hb
      unfold xradio_txrx_thread_tx at hb
      rw [if_pos ⟨htx, hp⟩, xradio_get_tx_buff_cmd priv k skb rest h] at hb
      simp only [] at hb
      unfold xradio_check_tx_resume at hb
      simp only [] at hb
      split_ifs at hb <;> simp at hb <;> exact hb

/-- Witness of `tx_command_priority`: one command frame and one data frame queued; the
command frame is returned and written, the data queue stays as it is. -/
theorem tx_command_priority_witness :
    (xradio_get_tx_buff sample_both_queued).1 = some sample_cmd_frame ∧
    (xradio_get_tx_buff sample_both_queued).2.tx_queue_data = sample_both_queued.tx_queue_data ∧
    Event.hw_write sample_cmd_frame ∈
      (xradio_txrx_thread_tx sample_consts 2 0 sample_both_queued).2 := by
  have h := tx_command_priority sample_consts sample_both_queued
  have h1 := h.1 0 sample_cmd_frame [] rfl
  have h5 := h.2.2.2.2 2 0 0 sample_cmd_frame [] (by decide) rfl rfl
  exact ⟨h1.1, h1.2.2, h5.1⟩

/-! ## Resume thresholds -/

/-- What `xradio_check_tx_resume` does, by the two conditions it tests. -/
theorem xradio_check_tx_resume_eq (priv : xradio_priv) :
    xradio_check_tx_resume priv =
      ({ priv with
          tx_data_pause :=
            if priv.tx_data_pause ≠ 0 ∧ xradio_queue_get_queue_num priv.tx_queue_data <
                priv.tx_queue_data.capacity * 1 / 5 then 0 else priv.tx_data_pause
          tx_cmd_pause :=
            if priv.tx_cmd_pause ≠ 0 ∧ xradio_queue_get_queue_num priv.tx_queue_cmd <
                priv.tx_queue_cmd.capacity * 4 / 5 then 0 else priv.tx_cmd_pause },
        (if priv.tx_data_pause ≠ 0 ∧ xradio_queue_get_queue_num priv.tx_queue_data <
            priv.tx_queue_data.capacity * 1 / 5 then [Event.net_tx_resume] else []) ++
        (if priv.tx_cmd_pause ≠ 0 ∧ xradio_queue_get_queue_num priv.tx_queue_cmd <
            priv.tx_queue_cmd.capacity * 4 / 5 then [Event.sem_give] else [])) := by
  unfold xradio_check_tx_resume
  simp only []
  split_ifs <;> rfl

/-- C8 as stated fails: with capacity 11, a paused data class at occupancy 2 has
5 * 2 < 11 and a paused command class at occupancy 8 has 5 * 8 < 4 * 11, yet
`xradio_check_tx_resume` changes nothing and calls nothing, because it compares with
11 * 1 / 5 = 2 and 11 * 4 / 5 = 8 in integer arithmetic. -/
theorem tx_resume_threshold_truncates :
    (sample_paused 11 11 8 2).tx_data_pause ≠ 0 ∧
    5 * xradio_queue_get_queue_num (sample_paused 11 11 8 2).tx_queue_data <
      (sample_paused 11 11 8 2).tx_queue_data.capacity ∧
    (sample_paused 11 11 8 2).tx_cmd_pause ≠ 0 ∧
    5 * xradio_queue_get_queue_num (sample_paused 11 11 8 2).tx_queue_cmd <
      4 * (sample_paused 11 11 8 2).tx_queue_cmd.capacity ∧
    xradio_check_tx_resume (sample_paused 11 11 8 2) = (sample_paused 11 11 8 2, []) := by
  decide

/-- C8, amended: if the data pause flag is set and occupancy is below capacity / 5
rounded down (5 * occupancy + 5 <= capacity), `xradio_check_tx_resume` clears the data
pause flag and calls the network resume callback once; if the command pause flag is set
and occupancy is below 4 * capacity / 5 rounded down (5 * occupancy + 5 <= 4 * capacity),
it clears the command pause flag and gives the command semaphore once. -/
theorem tx_resume_below_threshold (priv : xradio_priv) :
    (priv.tx_data_pause ≠ 0 →
      5 * xradio_queue_get_queue_num priv.tx_queue_data + 5 ≤ priv.tx_queue_data.capacity →
      (xradio_check_tx_resume priv).1.tx_data_pause = 0 ∧
      (xradio_check_tx_resume priv).2.count Event.net_tx_resume = 1) ∧
    (priv.tx_cmd_pause ≠ 0 →
      5 * xradio_queue_get_queue_num priv.tx_queue_cmd + 5 ≤ 4 * priv.tx_queue_cmd.capacity →
      (xradio_check_tx_resume priv).1.tx_cmd_pause = 0 ∧
      (xradio_check_tx_resume priv).2.count Event.sem_give = 1) := by
  rw [xradio_check_tx_resume_eq]
  constructor
  · intro hp hocc
    have hlt : xradio_queue_get_queue_num priv.tx_queue_data <
        priv.tx_queue_data.capacity * 1 / 5 := by omega
    simp only [if_pos (And.intro hp hlt)]
    split_ifs <;> simp
  · intro hp hocc
    have hlt : xradio_queue_get_queue_num priv.tx_queue_cmd <
        priv.tx_queue_cmd.capacity * 4 / 5 := by omega
    simp only [if_pos (And.intro hp hlt)]
    split_ifs <;> simp

/-- Witness of `tx_resume_below_threshold`: capacity 10, both classes paused, one data
entry and seven command entries queued. -/
theorem tx_resume_below_threshold_witness :
    ((xradio_check_tx_resume (sample_paused 10 10 7 1)).1.tx_data_pause = 0 ∧
      (xradio_check_tx_resume (sample_paused 10 10 7 1)).2.count Event.net_tx_resume = 1) ∧
    ((xradio_check_tx_resume (sample_paused 10 10 7 1)).1.tx_cmd_pause = 0 ∧
      (xradio_check_tx_resume (sample_paused 10 10 7 1)).2.count Event.sem_give = 1) :=
  ⟨(tx_resume_below_threshold (sample_paused 10 10 7 1)).1 (by decide) (by decide),
    (tx_resume_below_threshold (sample_paused 10 10 7 1)).2 (by decide) (by decide)⟩

/-- C9: `xradio_check_tx_resume` calls the data resume callback only if the data pause
flag was set and occupancy is strictly below capacity / 5, and gives the command
semaphore only if the command pause flag was set and occupancy is strictly below
4 * capacity / 5; with capacity 10 a paused data class resumes at occupancy 1 and not at
2, a paused command class resumes at occupancy 7 and not at 8; for a class whose flag is
clear nothing is called and its flag stays clear; the queues are never changed. -/
theorem tx_resume_only_below_threshold (priv : xradio_priv) :
    (Event.net_tx_resume ∈ (xradio_check_tx_resume priv).2 →
      priv.tx_data_pause ≠ 0 ∧
      5 * xradio_queue_get_queue_num priv.tx_queue_data < priv.tx_queue_data.capacity) ∧
    (Event.sem_give ∈ (xradio_check_tx_resume priv).2 →
      priv.tx_cmd_pause ≠ 0 ∧
      5 * xradio_queue_get_queue_num priv.tx_queue_cmd < 4 * priv.tx_queue_cmd.capacity) ∧
    (priv.tx_data_pause ≠ 0 → priv.tx_queue_data.capacity = 10 →
      (xradio_queue_get_queue_num priv.tx_queue_data = 1 →
        Event.net_tx_resume ∈ (xradio_check_tx_resume priv).2 ∧
        (xradio_check_tx_resume priv).1.tx_data_pause = 0) ∧
      (xradio_queue_get_queue_num priv.tx_queue_data = 2 →
        Event.net_tx_resume ∉ (xradio_check_tx_resume priv).2 ∧
        (xradio_check_tx_resume priv).1.tx_data_pause = priv.tx_data_pause)) ∧
    (priv.tx_cmd_pause ≠ 0 → priv.tx_queue_cmd.capacity = 10 →
      (xradio_queue_get_queue_num priv.tx_queue_cmd = 7 →
        Event.sem_give ∈ (xradio_check_tx_resume priv).2 ∧
        (xradio_check_tx_resume priv).1.tx_cmd_pause = 0) ∧
      (xradio_queue_get_queue_num priv.tx_queue_cmd = 8 →
        Event.sem_give ∉ (xradio_check_tx_resume priv).2 ∧
        (xradio_check_tx_resume priv).1.tx_cmd_pause = priv.tx_cmd_pause)) ∧
    (priv.tx_data_pause = 0 →
      Event.net_tx_resume ∉ (xradio_check_tx_resume priv).2 ∧
      (xradio_check_tx_resume priv).1.tx_data_pause = 0) ∧
    (priv.tx_cmd_pause = 0 →
      Event.sem_give ∉ (xradio_check_tx_resume priv).2 ∧
      (xradio_check_tx_resume priv).1.tx_cmd_pause = 0) ∧
    (∀ e ∈ (xradio_check_tx_resume priv).2, e = Event.net_tx_resume ∨ e = Event.sem_give) ∧
    (xradio_check_tx_resume priv).1.tx_queue_data = priv.tx_queue_data ∧
    (xradio_check_tx_resume priv).1.tx_queue_cmd = priv.tx_queue_cmd := by
  rw [xradio_check_tx_resume_eq]
  refine ⟨?_, ?_, ?_, ?_, ?_, ?_, ?_, rfl, rfl⟩
  · intro h
    by_cases hc : priv.tx_data_pause ≠ 0 ∧ xradio_queue_get_queue_num priv.tx_queue_data <
        priv.tx_queue_data.capacity * 1 / 5
    · exact ⟨hc.1, by omega⟩
    · rw [if_neg hc] at h
      split_ifs at h <;> simp at h
  · intro h
    by_cases hc : priv.tx_cmd_pause ≠ 0 ∧ xradio_queue_get_queue_num priv.tx_queue_cmd <
        priv.tx_queue_cmd.capacity * 4 / 5
    · exact ⟨hc.1, by omega⟩
    · rw [if_neg hc] at h
      split_ifs at h <;> simp at h
  · intro hp hcap
    constructor
    · intro hocc
      have hlt : xradio_queue_get_queue_num priv.tx_queue_data <
          priv.tx_queue_data.capacity * 1 / 5 := by omega
      simp only [if_pos (And.intro hp hlt)]
      simp
    · intro hocc
      have hlt : ¬ (priv.tx_data_pause ≠ 0 ∧ xradio_queue_get_queue_num priv.tx_queue_data <
          priv.tx_queue_data.capacity * 1 / 5) := by
        intro h
        omega
      simp only [if_neg hlt]
      split_ifs <;> simp
  · intro hp hcap
    constructor
    · intro hocc
      have hlt : xradio_queue_get_queue_num priv.tx_queue_cmd <
          priv.tx_queue_cmd.capacity * 4 / 5 := by omega
      simp only [if_pos (And.intro hp hlt)]
      simp
    · intro hocc
      have hlt : ¬ (priv.tx_cmd_pause ≠ 0 ∧ xradio_queue_get_queue_num priv.tx_queue_cmd <
          priv.tx_queue_cmd.capacity * 4 / 5) := by
        intro h
        omega
      simp only [if_neg hlt]
      split_ifs <;> simp
  · intro hp
    have hlt : ¬ (priv.tx_data_pause ≠ 0 ∧ xradio_queue_get_queue_num priv.tx_queue_data <
        priv.tx_queue_data.capacity * 1 / 5) := fun h => h.1 hp
    simp only [if_neg hlt]
    refine ⟨?_, hp⟩
    split_ifs <;> simp
  · intro hp
    have hlt : ¬ (priv.tx_cmd_pause ≠ 0 ∧ xradio_queue_get_queue_num priv.tx_queue_cmd <
        priv.tx_queue_cmd.capacity * 4 / 5) := fun h => h.1 hp
    simp only [if_neg hlt]
    refine ⟨?_, hp⟩
    split_ifs <;> simp
  · intro e he
    split_ifs at he <;> simp at he <;> tauto

/-- Witness of `tx_resume_only_below_threshold`: capacity 10 with both classes paused, at
occupancies 1 and 7 (both resume) and at occupancies 2 and 8 (neither resumes). -/
theorem tx_resume_only_below_threshold_witness :
    (Event.net_tx_resume ∈ (xradio_check_tx_resume (sample_paused 10 10 7 1)).2 ∧
      (xradio_check_tx_resume (sample_paused 10 10 7 1)).1.tx_data_pause = 0) ∧
    (Event.sem_give ∈ (xradio_check_tx_resume (sample_paused 10 10 7 1)).2 ∧
      (xradio_check_tx_resume (sample_paused 10 10 7 1)).1.tx_cmd_pause = 0) ∧
    (Event.net_tx_resume ∉ (xradio_check_tx_resume (sample_paused 10 10 8 2)).2 ∧
      (xradio_check_tx_resume (sample_paused 10 10 8 2)).1.tx_data_pause =
        (sample_paused 10 10 8 2).tx_data_pause) ∧
    (Event.sem_give ∉ (xradio_check_tx_resume (sample_paused 10 10 8 2)).2 ∧
      (xradio_check_tx_resume (sample_paused 10 10 8 2)).1.tx_cmd_pause =
        (sample_paused 10 10 8 2).tx_cmd_pause) :=
  ⟨((tx_resume_only_below_threshold (sample_paused 10 10 7 1)).2.2.1 (by decide) rfl).1
      (by decide),
    ((tx_resume_only_below_threshold (sample_paused 10 10 7 1)).2.2.2.1 (by decide) rfl).1
      (by decide),
    ((tx_resume_only_below_threshold (sample_paused 10 10 8 2)).2.2.1 (by decide) rfl).2
      (by decide),
    ((tx_resume_only_below_threshold (sample_paused 10 10 8 2)).2.2.2.1 (by decide) rfl).2
      (by decide)⟩

/-! ## Data-class pause -/

/-- What `xradio_tx_net_process` does once the frame is built, by the result of the
queue put and the pause flag. -/
theorem xradio_tx_net_process_eq (c : xradio_consts) (linearize_ok : Bool)
    (alloc : Option (Nat → Nat)) (priv : xradio_priv) (skb frame : sk_buff)
    (hen : priv.txrx_enable = true)
    (hframe : xradio_tx_net_frame c linearize_ok alloc priv.net_seq_number skb = some frame) :
    xradio_tx_net_process c linearize_ok alloc priv skb =
      { ret := (xradio_queue_put priv.tx_queue_data frame priv.net_seq_number).1
        st := { priv with
          tx_queue_data := (xradio_queue_put priv.tx_queue_data frame priv.net_seq_number).2
          tx_data_pause :=
            if (xradio_queue_put priv.tx_queue_data frame priv.net_seq_number).1 ≠ 0 ∧
                priv.tx_data_pause = 0 then 1 else priv.tx_data_pause
          net_seq_number := (priv.net_seq_number + 1) % 256
          th_tx := priv.th_tx + 1 }
        ev := (if xradio_tx_net_copies c skb then [Event.kfree_skb] else []) ++
          (if (xradio_queue_put priv.tx_queue_data frame priv.net_seq_number).1 ≠ 0 ∧
            priv.tx_data_pause = 0 then [Event.net_tx_pause] else []) ++ [Event.wake_up] } := by
  unfold xradio_tx_net_process xradio_wake_up_tx_work
  simp only [hen, hframe, Bool.not_true, Bool.false_eq_true, if_false]
  split_ifs <;> rfl

/-- C10: in a call of `xradio_tx_net_process` on an enabled transport that gets as far
as the queue put, if the put reports Full (non-zero) the call returns that non-zero
value without sleeping or taking the semaphore, the data pause flag is set afterwards,
and the network pause callback is called once if the flag was clear before and not at
all if it was set; if the put succeeds the call returns 0, the flag is as before and
the callback is not called. -/
theorem tx_net_pause_on_full (c : xradio_consts) (linearize_ok : Bool)
    (alloc : Option (Nat → Nat)) (priv : xradio_priv) (skb frame : sk_buff)
    (hen : priv.txrx_enable = true)
    (hframe : xradio_tx_net_frame c linearize_ok alloc priv.net_seq_number skb = some frame) :
    ((xradio_queue_put priv.tx_queue_data frame priv.net_seq_number).1 ≠ 0 →
      (xradio_tx_net_process c linearize_ok alloc priv skb).ret ≠ 0 ∧
      (xradio_tx_net_process c linearize_ok alloc priv skb).st.tx_data_pause ≠ 0 ∧
      (xradio_tx_net_process c linearize_ok alloc priv skb).ev.count Event.net_tx_pause =
        (if priv.tx_data_pause = 0 then 1 else 0) ∧
      (priv.tx_data_pause ≠ 0 →
        (xradio_tx_net_process c linearize_ok alloc priv skb).st.tx_data_pause =
          priv.tx_data_pause)) ∧
    ((xradio_queue_put priv.tx_queue_data frame priv.net_seq_number).1 = 0 →
      (xradio_tx_net_process c linearize_ok alloc priv skb).ret = 0 ∧
      (xradio_tx_net_process c linearize_ok alloc priv skb).st.tx_data_pause =
        priv.tx_data_pause ∧
      (xradio_tx_net_process c linearize_ok alloc priv skb).ev.count Event.net_tx_pause = 0) ∧
    (∀ e ∈ (xradio_tx_net_process c linearize_ok alloc priv skb).ev,
      e = Event.kfree_skb ∨ e = Event.net_tx_pause ∨ e = Event.wake_up) := by
  rw [xradio_tx_net_process_eq c linearize_ok alloc priv skb frame hen hframe]
  have hk : List.count Event.net_tx_pause
      (if xradio_tx_net_copies c skb = true then [Event.kfree_skb] else []) = 0 := by
    split_ifs <;> simp
  refine ⟨?_, ?_, ?_⟩
  · intro hfull
    by_cases hp : priv.tx_data_pause = 0
    · simp [hfull, hp, hk]
    · simp [hfull, hp, hk]
  · intro hok
    simp [hok, hk]
  · intro e he
    simp only [] at he
    split_ifs at he <;> simp at he <;> tauto

/-- Witness of `tx_net_pause_on_full`: the sample packet sent into a full data queue with
the pause flag clear. -/
theorem tx_net_pause_on_full_witness :
    (xradio_tx_net_process sample_consts true (some (fun _ => 0)) sample_data_full
      sample_packet).ret ≠ 0 ∧
    (xradio_tx_net_process sample_consts true (some (fun _ => 0)) sample_data_full
      sample_packet).st.tx_data_pause ≠ 0 ∧
    (xradio_tx_net_process sample_consts true (some (fun _ => 0)) sample_data_full
      sample_packet).ev.count Event.net_tx_pause = 1 := by
  have h := (tx_net_pause_on_full sample_consts true (some (fun _ => 0)) sample_data_full
    sample_packet sample_net_frame rfl (by decide)).1 (by decide)
  exact ⟨h.1, h.2.1, h.2.2.1⟩

/-! ## Command-class queue full -/

/-- What `xradio_tx_cmd_process` does once the buffer is allocated, by the result of the
queue put. -/
theorem xradio_tx_cmd_process_eq (c : xradio_consts) (prior : Nat → Nat) (priv : xradio_priv)
    (buffer : List Nat) (len : Nat) (hen : priv.txrx_enable = true) :
    xradio_tx_cmd_process c (some prior) priv buffer len =
      { ret := (xradio_queue_put priv.tx_queue_cmd
          (xradio_tx_cmd_frame c prior priv.cmd_seq_number buffer len) priv.cmd_seq_number).1
        st := { priv with
          tx_queue_cmd := (xradio_queue_put priv.tx_queue_cmd
            (xradio_tx_cmd_frame c prior priv.cmd_seq_number buffer len) priv.cmd_seq_number).2
          tx_cmd_pause :=
            if (xradio_queue_put priv.tx_queue_cmd
              (xradio_tx_cmd_frame c prior priv.cmd_seq_number buffer len)
              priv.cmd_seq_number).1 ≠ 0 then 1 else priv.tx_cmd_pause
          cmd_seq_number := (priv.cmd_seq_number + 1) % 256
          th_tx := priv.th_tx + 1 }
        ev := (if (xradio_queue_put priv.tx_queue_cmd
            (xradio_tx_cmd_frame c prior priv.cmd_seq_number buffer len)
            priv.cmd_seq_number).1 ≠ 0 then [Event.sem_take] else []) ++ [Event.wake_up] } := by
  unfold xradio_tx_cmd_process xradio_wake_up_tx_work
  simp only [hen, Bool.not_true, Bool.false_eq_true, if_false]
  split_ifs <;> rfl

/-- C11 as stated fails: a command sent into a full command queue (capacity 1, one
entry).  The put reports Full; the call sets the pause flag, waits on the semaphore and
wakes the worker, but what it returns is the non-zero result of the put, not 0, and the
queue holds what it held before. -/
theorem tx_cmd_full_returns_nonzero :
    (xradio_queue_put sample_cmd_full.tx_queue_cmd
      (xradio_tx_cmd_frame sample_consts (fun _ => 0) 1 [9] 1) 1).1 ≠ 0 ∧
    (xradio_tx_cmd_process sample_consts (some (fun _ => 0)) sample_cmd_full [9] 1).ev =
      [Event.sem_take, Event.wake_up] ∧
    (xradio_tx_cmd_process sample_consts (some (fun _ => 0)) sample_cmd_full [9] 1).st.tx_cmd_pause
      = 1 ∧
    (xradio_tx_cmd_process sample_consts (some (fun _ => 0)) sample_cmd_full [9] 1).ret = -1 ∧
    (xradio_tx_cmd_process sample_consts (some (fun _ => 0)) sample_cmd_full [9] 1).ret ≠ 0 ∧
    (xradio_tx_cmd_process sample_consts (some (fun _ => 0)) sample_cmd_full [9] 1).st.tx_queue_cmd
      = sample_cmd_full.tx_queue_cmd := by
  decide

/-- C11, amended: when the queue put reports Full (non-zero) inside
`xradio_tx_cmd_process`, the call sets the command pause flag and waits on the command
semaphore once; once released it advances the sequence number, wakes the worker and
returns to the caller the non-zero result of the put, unchanged. -/
theorem tx_cmd_full_waits (c : xradio_consts) (prior : Nat → Nat) (priv : xradio_priv)
    (buffer : List Nat) (len : Nat) (hen : priv.txrx_enable = true)
    (hfull : (xradio_queue_put priv.tx_queue_cmd
      (xradio_tx_cmd_frame c prior priv.cmd_seq_number buffer len) priv.cmd_seq_number).1 ≠ 0) :
    (xradio_tx_cmd_process c (some prior) priv buffer len).st.tx_cmd_pause = 1 ∧
    (xradio_tx_cmd_process c (some prior) priv buffer len).ev =
      [Event.sem_take, Event.wake_up] ∧
    (xradio_tx_cmd_process c (some prior) priv buffer len).st.cmd_seq_number =
      (priv.cmd_seq_number + 1) % 256 ∧
    (xradio_tx_cmd_process c (some prior) priv buffer len).st.th_tx = priv.th_tx + 1 ∧
    (xradio_tx_cmd_process c (some prior) priv buffer len).ret =
      (xradio_queue_put priv.tx_queue_cmd
        (xradio_tx_cmd_frame c prior priv.cmd_seq_number buffer len) priv.cmd_seq_number).1 ∧
    (xradio_tx_cmd_process c (some prior) priv buffer len).ret ≠ 0 := by
  rw [xradio_tx_cmd_process_eq c prior priv buffer len hen]
  simp only [if_pos hfull]
  exact ⟨trivial, rfl, trivial, trivial, trivial, hfull⟩

/-- Witness of `tx_cmd_full_waits`: the one-byte command `[9]` sent into the full sample
command queue. -/
theorem tx_cmd_full_waits_witness :
    (xradio_tx_cmd_process sample_consts (some (fun _ => 0)) sample_cmd_full [9] 1).st.tx_cmd_pause
      = 1 ∧
    (xradio_tx_cmd_process sample_consts (some (fun _ => 0)) sample_cmd_full [9] 1).ev =
      [Event.sem_take, Event.wake_up] ∧
    (xradio_tx_cmd_process sample_consts (some (fun _ => 0)) sample_cmd_full [9] 1).ret ≠ 0 := by
  have h := tx_cmd_full_waits sample_consts (fun _ => 0) sample_cmd_full [9] 1 rfl (by decide)
  exact ⟨h.1, h.2.1, h.2.2.2.2.2⟩

/-! ## The worker round -/

theorem xradio_txrx_thread_round_eq (c : xradio_consts) (rx : Int) (read : Option sk_buff)
    (tx_status : Int) (priv : xradio_priv) (rx_len : Int) :
    xradio_txrx_thread_round c rx false read tx_status priv rx_len =
      ((xradio_txrx_thread_tx c priv.th_tx tx_status
          (xradio_txrx_thread_rx c rx read priv rx_len).1).1,
        (xradio_txrx_thread_rx c rx read priv rx_len).2.1,
        (xradio_txrx_thread_rx c rx read priv rx_len).2.2 ++
          (xradio_txrx_thread_tx c priv.th_tx tx_status
            (xradio_txrx_thread_rx c rx read priv rx_len).1).2,
        false) := by
  unfold xradio_txrx_thread_round xradio_txrx_thread_rx
  simp only [Bool.false_eq_true, if_false]

theorem xradio_txrx_thread_tx_fail (c : xradio_consts) (tx tx_status : Int)
    (priv priv1 : xradio_priv) (skb : sk_buff) (htx : tx ≠ 0) (hp : priv.rx_pause_state = 0)
    (hget : xradio_get_tx_buff priv = (some skb, priv1)) (hst : tx_status ≠ 0) :
    xradio_txrx_thread_tx c tx tx_status priv =
      (priv1, [Event.hw_write skb, Event.hw_deinit, Event.msleep 2000, Event.hw_init]) := by
  unfold xradio_txrx_thread_tx
  rw [if_pos ⟨htx, hp⟩, hget]
  simp only [if_neg hst]

theorem xradio_txrx_thread_tx_ok (c : xradio_consts) (tx : Int)
    (priv priv1 : xradio_priv) (skb : sk_buff) (htx : tx ≠ 0) (hp : priv.rx_pause_state = 0)
    (hget : xradio_get_tx_buff priv = (some skb, priv1)) :
    xradio_txrx_thread_tx c tx 0 priv =
      ((xradio_check_tx_resume
          (if (xradio_free_tx_buff c priv1 skb).th_tx > 0 then
            { xradio_free_tx_buff c priv1 skb with
              th_tx := (xradio_free_tx_buff c priv1 skb).th_tx - 1 }
          else xradio_free_tx_buff c priv1 skb)).1,
        Event.hw_write skb :: (xradio_check_tx_resume
          (if (xradio_free_tx_buff c priv1 skb).th_tx > 0 then
            { xradio_free_tx_buff c priv1 skb with
              th_tx := (xradio_free_tx_buff c priv1 skb).th_tx - 1 }
          else xradio_free_tx_buff c priv1 skb)).2) := by
  unfold xradio_txrx_thread_tx
  rw [if_pos ⟨htx, hp⟩, hget]
  simp only [if_true]

theorem xradio_txrx_thread_tx_paused (c : xradio_consts) (tx tx_status : Int)
    (priv : xradio_priv) (hp : priv.rx_pause_state ≠ 0) :
    xradio_txrx_thread_tx c tx tx_status priv = (priv, []) := by
  unfold xradio_txrx_thread_tx
  rw [if_neg (fun h => hp h.2)]

/-! ## Write failure -/

/-- The failed write under the removing `xradio_queue_get` of section 4.2, at one command
frame and one data frame queued: no entry is removed by key, the counter stays at 2 and
no resume check runs, but the command frame, taken out of its queue by the get, is in no
queue afterwards and the next `xradio_get_tx_buff` returns the data frame.  The removal
by key after a successful write (line 432) has nothing left to remove under this
reading; sections 3 and 4.4 describe the get that leaves the entry queued,
`xradio_queue_get_keep`. -/
theorem tx_write_failure_removing_get :
    (xradio_txrx_thread_round sample_consts 0 false none (-1) sample_both_queued 0).2.2.1 =
      [Event.hw_write sample_cmd_frame, Event.hw_deinit, Event.msleep 2000, Event.hw_init] ∧
    (xradio_txrx_thread_round sample_consts 0 false none (-1) sample_both_queued 0).1.th_tx
      = sample_both_queued.th_tx ∧
    (xradio_txrx_thread_round sample_consts 0 false none (-1) sample_both_queued 0).1
      = (xradio_get_tx_buff sample_both_queued).2 ∧
    (xradio_txrx_thread_round sample_consts 0 false none (-1)
      sample_both_queued 0).1.tx_queue_cmd.items = [] ∧
    (xradio_txrx_thread_round sample_consts 0 false none (-1)
      sample_both_queued 0).1.tx_queue_data = sample_both_queued.tx_queue_data ∧
    (xradio_get_tx_buff (xradio_txrx_thread_round sample_consts 0 false none (-1)
      sample_both_queued 0).1).1 = some sample_net_frame ∧
    sample_net_frame ≠ sample_cmd_frame := by
  decide

/-! ## Transmit completion -/

theorem xradio_get_tx_buff_th_tx (priv : xradio_priv) :
    (xradio_get_tx_buff priv).2.th_tx = priv.th_tx := by
  cases hq : priv.tx_queue_cmd.items with
  | nil =>
    cases hd : priv.tx_queue_data.items with
    | nil => rw [xradio_get_tx_buff_none priv hq hd]
    | cons e rest =>
      obtain ⟨k, skb⟩ := e
      rw [xradio_get_tx_buff_data priv k skb rest hq hd]
  | cons e rest =>
    obtain ⟨k, skb⟩ := e
    rw [xradio_get_tx_buff_cmd priv k skb rest hq]

theorem xradio_check_tx_resume_keeps (priv : xradio_priv) :
    (xradio_check_tx_resume priv).1.th_tx = priv.th_tx ∧
    (xradio_check_tx_resume priv).1.tx_queue_cmd = priv.tx_queue_cmd ∧
    (xradio_check_tx_resume priv).1.tx_queue_data = priv.tx_queue_data ∧
    (xradio_check_tx_resume priv).1.rx_pause_state = priv.rx_pause_state := by
  rw [xradio_check_tx_resume_eq]
  exact ⟨rfl, rfl, rfl, rfl⟩

theorem xradio_free_tx_buff_cmd (c : xradio_consts) (priv : xradio_priv) (skb : sk_buff)
    (h : hdr_type_id c skb.data ≠ 0) :
    xradio_free_tx_buff c priv skb =
      { priv with
        tx_queue_cmd := (xradio_queue_remove priv.tx_queue_cmd (hdr_seq c skb.data)).2 } := by
  unfold xradio_free_tx_buff
  simp only [h, ne_eq, not_false_eq_true, if_true]

theorem xradio_free_tx_buff_data (c : xradio_consts) (priv : xradio_priv) (skb : sk_buff)
    (h : hdr_type_id c skb.data = 0) :
    xradio_free_tx_buff c priv skb =
      { priv with
        tx_queue_data := (xradio_queue_remove priv.tx_queue_data (hdr_seq c skb.data)).2 } := by
  unfold xradio_free_tx_buff
  simp only [h, ne_eq, not_true_eq_false, if_false]

theorem xradio_free_tx_buff_th_tx (c : xradio_consts) (priv : xradio_priv) (skb : sk_buff) :
    (xradio_free_tx_buff c priv skb).th_tx = priv.th_tx := by
  unfold xradio_free_tx_buff
  simp only []
  split_ifs <;> rfl

/-- C15: in a worker round whose hardware write of the popped buffer succeeds, one
removal by key is made, with the sequence number stored in the buffer's header, on the
command queue if the buffer's tag is `XR_REQ_CMD` and on the data queue if it is
`XR_REQ_DATA`, and the other queue stays as the pop left it; the pending-wake counter
goes down by one if it was positive and is unchanged otherwise, so it does not become
negative; the resume check runs on the state so reached, after the write.  The tags are
those `xradio_free_tx_buff` tells apart: a non-zero command tag, a zero data tag. -/
theorem tx_completion (c : xradio_consts) (tx : Int) (priv priv1 : xradio_priv)
    (skb : sk_buff) (hC : c.XR_REQ_CMD ≠ 0) (hD : c.XR_REQ_DATA = 0) (htx : tx ≠ 0)
    (hp : priv.rx_pause_state = 0) (hget : xradio_get_tx_buff priv = (some skb, priv1)) :
    (hdr_type_id c skb.data = c.XR_REQ_CMD →
      (xradio_txrx_thread_tx c tx 0 priv).1.tx_queue_cmd =
        (xradio_queue_remove priv1.tx_queue_cmd (hdr_seq c skb.data)).2 ∧
      (xradio_txrx_thread_tx c tx 0 priv).1.tx_queue_data = priv1.tx_queue_data) ∧
    (hdr_type_id c skb.data = c.XR_REQ_DATA →
      (xradio_txrx_thread_tx c tx 0 priv).1.tx_queue_data =
        (xradio_queue_remove priv1.tx_queue_data (hdr_seq c skb.data)).2 ∧
      (xradio_txrx_thread_tx c tx 0 priv).1.tx_queue_cmd = priv1.tx_queue_cmd) ∧
    (xradio_txrx_thread_tx c tx 0 priv).1.th_tx =
      (if priv.th_tx > 0 then priv.th_tx - 1 else priv.th_tx) ∧
    (0 ≤ priv.th_tx → 0 ≤ (xradio_txrx_thread_tx c tx 0 priv).1.th_tx) ∧
    xradio_txrx_thread_tx c tx 0 priv =
      ((xradio_check_tx_resume
          { xradio_free_tx_buff c priv1 skb with
            th_tx := if priv.th_tx > 0 then priv.th_tx - 1 else priv.th_tx }).1,
        Event.hw_write skb :: (xradio_check_tx_resume
          { xradio_free_tx_buff c priv1 skb with
            th_tx := if priv.th_tx > 0 then priv.th_tx - 1 else priv.th_tx }).2) := by
  have h1 : priv1.th_tx = priv.th_tx := by
    have := xradio_get_tx_buff_th_tx priv
    rw [hget] at this
    exact this
  have hdec : (if (xradio_free_tx_buff c priv1 skb).th_tx > 0 then
        { xradio_free_tx_buff c priv1 skb with
          th_tx := (xradio_free_tx_buff c priv1 skb).th_tx - 1 }
      else xradio_free_tx_buff c priv1 skb) =
      { xradio_free_tx_buff c priv1 skb with
        th_tx := if priv.th_tx > 0 then priv.th_tx - 1 else priv.th_tx } := by
    rw [xradio_free_tx_buff_th_tx, h1]
    split_ifs
    · rfl
    · have := xradio_free_tx_buff_th_tx c priv1 skb
      rw [h1] at this
      rw [← this]
  have heq := xradio_txrx_thread_tx_ok c tx priv priv1 skb htx hp hget
  rw [hdec] at heq
  rw [heq]
  obtain ⟨k1, k2, k3, _⟩ := xradio_check_tx_resume_keeps
    { xradio_free_tx_buff c priv1 skb with
      th_tx := if priv.th_tx > 0 then priv.th_tx - 1 else priv.th_tx }
  refine ⟨?_, ?_, k1, ?_, rfl⟩
  · intro ht
    rw [k2, k3, xradio_free_tx_buff_cmd c priv1 skb (by rw [ht]; exact hC)]
    exact ⟨rfl, rfl⟩
  · intro ht
    rw [k2, k3, xradio_free_tx_buff_data c priv1 skb (by rw [ht]; exact hD)]
    exact ⟨rfl, rfl⟩
  · intro h0
    rw [k1]
    simp only []
    split_ifs <;> omega

/-- Witness of `tx_completion`: the sample state with a command frame and a data frame
queued and two wakes pending; the write of the command frame succeeds. -/
theorem tx_completion_witness :
    (xradio_txrx_thread_tx sample_consts 2 0 sample_both_queued).1.tx_queue_data =
      sample_both_queued.tx_queue_data ∧
    (xradio_txrx_thread_tx sample_consts 2 0 sample_both_queued).1.th_tx = 1 ∧
    (xradio_txrx_thread_tx sample_consts 2 0 sample_both_queued).1.tx_queue_cmd =
      (xradio_queue_remove (xradio_get_tx_buff sample_both_queued).2.tx_queue_cmd
        (hdr_seq sample_consts sample_cmd_frame.data)).2 := by
  have h := tx_completion sample_consts 2 sample_both_queued
    (xradio_get_tx_buff sample_both_queued).2 sample_cmd_frame (by decide) rfl (by decide) rfl
    (by decide)
  have h1 := h.1 (by decide)
  exact ⟨h1.2, h.2.2.1, h1.1⟩

/-! ## Peer-imposed backpressure -/

theorem rx_dispatch_keeps (c : xradio_consts) (priv : xradio_priv) (skb : sk_buff)
    (l s t : Nat) :
    (rx_dispatch c priv skb l s t).st.th_tx = priv.th_tx ∧
    (rx_dispatch c priv skb l s t).st.tx_queue_cmd = priv.tx_queue_cmd ∧
    (rx_dispatch c priv skb l s t).st.tx_queue_data = priv.tx_queue_data ∧
    ∀ b, Event.hw_write b ∉ (rx_dispatch c priv skb l s t).ev := by
  unfold rx_dispatch xradio_rx_cmd_process xradio_rx_net_process
  simp only []
  split_ifs <;> simp

theorem rx_track_seq_no_write (d : Int) (seq : Nat) :
    ∀ b, Event.hw_write b ∉ (rx_track_seq d seq).2 := by
  unfold rx_track_seq
  simp only []
  split_ifs <;> simp

theorem xradio_rx_process_keeps (c : xradio_consts) (priv : xradio_priv) (skb : sk_buff) :
    (xradio_rx_process c priv skb).st.th_tx = priv.th_tx ∧
    (xradio_rx_process c priv skb).st.tx_queue_cmd = priv.tx_queue_cmd ∧
    (xradio_rx_process c priv skb).st.tx_queue_data = priv.tx_queue_data ∧
    ∀ b, Event.hw_write b ∉ (xradio_rx_process c priv skb).ev := by
  by_cases hok : rx_checksum_ok c skb.data
  · rw [xradio_rx_process_match c priv skb hok]
    obtain ⟨k1, k2, k3, k4⟩ := rx_dispatch_keeps c
      { priv with dev_seq := (rx_track_seq priv.dev_seq (hdr_seq c skb.data)).1 }
      (skb_pull skb (get_le16 skb.data HDR_OFFSET)) (get_le16 skb.data HDR_CUR_LEN)
      (hdr_seq c skb.data) (hdr_type_id c skb.data)
    refine ⟨k1, k2, k3, ?_⟩
    intro b hb
    rcases List.mem_append.mp hb with h | h
    · exact rx_track_seq_no_write _ _ b h
    · exact k4 b h
  · rw [xradio_rx_process_mismatch c priv skb hok]
    simp

theorem xradio_txrx_thread_rx_keeps (c : xradio_consts) (rx : Int) (read : Option sk_buff)
    (priv : xradio_priv) (rx_len : Int) :
    (xradio_txrx_thread_rx c rx read priv rx_len).1.th_tx = priv.th_tx ∧
    (xradio_txrx_thread_rx c rx read priv rx_len).1.tx_queue_cmd = priv.tx_queue_cmd ∧
    (xradio_txrx_thread_rx c rx read priv rx_len).1.tx_queue_data = priv.tx_queue_data ∧
    ∀ b, Event.hw_write b ∉ (xradio_txrx_thread_rx c rx read priv rx_len).2.2 := by
  unfold xradio_txrx_thread_rx
  obtain _ | skb := read
  · split_ifs <;> simp
  · obtain ⟨k1, k2, k3, k4⟩ := xradio_rx_process_keeps c priv skb
    split_ifs
    · refine ⟨k1, k2, k3, ?_⟩
      intro b hb
      simp only [List.mem_cons, reduceCtorEq, false_or] at hb
      exact k4 b hb
    · simp

/-- The receiver on a checksum-valid command frame: the state is that of
`xradio_rx_cmd_process` on the payload. -/
theorem xradio_rx_process_cmd_state (c : xradio_consts) (priv : xradio_priv) (skb : sk_buff)
    (hok : rx_checksum_ok c skb.data) (hty : hdr_type_id c skb.data = c.XR_REQ_CMD) :
    (xradio_rx_process c priv skb).st =
      (xradio_rx_cmd_process c
        { priv with dev_seq := (rx_track_seq priv.dev_seq (hdr_seq c skb.data)).1 }
        (skb_pull skb (get_le16 skb.data HDR_OFFSET)) (get_le16 skb.data HDR_CUR_LEN)
        (hdr_seq c skb.data)).st ∧
    (xradio_rx_process c priv skb).ev =
      (rx_track_seq priv.dev_seq (hdr_seq c skb.data)).2 ++
      (xradio_rx_cmd_process c
        { priv with dev_seq := (rx_track_seq priv.dev_seq (hdr_seq c skb.data)).1 }
        (skb_pull skb (get_le16 skb.data HDR_OFFSET)) (get_le16 skb.data HDR_CUR_LEN)
        (hdr_seq c skb.data)).ev := by
  rw [xradio_rx_process_match c priv skb hok]
  unfold rx_dispatch
  rw [if_pos hty]
  exact ⟨rfl, rfl⟩

theorem xradio_rx_cmd_process_pause (c : xradio_consts) (priv : xradio_priv) (skb : sk_buff)
    (len seq : Nat) (h : c.cmd_type skb.data = c.XR_WIFI_DEV_RX_PAUSE) :
    (xradio_rx_cmd_process c priv skb len seq).st.rx_pause_state = 1 ∧
    ∀ e ∈ (xradio_rx_cmd_process c priv skb len seq).ev,
      e = Event.net_tx_pause ∨ e = Event.free_skb := by
  unfold xradio_rx_cmd_process
  simp only [h, if_true]
  split_ifs <;> simp

theorem xradio_rx_cmd_process_resume (c : xradio_consts) (priv : xradio_priv) (skb : sk_buff)
    (len seq : Nat) (hne : c.XR_WIFI_DEV_RX_RESUME ≠ c.XR_WIFI_DEV_RX_PAUSE)
    (h : c.cmd_type skb.data = c.XR_WIFI_DEV_RX_RESUME) :
    (xradio_rx_cmd_process c priv skb len seq).st.rx_pause_state = 0 ∧
    ∀ e ∈ (xradio_rx_cmd_process c priv skb len seq).ev,
      e = Event.net_tx_resume ∨ e = Event.free_skb := by
  unfold xradio_rx_cmd_process
  simp only [h, hne, if_true, if_false]
  split_ifs <;> simp

theorem rx_track_seq_events (d : Int) (seq : Nat) :
    ∀ e ∈ (rx_track_seq d seq).2, ∃ x y, e = Event.log_missing_pkt x y := by
  unfold rx_track_seq
  simp only []
  split_ifs <;> simp

theorem xradio_rx_process_pause_frame (c : xradio_consts) (priv : xradio_priv) (skb : sk_buff)
    (hok : rx_checksum_ok c skb.data) (hty : hdr_type_id c skb.data = c.XR_REQ_CMD)
    (h : c.cmd_type (skb_pull skb (get_le16 skb.data HDR_OFFSET)).data =
      c.XR_WIFI_DEV_RX_PAUSE) :
    (xradio_rx_process c priv skb).st.rx_pause_state = 1 ∧
    ∀ d l, Event.low_cmd_push d l ∉ (xradio_rx_process c priv skb).ev ∧
      Event.up_cmd_push d l ∉ (xradio_rx_process c priv skb).ev := by
  obtain ⟨s1, s2⟩ := xradio_rx_process_cmd_state c priv skb hok hty
  obtain ⟨p1, p2⟩ := xradio_rx_cmd_process_pause c
    { priv with dev_seq := (rx_track_seq priv.dev_seq (hdr_seq c skb.data)).1 }
    (skb_pull skb (get_le16 skb.data HDR_OFFSET)) (get_le16 skb.data HDR_CUR_LEN)
    (hdr_seq c skb.data) h
  rw [s1, s2]
  refine ⟨p1, fun d l => ⟨?_, ?_⟩⟩ <;>
  · intro hm
    rcases List.mem_append.mp hm with hm | hm
    · obtain ⟨x, y, e⟩ := rx_track_seq_events _ _ _ hm
      exact absurd e (by simp)
    · rcases p2 _ hm with e | e <;> exact absurd e (by simp)

theorem xradio_rx_process_resume_frame (c : xradio_consts) (priv : xradio_priv)
    (skb : sk_buff) (hne : c.XR_WIFI_DEV_RX_RESUME ≠ c.XR_WIFI_DEV_RX_PAUSE)
    (hok : rx_checksum_ok c skb.data) (hty : hdr_type_id c skb.data = c.XR_REQ_CMD)
    (h : c.cmd_type (skb_pull skb (get_le16 skb.data HDR_OFFSET)).data =
      c.XR_WIFI_DEV_RX_RESUME) :
    (xradio_rx_process c priv skb).st.rx_pause_state = 0 ∧
    ∀ d l, Event.low_cmd_push d l ∉ (xradio_rx_process c priv skb).ev ∧
      Event.up_cmd_push d l ∉ (xradio_rx_process c priv skb).ev := by
  obtain ⟨s1, s2⟩ := xradio_rx_process_cmd_state c priv skb hok hty
  obtain ⟨p1, p2⟩ := xradio_rx_cmd_process_resume c
    { priv with dev_seq := (rx_track_seq priv.dev_seq (hdr_seq c skb.data)).1 }
    (skb_pull skb (get_le16 skb.data HDR_OFFSET)) (get_le16 skb.data HDR_CUR_LEN)
    (hdr_seq c skb.data) hne h
  rw [s1, s2]
  refine ⟨p1, fun d l => ⟨?_, ?_⟩⟩ <;>
  · intro hm
    rcases List.mem_append.mp hm with hm | hm
    · obtain ⟨x, y, e⟩ := rx_track_seq_events _ _ _ hm
      exact absurd e (by simp)
    · rcases p2 _ hm with e | e <;> exact absurd e (by simp)

/-- A round in which the peer pause state is set after the receive part: the transmit
part does nothing. -/
theorem xradio_txrx_thread_round_paused (c : xradio_consts) (rx : Int)
    (read : Option sk_buff) (tx_status : Int) (priv : xradio_priv) (rx_len : Int)
    (hp : (xradio_txrx_thread_rx c rx read priv rx_len).1.rx_pause_state ≠ 0) :
    (xradio_txrx_thread_round c rx false read tx_status priv rx_len).1 =
      (xradio_txrx_thread_rx c rx read priv rx_len).1 ∧
    (xradio_txrx_thread_round c rx false read tx_status priv rx_len).2.2.1 =
      (xradio_txrx_thread_rx c rx read priv rx_len).2.2 ∧
    (xradio_txrx_thread_round c rx false read tx_status priv rx_len).1.tx_queue_cmd =
      priv.tx_queue_cmd ∧
    (xradio_txrx_thread_round c rx false read tx_status priv rx_len).1.tx_queue_data =
      priv.tx_queue_data ∧
    (xradio_txrx_thread_round c rx false read tx_status priv rx_len).1.th_tx = priv.th_tx ∧
    ∀ b, Event.hw_write b ∉
      (xradio_txrx_thread_round c rx false read tx_status priv rx_len).2.2.1 := by
  rw [xradio_txrx_thread_round_eq, xradio_txrx_thread_tx_paused c _ _ _ hp]
  obtain ⟨k1, k2, k3, k4⟩ := xradio_txrx_thread_rx_keeps c rx read priv rx_len
  simp only [List.append_nil]
  exact ⟨trivial, trivial, k2, k3, k1, k4⟩

/-- C13: a checksum-valid command frame of sub-type `XR_WIFI_DEV_RX_PAUSE` sets
`rx_pause_state`, one of sub-type `XR_WIFI_DEV_RX_RESUME` clears it, and neither reaches
the low or the up command handler; in every worker round in which `rx_pause_state` is set
after the receive part, the round that received the pause frame included, the queues are
as they were (no buffer is popped), no hardware write is made and the pending-wake
counter keeps its value, whatever that is. -/
theorem rx_pause_blocks_tx (c : xradio_consts) (priv : xradio_priv) (skb : sk_buff)
    (rx : Int) (read : Option sk_buff) (tx_status : Int) (rx_len : Int)
    (hne : c.XR_WIFI_DEV_RX_RESUME ≠ c.XR_WIFI_DEV_RX_PAUSE)
    (hok : rx_checksum_ok c skb.data) (hty : hdr_type_id c skb.data = c.XR_REQ_CMD) :
    (c.cmd_type (skb_pull skb (get_le16 skb.data HDR_OFFSET)).data = c.XR_WIFI_DEV_RX_PAUSE →
      (xradio_rx_process c priv skb).st.rx_pause_state = 1 ∧
      ∀ d l, Event.low_cmd_push d l ∉ (xradio_rx_process c priv skb).ev ∧
        Event.up_cmd_push d l ∉ (xradio_rx_process c priv skb).ev) ∧
    (c.cmd_type (skb_pull skb (get_le16 skb.data HDR_OFFSET)).data = c.XR_WIFI_DEV_RX_RESUME →
      (xradio_rx_process c priv skb).st.rx_pause_state = 0 ∧
      ∀ d l, Event.low_cmd_push d l ∉ (xradio_rx_process c priv skb).ev ∧
        Event.up_cmd_push d l ∉ (xradio_rx_process c priv skb).ev) ∧
    ((xradio_txrx_thread_rx c rx read priv rx_len).1.rx_pause_state ≠ 0 →
      (xradio_txrx_thread_round c rx false read tx_status priv rx_len).1.tx_queue_cmd =
        priv.tx_queue_cmd ∧
      (xradio_txrx_thread_round c rx false read tx_status priv rx_len).1.tx_queue_data =
        priv.tx_queue_data ∧
      (xradio_txrx_thread_round c rx false read tx_status priv rx_len).1.th_tx = priv.th_tx ∧
      ∀ b, Event.hw_write b ∉
        (xradio_txrx_thread_round c rx false read tx_status priv rx_len).2.2.1) ∧
    ((rx ≠ 0 ∨ rx_len ≠ 0) →
      c.cmd_type (skb_pull skb (get_le16 skb.data HDR_OFFSET)).data = c.XR_WIFI_DEV_RX_PAUSE →
      (xradio_txrx_thread_round c rx false (some skb) tx_status priv rx_len).1.rx_pause_state
        = 1 ∧
      (xradio_txrx_thread_round c rx false (some skb) tx_status priv rx_len).1.tx_queue_cmd =
        priv.tx_queue_cmd ∧
      (xradio_txrx_thread_round c rx false (some skb) tx_status priv rx_len).1.tx_queue_data =
        priv.tx_queue_data ∧
      (xradio_txrx_thread_round c rx false (some skb) tx_status priv rx_len).1.th_tx =
        priv.th_tx ∧
      ∀ b, Event.hw_write b ∉
        (xradio_txrx_thread_round c rx false (some skb) tx_status priv rx_len).2.2.1) := by
  refine ⟨xradio_rx_process_pause_frame c priv skb hok hty,
    xradio_rx_process_resume_frame c priv skb hne hok hty, ?_, ?_⟩
  · intro hp
    exact (xradio_txrx_thread_round_paused c rx read tx_status priv rx_len hp).2.2
  · intro hrx hpause
    have hst : (xradio_txrx_thread_rx c rx (some skb) priv rx_len).1 =
        (xradio_rx_process c priv skb).st := by
      unfold xradio_txrx_thread_rx
      rw [if_pos hrx]
    have h1 := (xradio_rx_process_pause_frame c priv skb hok hty hpause).1
    have hp : (xradio_txrx_thread_rx c rx (some skb) priv rx_len).1.rx_pause_state ≠ 0 := by
      rw [hst, h1]
      decide
    obtain ⟨r1, _, r3, r4, r5, r6⟩ :=
      xradio_txrx_thread_round_paused c rx (some skb) tx_status priv rx_len hp
    refine ⟨?_, r3, r4, r5, r6⟩
    rw [r1, hst, h1]

/-- Witness of `rx_pause_blocks_tx`: the worker reads the sample pause frame while a
command frame and a data frame are queued and two wakes are pending. -/
theorem rx_pause_blocks_tx_witness :
    (xradio_txrx_thread_round sample_consts 1 false (some sample_pause_frame) 0
      sample_both_queued 0).1.rx_pause_state = 1 ∧
    (xradio_txrx_thread_round sample_consts 1 false (some sample_pause_frame) 0
      sample_both_queued 0).1.tx_queue_cmd = sample_both_queued.tx_queue_cmd ∧
    (xradio_txrx_thread_round sample_consts 1 false (some sample_pause_frame) 0
      sample_both_queued 0).1.th_tx = sample_both_queued.th_tx := by
  have h := (rx_pause_blocks_tx sample_consts sample_both_queued sample_pause_frame 1
    (some sample_pause_frame) 0 0 (by decide) (by decide) (by decide)).2.2.2
    (Or.inl (by decide)) (by decide)
  exact ⟨h.1, h.2.1, h.2.2.2.1⟩

/-! ## Read size hint -/

theorem xradio_txrx_thread_rx_mismatch (c : xradio_consts) (rx : Int) (skb : sk_buff)
    (priv : xradio_priv) (rx_len : Int) (hrx : rx ≠ 0 ∨ rx_len ≠ 0)
    (hbad : ¬ rx_checksum_ok c skb.data) :
    (xradio_txrx_thread_rx c rx (some skb) priv rx_len).2.1 = -1 := by
  unfold xradio_txrx_thread_rx
  rw [if_pos hrx]
  simp only []
  rw [xradio_rx_process_mismatch c priv skb hbad]

/-- C16 at a failing input: the worker, with nothing pending (`rx_len = 0`), reads a
buffer whose checksum does not match.  The frame is dropped and the loop variable
`rx_len` becomes -1, the error return of `xradio_rx_process`; in the next round, with
no receive pending, `rx_len` alone makes the worker read, and `xradio_hwio_read` is
called with -1. -/
theorem rx_len_negative_after_mismatch :
    ¬ rx_checksum_ok sample_consts sample_bad_frame.data ∧
    (xradio_txrx_thread_round sample_consts 1 false (some sample_bad_frame) 0
      (xradio_register_trans 10 10) 0).2.1 = -1 ∧
    (xradio_txrx_thread_round sample_consts 1 false (some sample_bad_frame) 0
      (xradio_register_trans 10 10) 0).1 = xradio_register_trans 10 10 ∧
    (xradio_txrx_thread_round sample_consts 0 false none 0
      (xradio_txrx_thread_round sample_consts 1 false (some sample_bad_frame) 0
        (xradio_register_trans 10 10) 0).1
      (xradio_txrx_thread_round sample_consts 1 false (some sample_bad_frame) 0
        (xradio_register_trans 10 10) 0).2.1).2.2.1 = [Event.hw_read (-1)] := by
  decide

/-! ## Chip-enable policy -/

theorem sunxi_wl_chipen_set_state (N : Int) (data : sunxi_wlan_platdata) (w b : Bool)
    (dev on_off : Int) :
    (sunxi_wl_chipen_set N data (chipen_state w b) dev on_off).1 =
      chipen_state (if dev = 0 then decide (on_off > 0) else w)
        (if dev = 1 then decide (on_off > 0) else b) := by
  have hps : ∀ ps, (sunxi_wl_chipen_set N data ps dev on_off).1 =
      (if dev = 0 then (ps &&& 0xFFFFFFFE) ||| (if on_off > 0 then 1 else 0)
       else if dev = 1 then (ps &&& 0xFFFFFFFD) ||| ((if on_off > 0 then 1 else 0) <<< 1)
       else ps) := by
    intro ps
    unfold sunxi_wl_chipen_set
    simp only []
    split_ifs <;> rfl
  rw [hps]
  by_cases h0 : dev = 0
  · have h1 : ¬ dev = 1 := by omega
    simp only [h0, h1, if_true, if_false]
    by_cases hon : on_off > 0 <;> cases w <;> cases b <;> simp [hon, chipen_state] <;>
        decide
  · by_cases h1 : dev = 1
    · simp only [h0, h1, if_true, if_false]
      by_cases hon : on_off > 0 <;> cases w <;> cases b <;> simp [hon, chipen_state] <;>
        decide
    · simp only [h0, h1, if_false]

theorem sunxi_wl_chipen_run_state (N : Int) (data : sunxi_wlan_platdata)
    (calls : List (Int × Int)) :
    ∀ w b, sunxi_wl_chipen_run N data (chipen_state w b) calls =
      chipen_state (last_on 0 w calls) (last_on 1 b calls) := by
  induction calls with
  | nil => intro w b; rfl
  | cons x rest ih =>
    intro w b
    obtain ⟨dev, on_off⟩ := x
    simp only [sunxi_wl_chipen_run, sunxi_wl_chipen_set_state, ih, last_on, List.foldl_cons]

theorem chipen_state_ne_zero (w b : Bool) : chipen_state w b ≠ 0 ↔ (w || b) = true := by
  cases w <;> cases b <;> simp [chipen_state]

theorem last_on_snoc (d : Int) (dflt : Bool) (calls : List (Int × Int)) (dev on_off : Int) :
    last_on d dflt (calls ++ [(dev, on_off)]) =
      if dev = d then decide (on_off > 0) else last_on d dflt calls := by
  unfold last_on
  rw [List.foldl_append]
  rfl

/-- C14: after any series of calls of `sunxi_wl_chipen_set` (the static `power_state`
starting at 0), the latest call, if the chip-enable GPIO is valid, writes it once, with
the value high exactly when the most recent `on_off` requested for wifi or the most
recent one requested for bt is above 0 (inverted when `gpio_chip_en_invert` is set; a
device never requested counts as off); with an invalid GPIO nothing is written; and a
call with a `dev` other than 0 and 1 leaves `power_state` as it is. -/
theorem chipen_follows_last_requests (N : Int) (data : sunxi_wlan_platdata)
    (calls : List (Int × Int)) (dev on_off : Int) (ps : Nat) :
    (gpio_is_valid N data.gpio_chip_en = true →
      (sunxi_wl_chipen_set N data (sunxi_wl_chipen_run N data 0 calls) dev on_off).2 =
        [(data.gpio_chip_en,
          if data.gpio_chip_en_invert = 0 then
            (if (last_on 0 false (calls ++ [(dev, on_off)]) ||
              last_on 1 false (calls ++ [(dev, on_off)])) = true then 1 else 0)
          else
            (if (last_on 0 false (calls ++ [(dev, on_off)]) ||
              last_on 1 false (calls ++ [(dev, on_off)])) = true then 0 else 1))]) ∧
    (gpio_is_valid N data.gpio_chip_en = false →
      (sunxi_wl_chipen_set N data (sunxi_wl_chipen_run N data 0 calls) dev on_off).2 = []) ∧
    (dev ≠ 0 → dev ≠ 1 → (sunxi_wl_chipen_set N data ps dev on_off).1 = ps) := by
  have h0 : (0 : Nat) = chipen_state false false := rfl
  have hst := sunxi_wl_chipen_set_state N data (last_on 0 false calls) (last_on 1 false calls)
    dev on_off
  rw [← sunxi_wl_chipen_run_state N data calls false false, ← h0] at hst
  have hw : (if dev = 0 then decide (on_off > 0) else last_on 0 false calls) =
      last_on 0 false (calls ++ [(dev, on_off)]) := (last_on_snoc 0 false calls dev on_off).symm
  have hb : (if dev = 1 then decide (on_off > 0) else last_on 1 false calls) =
      last_on 1 false (calls ++ [(dev, on_off)]) := (last_on_snoc 1 false calls dev on_off).symm
  rw [hw, hb] at hst
  have hnz := chipen_state_ne_zero (last_on 0 false (calls ++ [(dev, on_off)]))
    (last_on 1 false (calls ++ [(dev, on_off)]))
  rw [← hst] at hnz
  have hwr : ∀ p, (sunxi_wl_chipen_set N data p dev on_off).2 =
      if gpio_is_valid N data.gpio_chip_en = true then
        [(data.gpio_chip_en,
          if data.gpio_chip_en_invert = 0 then
            (if (sunxi_wl_chipen_set N data p dev on_off).1 ≠ 0 then 1 else 0)
          else (if (sunxi_wl_chipen_set N data p dev on_off).1 = 0 then 1 else 0))]
      else [] := by
    intro p
    unfold sunxi_wl_chipen_set
    simp only []
    split_ifs <;> rfl
  refine ⟨?_, ?_, ?_⟩
  · intro hv
    rw [hwr, if_pos hv]
    by_cases hor : (last_on 0 false (calls ++ [(dev, on_off)]) ||
        last_on 1 false (calls ++ [(dev, on_off)])) = true
    · have := hnz.mpr hor
      by_cases hinv : data.gpio_chip_en_invert = 0 <;> simp [hinv, hor, this]
    · have : (sunxi_wl_chipen_set N data (sunxi_wl_chipen_run N data 0 calls) dev on_off).1
          = 0 := by
        by_contra hc
        exact hor (hnz.mp hc)
      by_cases hinv : data.gpio_chip_en_invert = 0 <;> simp [hinv, hor, this]
  · intro hv
    rw [hwr, if_neg (by rw [hv]; decide)]
  · intro d0 d1
    unfold sunxi_wl_chipen_set
    simp only [d0, d1, if_false]
    split_ifs <;> rfl

/-- Witness of `chipen_follows_last_requests`: wifi on, bt on, wifi off leaves the line
high; a further bt off takes it low. -/
theorem chipen_follows_last_requests_witness :
    (sunxi_wl_chipen_set 1024 sample_wlan_data
      (sunxi_wl_chipen_run 1024 sample_wlan_data 0 [(0, 1), (1, 1)]) 0 0).2 = [(5, 1)] ∧
    (sunxi_wl_chipen_set 1024 sample_wlan_data
      (sunxi_wl_chipen_run 1024 sample_wlan_data 0 [(0, 1), (1, 1), (0, 0)]) 1 0).2 =
      [(5, 0)] :=
  ⟨(chipen_follows_last_requests 1024 sample_wlan_data [(0, 1), (1, 1)] 0 0 0).1 (by decide),
    (chipen_follows_last_requests 1024 sample_wlan_data [(0, 1), (1, 1), (0, 0)] 1 0 0).1
      (by decide)⟩

/-! ## Alternation of the pause and resume callbacks -/

theorem callbacks_append (a b : List Event) : callbacks (a ++ b) = callbacks a ++ callbacks b := by
  unfold callbacks
  exact List.filter_append _ _

theorem callback_step_tx_net (c : xradio_consts) (linearize_ok : Bool)
    (alloc : Option (Nat → Nat)) (priv : xradio_priv) (skb : sk_buff) :
    callback_step priv.tx_data_pause
      (xradio_tx_net_process c linearize_ok alloc priv skb).st.tx_data_pause
      (callbacks (xradio_tx_net_process c linearize_ok alloc priv skb).ev) := by
  by_cases hen : priv.txrx_enable = true
  · cases hf : xradio_tx_net_frame c linearize_ok alloc priv.net_seq_number skb with
    | none =>
      unfold xradio_tx_net_process
      simp only [hen, hf, Bool.not_true, Bool.false_eq_true, if_false]
      left
      split_ifs <;> simp [callbacks]
    | some frame =>
      rw [xradio_tx_net_process_eq c linearize_ok alloc priv skb frame hen hf]
      simp only [callbacks_append]
      have hk : callbacks (if xradio_tx_net_copies c skb = true then [Event.kfree_skb] else [])
          = [] := by
        split_ifs <;> simp [callbacks]
      rw [hk]
      by_cases hcond : (xradio_queue_put priv.tx_queue_data frame priv.net_seq_number).1 ≠ 0 ∧
          priv.tx_data_pause = 0
      · right; left
        simp [hcond, callbacks]
      · left
        simp [hcond, callbacks]
  · unfold xradio_tx_net_process
    left
    simp [hen, callbacks]

theorem callback_step_tx_cmd (c : xradio_consts) (alloc : Option (Nat → Nat))
    (priv : xradio_priv) (buffer : List Nat) (len : Nat) :
    callback_step priv.tx_data_pause
      (xradio_tx_cmd_process c alloc priv buffer len).st.tx_data_pause
      (callbacks (xradio_tx_cmd_process c alloc priv buffer len).ev) := by
  left
  by_cases hen : priv.txrx_enable = true
  · cases alloc with
    | none =>
      unfold xradio_tx_cmd_process
      simp [hen, callbacks]
    | some prior =>
      rw [xradio_tx_cmd_process_eq c prior priv buffer len hen]
      refine ⟨rfl, ?_⟩
      simp only [callbacks_append]
      split_ifs <;> simp [callbacks]
  · unfold xradio_tx_cmd_process
    simp [hen, callbacks]

theorem callback_step_rx_cmd (c : xradio_consts) (priv : xradio_priv) (skb : sk_buff)
    (len seq : Nat) :
    callback_step priv.tx_data_pause (xradio_rx_cmd_process c priv skb len seq).st.tx_data_pause
      (callbacks (xradio_rx_cmd_process c priv skb len seq).ev) := by
  unfold xradio_rx_cmd_process callback_step
  simp only []
  split_ifs with h1 h2 h3 h4 <;> simp [callbacks, *]

theorem callback_step_check_resume (priv : xradio_priv) :
    callback_step priv.tx_data_pause (xradio_check_tx_resume priv).1.tx_data_pause
      (callbacks (xradio_check_tx_resume priv).2) := by
  rw [xradio_check_tx_resume_eq]
  unfold callback_step
  simp only [callbacks_append]
  have hs : callbacks (if priv.tx_cmd_pause ≠ 0 ∧ xradio_queue_get_queue_num priv.tx_queue_cmd <
      priv.tx_queue_cmd.capacity * 4 / 5 then [Event.sem_give] else []) = [] := by
    split_ifs <;> simp [callbacks]
  rw [hs]
  by_cases hc : priv.tx_data_pause ≠ 0 ∧ xradio_queue_get_queue_num priv.tx_queue_data <
      priv.tx_queue_data.capacity * 1 / 5
  · right; right
    simp only [if_pos hc]
    exact ⟨hc.1, trivial, by simp [callbacks]⟩
  · left
    simp only [if_neg hc]
    exact ⟨trivial, by simp [callbacks]⟩

theorem callbacks_rx_track_seq (d : Int) (seq : Nat) : callbacks (rx_track_seq d seq).2 = [] := by
  unfold rx_track_seq
  simp only []
  split_ifs <;> simp [callbacks]

theorem callback_step_rx (c : xradio_consts) (priv : xradio_priv) (skb : sk_buff) :
    callback_step priv.tx_data_pause (xradio_rx_process c priv skb).st.tx_data_pause
      (callbacks (xradio_rx_process c priv skb).ev) := by
  by_cases hok : rx_checksum_ok c skb.data
  · rw [xradio_rx_process_match c priv skb hok]
    simp only [callbacks_append, callbacks_rx_track_seq, List.nil_append]
    unfold rx_dispatch
    split_ifs
    · exact callback_step_rx_cmd c
        { priv with dev_seq := (rx_track_seq priv.dev_seq (hdr_seq c skb.data)).1 } _ _ _
    · left
      simp [xradio_rx_net_process, callbacks]
  · rw [xradio_rx_process_mismatch c priv skb hok]
    left
    simp [callbacks]

theorem callback_step_op (c : xradio_consts) (priv : xradio_priv) (op : xradio_op) :
    callback_step priv.tx_data_pause (xradio_op_step c priv op).1.tx_data_pause
      (callbacks (xradio_op_step c priv op).2) := by
  cases op with
  | tx_net l a s => exact callback_step_tx_net c l a priv s
  | tx_cmd a b l => exact callback_step_tx_cmd c a priv b l
  | rx s => exact callback_step_rx c priv s
  | rx_cmd s l q => exact callback_step_rx_cmd c priv s l q
  | check_resume => exact callback_step_check_resume priv

theorem alternating_from_succ (f n : Nat) :
    alternating_from f (n + 1) =
      (if f % 2 = 0 then Event.net_tx_pause else Event.net_tx_resume) ::
        alternating_from (f + 1) n := by
  unfold alternating_from
  rw [List.range_succ_eq_map, List.map_cons, List.map_map]
  simp only [Nat.add_zero, List.cons.injEq, true_and]
  apply List.map_congr_left
  intro i _
  simp only [Function.comp, Nat.succ_eq_add_one]
  have e : f + (i + 1) = f + 1 + i := by omega
  rw [e]

theorem alternating_from_add_two (f n : Nat) :
    alternating_from (f + 2) n = alternating_from f n := by
  unfold alternating_from
  apply List.map_congr_left
  intro i _
  have e : (f + 2 + i) % 2 = (f + i) % 2 := by omega
  simp only [e]

/-- The callbacks of a series of calls from a state whose data pause flag is `f` (0 or
1): they alternate, starting with pause if `f` is 0 and with resume if it is 1, and the
flag at the end is `f` plus their number, modulo 2. -/
theorem xradio_ops_run_callbacks (c : xradio_consts) (ops : List xradio_op) :
    ∀ (priv : xradio_priv) (f : Nat), f < 2 → priv.tx_data_pause = (f : Int) →
      callbacks (xradio_ops_run c priv ops).2 =
        alternating_from f (callbacks (xradio_ops_run c priv ops).2).length ∧
      (xradio_ops_run c priv ops).1.tx_data_pause =
        (((f + (callbacks (xradio_ops_run c priv ops).2).length) % 2 : Nat) : Int) := by
  induction ops with
  | nil =>
    intro priv f hf hp
    refine ⟨rfl, ?_⟩
    simp only [xradio_ops_run, callbacks, List.filter_nil, List.length_nil, Nat.add_zero]
    rw [hp, Nat.mod_eq_of_lt hf]
  | cons op rest ih =>
    intro priv f hf hp
    simp only [xradio_ops_run, callbacks_append, List.length_append]
    rcases callback_step_op c priv op with ⟨h1, h2⟩ | ⟨h1, h2, h3⟩ | ⟨h1, h2, h3⟩
    · obtain ⟨i1, i2⟩ := ih (xradio_op_step c priv op).1 f hf (by rw [h1, hp])
      rw [h2]
      simp only [List.nil_append, List.length_nil, Nat.zero_add]
      exact ⟨i1, i2⟩
    · have hf0 : f = 0 := by
        rw [hp] at h1
        omega
      subst hf0
      obtain ⟨i1, i2⟩ := ih (xradio_op_step c priv op).1 1 (by omega) (by rw [h2]; rfl)
      rw [h3]
      simp only [List.singleton_append, List.length_cons, List.length_nil, Nat.zero_add]
      constructor
      · rw [Nat.add_comm 1, alternating_from_succ]
        simp only [Nat.zero_mod, if_true, List.cons.injEq, true_and]
        exact i1
      · rw [i2]
    · have hf1 : f = 1 := by
        rw [hp] at h1
        omega
      subst hf1
      obtain ⟨i1, i2⟩ := ih (xradio_op_step c priv op).1 0 (by omega) (by rw [h2]; rfl)
      rw [h3]
      simp only [List.singleton_append, List.length_cons, List.length_nil, Nat.zero_add]
      constructor
      · rw [Nat.add_comm 1, alternating_from_succ, alternating_from_add_two]
        simp only [Nat.one_mod, one_ne_zero, if_false, List.cons.injEq, true_and]
        exact i1
      · rw [i2]
        congr 1
        omega

theorem mem_callbacks (e : Event) (ev : List Event) :
    e ∈ callbacks ev ↔ e ∈ ev ∧ (e = Event.net_tx_pause ∨ e = Event.net_tx_resume) := by
  unfold callbacks
  rw [List.mem_filter]
  cases e <;> simp

theorem alternating_from_getLast (n : Nat) :
    (alternating_from 0 n).getLast? = some Event.net_tx_pause ↔ n % 2 = 1 := by
  cases n with
  | zero => simp [alternating_from]
  | succ k =>
    unfold alternating_from
    rw [List.range_succ, List.map_append, List.map_singleton, List.getLast?_concat]
    simp only [Option.some.injEq, Nat.zero_add]
    by_cases h : k % 2 = 0
    · simp only [h, if_true, true_iff]
      omega
    · simp only [h, if_false, reduceCtorEq, false_iff]
      omega

/-- C17, amended: from a state whose data pause flag is 0, as after registration, over every
series of calls of `xradio_tx_net_process`, `xradio_tx_cmd_process`, `xradio_rx_process`,
`xradio_rx_cmd_process` and `xradio_check_tx_resume`, each run to its end before the
next, the calls of the network callbacks are pause, resume, pause, ... in turn, the flag
is 1 after an odd number of them and 0 after an even number, that is, it is 1 exactly
when the last callback was pause; and in every call, from any state, the pause callback
is called only with the flag at 0 and leaves it 1, the resume callback only with the
flag set and leaves it 0. -/
theorem pause_resume_alternate (c : xradio_consts) (priv : xradio_priv)
    (ops : List xradio_op) (h0 : priv.tx_data_pause = 0) :
    callbacks (xradio_ops_run c priv ops).2 =
      alternating_from 0 (callbacks (xradio_ops_run c priv ops).2).length ∧
    (xradio_ops_run c priv ops).1.tx_data_pause =
      (((callbacks (xradio_ops_run c priv ops).2).length % 2 : Nat) : Int) ∧
    ((xradio_ops_run c priv ops).1.tx_data_pause = 1 ↔
      (callbacks (xradio_ops_run c priv ops).2).getLast? = some Event.net_tx_pause) ∧
    (∀ (st : xradio_priv) (op : xradio_op),
      (Event.net_tx_pause ∈ (xradio_op_step c st op).2 →
        st.tx_data_pause = 0 ∧ (xradio_op_step c st op).1.tx_data_pause = 1) ∧
      (Event.net_tx_resume ∈ (xradio_op_step c st op).2 →
        st.tx_data_pause ≠ 0 ∧ (xradio_op_step c st op).1.tx_data_pause = 0)) := by
  obtain ⟨a1, a2⟩ := xradio_ops_run_callbacks c ops priv 0 (by omega) (by rw [h0]; rfl)
  rw [Nat.zero_add] at a2
  refine ⟨a1, a2, ?_, ?_⟩
  · rw [a2, a1, alternating_from_getLast]
    generalize (callbacks (xradio_ops_run c priv ops).2).length = n
    simp only [alternating_from, List.length_map, List.length_range]
    omega
  · intro st op
    have hs := callback_step_op c st op
    constructor
    · intro hm
      have hm2 : Event.net_tx_pause ∈ callbacks (xradio_op_step c st op).2 :=
        (mem_callbacks _ _).mpr ⟨hm, Or.inl rfl⟩
      rcases hs with ⟨_, h2⟩ | ⟨h1, h2, _⟩ | ⟨_, _, h3⟩
      · rw [h2] at hm2
        simp at hm2
      · exact ⟨h1, h2⟩
      · rw [h3] at hm2
        simp at hm2
    · intro hm
      have hm2 : Event.net_tx_resume ∈ callbacks (xradio_op_step c st op).2 :=
        (mem_callbacks _ _).mpr ⟨hm, Or.inr rfl⟩
      rcases hs with ⟨_, h2⟩ | ⟨_, _, h3⟩ | ⟨h1, h2, _⟩
      · rw [h2] at hm2
        simp at hm2
      · rw [h3] at hm2
        simp at hm2
      · exact ⟨h1, h2⟩

/-- Witness of `pause_resume_alternate`: two sends into a full data queue pause once, the
peer's resume request resumes once, the resume check then finds the flag clear. -/
theorem pause_resume_alternate_witness :
    callbacks (xradio_ops_run sample_consts sample_data_full sample_ops).2 =
      [Event.net_tx_pause, Event.net_tx_resume] ∧
    (xradio_ops_run sample_consts sample_data_full sample_ops).1.tx_data_pause = 0 := by
  have h := pause_resume_alternate sample_consts sample_data_full sample_ops rfl
  have hl : (callbacks (xradio_ops_run sample_consts sample_data_full sample_ops).2).length
      = 2 := by decide
  refine ⟨?_, ?_⟩
  · rw [h.1, hl]
    decide
  · rw [h.2.1, hl]
    decide

/-! ## Write failure with the entry left queued -/

theorem xradio_get_tx_buff_of_get (priv : xradio_priv) :
    xradio_get_tx_buff_of xradio_queue_get priv = xradio_get_tx_buff priv := rfl

theorem xradio_txrx_thread_tx_of_get (c : xradio_consts) (tx tx_status : Int)
    (priv : xradio_priv) :
    xradio_txrx_thread_tx_of xradio_queue_get c tx tx_status priv =
      xradio_txrx_thread_tx c tx tx_status priv := rfl

/-- Run without interruption, the steps of lines 193-195 change the flag and call the
callbacks as the whole call of `xradio_tx_net_process` does when the put reports Full. -/
theorem tx_net_pause_steps_alone (c : xradio_consts) (linearize_ok : Bool)
    (alloc : Option (Nat → Nat)) (priv : xradio_priv) (skb frame : sk_buff)
    (hen : priv.txrx_enable = true)
    (hframe : xradio_tx_net_frame c linearize_ok alloc priv.net_seq_number skb = some frame)
    (hfull : (xradio_queue_put priv.tx_queue_data frame priv.net_seq_number).1 ≠ 0) :
    (xradio_tx_net_process c linearize_ok alloc priv skb).st.tx_data_pause =
      (threads_run priv.tx_data_pause tx_net_pause_steps [] [true, true, true]).1 ∧
    callbacks (xradio_tx_net_process c linearize_ok alloc priv skb).ev =
      (threads_run priv.tx_data_pause tx_net_pause_steps [] [true, true, true]).2 := by
  rw [xradio_tx_net_process_eq c linearize_ok alloc priv skb frame hen hframe]
  by_cases h0 : priv.tx_data_pause = 0
  · simp only [threads_run, flag_step_run, tx_net_pause_steps, callbacks, h0, hfull, ne_eq,
      not_false_eq_true, and_self, if_true]
    split_ifs <;> simp
  · simp only [threads_run, flag_step_run, tx_net_pause_steps, callbacks, h0, hfull, ne_eq,
      not_false_eq_true, and_false, if_false]
    split_ifs <;> simp

/-- Run without interruption, the steps of lines 235-237 change the flag and call the
callbacks as the whole call of `xradio_rx_cmd_process` does on a pause request. -/
theorem rx_cmd_pause_steps_alone (c : xradio_consts) (priv : xradio_priv) (skb : sk_buff)
    (len seq : Nat) (h : c.cmd_type skb.data = c.XR_WIFI_DEV_RX_PAUSE) :
    (xradio_rx_cmd_process c priv skb len seq).st.tx_data_pause =
      (threads_run priv.tx_data_pause [] rx_cmd_pause_steps [false, false, false]).1 ∧
    callbacks (xradio_rx_cmd_process c priv skb len seq).ev =
      (threads_run priv.tx_data_pause [] rx_cmd_pause_steps [false, false, false]).2 := by
  unfold xradio_rx_cmd_process
  by_cases h0 : priv.tx_data_pause = 0
  · simp [threads_run, flag_step_run, rx_cmd_pause_steps, callbacks, h0, h]
  · simp [threads_run, flag_step_run, rx_cmd_pause_steps, callbacks, h0, h]

/-- Run without interruption, the steps of lines 243-245 change the flag and call the
callbacks as the whole call of `xradio_rx_cmd_process` does on a resume request. -/
theorem rx_cmd_resume_steps_alone (c : xradio_consts) (priv : xradio_priv) (skb : sk_buff)
    (len seq : Nat) (hne : c.XR_WIFI_DEV_RX_RESUME ≠ c.XR_WIFI_DEV_RX_PAUSE)
    (h : c.cmd_type skb.data = c.XR_WIFI_DEV_RX_RESUME) :
    (xradio_rx_cmd_process c priv skb len seq).st.tx_data_pause =
      (threads_run priv.tx_data_pause [] rx_cmd_resume_steps [false, false, false]).1 ∧
    callbacks (xradio_rx_cmd_process c priv skb len seq).ev =
      (threads_run priv.tx_data_pause [] rx_cmd_resume_steps [false, false, false]).2 := by
  unfold xradio_rx_cmd_process
  by_cases h0 : priv.tx_data_pause = 0
  · simp [threads_run, flag_step_run, rx_cmd_resume_steps, callbacks, h0, h, hne]
  · simp [threads_run, flag_step_run, rx_cmd_resume_steps, callbacks, h0, h, hne]

/-- Run without interruption, the steps of lines 371-381 change the flag and call the
callbacks as `xradio_check_tx_resume` does with the data queue below its threshold. -/
theorem check_resume_steps_alone (priv : xradio_priv)
    (hlow : xradio_queue_get_queue_num priv.tx_queue_data <
      priv.tx_queue_data.capacity * 1 / 5) :
    (xradio_check_tx_resume priv).1.tx_data_pause =
      (threads_run priv.tx_data_pause [] check_resume_steps [false, false, false]).1 ∧
    callbacks (xradio_check_tx_resume priv).2 =
      (threads_run priv.tx_data_pause [] check_resume_steps [false, false, false]).2 := by
  rw [xradio_check_tx_resume_eq]
  by_cases h0 : priv.tx_data_pause = 0
  · simp only [threads_run, flag_step_run, check_resume_steps, callbacks, h0, hlow, ne_eq,
      not_true_eq_false, false_and, if_false]
    split_ifs <;> simp
  · simp only [threads_run, flag_step_run, check_resume_steps, callbacks, h0, hlow, ne_eq,
      not_false_eq_true, and_self, if_true]
    split_ifs <;> simp

/-- C17 as stated fails.  From the flag at 0 the worker, handling a pause request of the
peer, reads the flag as 0 at line 235; before it goes on, a network send whose put
reports Full runs lines 193-195 on the sender's thread: it reads the flag as 0 too,
calls the pause callback and sets the flag; the worker then calls the pause callback at
line 236, with the flag at 1, and sets it.  The callbacks are two pauses in a row, so
not every interleaving gives the alternating trace.  The same two calls run one after
the other call the pause callback once. -/
theorem pause_twice_under_preemption :
    threads_run 0 tx_net_pause_steps rx_cmd_pause_steps
      [false, true, true, true, false, false] =
        (1, [Event.net_tx_pause, Event.net_tx_pause]) ∧
    (¬ ∀ schedule : List Bool,
      (threads_run 0 tx_net_pause_steps rx_cmd_pause_steps schedule).2 =
        alternating_from 0
          (threads_run 0 tx_net_pause_steps rx_cmd_pause_steps schedule).2.length) ∧
    threads_run 1 [] [flag_step.call_pause, flag_step.flag_set 1] [false, false] =
      (1, [Event.net_tx_pause]) ∧
    threads_run 0 tx_net_pause_steps rx_cmd_pause_steps
      [true, true, true, false, false, false] = (1, [Event.net_tx_pause]) := by
  refine ⟨by decide, ?_, by decide, by decide⟩
  intro h
  exact absurd (h [false, true, true, true, false, false]) (by decide)

end Xr806
